import Mathlib

/-!
# DogNet: privacy-aware public mirror and proximity query

A shallow embedding of `src/server.js` (the Express/Mongoose handlers
`POST /location`, `GET /locations`, `PUT /dog/:id`, `POST /dog/:id/share`,
`POST /nearby`, `DELETE /dog/:id`) as pure functions on an explicit store.

Modelling conventions.

* A MongoDB collection is the list of its documents in natural (insertion) order.
  `findOne`, `findOneAndUpdate` and `deleteOne` act on the first matching document,
  `find` / `deleteMany` on all matching documents; an upsert that matches nothing
  appends the new document.
* `ObjectId`s are natural numbers. The `_id` of `Location` and `PublicLocation`
  documents is not represented: the only use of it in the handlers is
  `deleteMany({ _id: { $in: staleIds } })`, which (the `_id` being the primary key)
  removes exactly the documents that were selected as stale.
* JavaScript numbers that are coordinates, radii and thresholds are rationals;
  request fields are well-formed numbers (no strings). A stored home coordinate
  is a `Coord`: a number, `null`, or left out of the document.
* `haversineMeters` is computed by the source in floating point from `Math.sin`,
  `Math.cos`, `Math.sqrt`, `Math.atan2`; every operation below takes the distance
  function as its first argument `hav`, so each theorem holds for whatever
  distance function the runtime computes. With `hav : Haversine` every distance
  is a number. `POST /nearby` is also given over `HaversineJs`, whose results may
  be `NaN` (`nearbyJs`); it agrees with `nearby` on number-valued distance
  functions, and `haversineMetersJs` is the function with the `NaN` of
  `Math.sqrt` of a negative number. The formula itself, read over the real
  numbers, is `haversineMeters`; it serves only to state what the formula
  computes.
* `Date` values are integers (milliseconds since the epoch); a missing timestamp
  is `none`. Each reading of the clock (`Date.now()`, `new Date()`) is an explicit
  argument of the handler.
* Request fields that may be left out of the JSON body are `Option`s
  (`none` = `undefined`).
* Store operations do not fail, except in `postLocationF`, where the awaited
  operations of the maintenance block of `POST /location` may reject.
-/

namespace DogNet

/-! ## Schemas -/

/-- A stored `Number` field that may be missing: left out of the document (`undefined`
when read), stored as `null`, or a number. -/
inductive Coord where
  | absent
  | null
  | num (q : ℚ)
deriving DecidableEq

/-- The value of a stored coordinate inside the arithmetic of `haversineMeters` when it is
passed as it is: `null` counts as `0`; with `undefined` the result is `NaN` (`none`). -/
def Coord.inArith : Coord → Option ℚ
  | Coord.absent => none
  | Coord.null => some 0
  | Coord.num q => some q

/-- The nested `homeLocation: { lat: Number, lon: Number }` of the user schema. -/
structure HomeLocation where
  lat : Coord
  lon : Coord
deriving DecidableEq

/-- The `userSchema` fields the handlers read. -/
structure User where
  _id : Nat
  homeLocation : Option HomeLocation
deriving DecidableEq

/-- Display fields of a dog; passed through untouched by the mirror logic. -/
structure Profile where
  name : Option String
  age : Option Nat
  breed : Option String
  traits : List String
  photoUrl : Option String
deriving DecidableEq

/-- The `dogSchema` (without the password hash). -/
structure Dog where
  _id : Nat
  ownerId : Option Nat
  deviceId : String
  sharePublic : Bool
  profile : Profile
deriving DecidableEq

/-- The `locationSchema`: one canonical record per report. -/
structure Location where
  dogId : Nat
  lat : ℚ
  lon : ℚ
  timestamp : Option Int
deriving DecidableEq

/-- The `publicLocationSchema`: the mirror of the latest public position. -/
structure PublicLocation where
  dogId : Nat
  lat : ℚ
  lon : ℚ
  timestamp : Option Int
deriving DecidableEq

/-- The four collections. -/
structure Store where
  users : List User
  dogs : List Dog
  locations : List Location
  publicLocations : List PublicLocation
deriving DecidableEq

/-- The type of `haversineMeters(lat1, lon1, lat2, lon2)`. -/
abbrev Haversine := ℚ → ℚ → ℚ → ℚ → ℚ

/-! ## Collection primitives -/

/-- The `Dog.findOne({ deviceId })` query. -/
def findDogByDevice (dogs : List Dog) (deviceId : String) : Option Dog :=
  dogs.find? (fun d => decide (d.deviceId = deviceId))

/-- The `Dog.findById(id)` query. -/
def findDogById (dogs : List Dog) (id : Nat) : Option Dog :=
  dogs.find? (fun d => decide (d._id = id))

/-- The `User.findById(id)` query. -/
def findUserById (users : List User) (id : Nat) : Option User :=
  users.find? (fun u => decide (u._id = id))

/-- Lookup in a JavaScript `Map` (or plain object) filled from a list of
`[key, value]` pairs in order: a later pair with the same key replaces an earlier one. -/
def mapGet {β : Type} : List (Nat × β) → Nat → Option β
  | [], _ => none
  | (k, v) :: rest, key =>
    match mapGet rest key with
    | some w => some w
    | none => if k = key then some v else none

/-- Ordering of stored timestamps under `sort({ timestamp: -1 })`: a missing
timestamp sorts below every date. -/
def tsLt : Option Int → Option Int → Bool
  | none, none => false
  | none, some _ => true
  | some _, none => false
  | some a, some b => decide (a < b)

/-- Keep the better of two candidates under a descending sort on `timestamp`;
among equal timestamps the earlier document in natural order is kept. -/
def pickLatest (best : Option Location) (l : Location) : Option Location :=
  match best with
  | none => some l
  | some b => if tsLt b.timestamp l.timestamp then some l else some b

/-- The query `Location.findOne({ dogId }).sort({ timestamp: -1 })`. -/
def findLatest (locs : List Location) (dogId : Nat) : Option Location :=
  (locs.filter (fun l => decide (l.dogId = dogId))).foldl pickLatest none

/-- The update `PublicLocation.findOneAndUpdate({ dogId }, r, { upsert: true })`:
overwrite the first document of that dog, or insert `r` when there is none. -/
def upsertPublic : List PublicLocation → PublicLocation → List PublicLocation
  | [], r => [r]
  | p :: ps, r => if p.dogId = r.dogId then r :: ps else p :: upsertPublic ps r

/-- The deletion `PublicLocation.deleteOne({ dogId })`: remove the first document of that dog. -/
def deleteOnePublic : List PublicLocation → Nat → List PublicLocation
  | [], _ => []
  | p :: ps, dogId => if p.dogId = dogId then ps else p :: deleteOnePublic ps dogId

/-- The write `dog.save()` of a loaded document: replace the stored document with the same `_id`. -/
def saveDog : List Dog → Dog → List Dog
  | [], _ => []
  | d :: ds, dog => if d._id = dog._id then dog :: ds else d :: saveDog ds dog

/-- The deletion `Dog.deleteOne({ _id })`. -/
def deleteOneDog : List Dog → Nat → List Dog
  | [], _ => []
  | d :: ds, id => if d._id = id then ds else d :: deleteOneDog ds id

/-! ## Geofence -/

/-- The setting `Number(process.env.HOME_THRESHOLD_METERS) || 50`: an unset
variable gives `NaN`, and `NaN` and `0` are falsy. -/
def HOME_THRESHOLD_METERS (env : Option ℚ) : ℚ :=
  match env with
  | none => 50
  | some v => if v = 0 then 50 else v

/-- The home point of an owner when `owner.homeLocation` exists and both
`lat != null` and `lon != null`. -/
def homePoint (owner : Option User) : Option (ℚ × ℚ) :=
  match owner with
  | none => none
  | some o =>
    match o.homeLocation with
    | none => none
    | some h =>
      match h.lat, h.lon with
      | Coord.num la, Coord.num lo => some (la, lo)
      | _, _ => none

/-- The owner lookup of `POST /location`: `if (dog.ownerId) owner = await User.findById(dog.ownerId)`. -/
def ownerOf (users : List User) (dog : Dog) : Option User :=
  match dog.ownerId with
  | none => none
  | some oid => findUserById users oid

/-- The flag `insideOwnerHome` of `POST /location`:
`haversineMeters(home.lat, home.lon, lat, lon) <= HOME_THRESHOLD_METERS`. -/
def insideOwnerHomeReport (hav : Haversine) (threshold : ℚ) (owner : Option User)
    (lat lon : ℚ) : Bool :=
  match homePoint owner with
  | none => false
  | some (hla, hlo) => decide (hav hla hlo lat lon ≤ threshold)

/-! ## Responses -/

/-- Outcome of a handler other than `POST /nearby`: the JSON success reply or
an error reply with its HTTP status. -/
inductive Reply where
  | ok
  | error (status : Nat)
deriving DecidableEq

/-! ## POST /location -/

/-- The `try` block of `POST /location` that maintains `PublicLocation` after the
canonical record has been saved. `tPub` is the `new Date()` of the upsert. -/
def maintainOnReport (hav : Haversine) (env : Option ℚ) (tPub : Int) (users : List User)
    (pubs : List PublicLocation) (dog : Dog) (lat lon : ℚ) : List PublicLocation :=
  if dog.sharePublic then
    let owner := ownerOf users dog
    let insideOwnerHome := insideOwnerHomeReport hav (HOME_THRESHOLD_METERS env) owner lat lon
    if insideOwnerHome then
      deleteOnePublic pubs dog._id
    else
      upsertPublic pubs { dogId := dog._id, lat := lat, lon := lon, timestamp := some tPub }
  else
    deleteOnePublic pubs dog._id

/-- The handler `app.post("/location")`. `tLoc` is the `Date.now` default of the
saved `Location`, `tPub` the later `new Date()` written to the mirror. -/
def postLocation (hav : Haversine) (env : Option ℚ) (tLoc tPub : Int) (s : Store)
    (deviceId : String) (lat lon : ℚ) : Store × Reply :=
  match findDogByDevice s.dogs deviceId with
  | none => (s, Reply.error 400)
  | some dog =>
    let loc : Location := { dogId := dog._id, lat := lat, lon := lon, timestamp := some tLoc }
    ({ s with
        locations := s.locations ++ [loc]
        publicLocations := maintainOnReport hav env tPub s.users s.publicLocations dog lat lon },
     Reply.ok)

/-! ## Sharing toggles -/

/-- The mirror maintenance shared by `POST /dog/:id/share` and `PUT /dog/:id`:
when enabling, copy the latest stored `Location` into `PublicLocation`; when
disabling, remove the public location. `now` is the `new Date()` used when the
latest record has no timestamp. -/
def maintainOnToggle (now : Int) (locs : List Location) (pubs : List PublicLocation)
    (dogId : Nat) (enable : Bool) : List PublicLocation :=
  if enable then
    match findLatest locs dogId with
    | some latest =>
      upsertPublic pubs
        { dogId := dogId, lat := latest.lat, lon := latest.lon,
          timestamp := some (latest.timestamp.getD now) }
    | none => pubs
  else
    deleteOnePublic pubs dogId

/-- The handler `app.post('/dog/:id/share')` for the authenticated user `userId`;
`enable` is `!!req.body.sharePublic`. -/
def postShare (now : Int) (s : Store) (userId : Nat) (id : Nat) (enable : Bool) :
    Store × Reply :=
  match findDogById s.dogs id with
  | none => (s, Reply.error 404)
  | some dog =>
    if dog.ownerId ≠ some userId then (s, Reply.error 403)
    else
      let dog1 : Dog := { dog with sharePublic := enable }
      ({ s with
          dogs := saveDog s.dogs dog1
          publicLocations := maintainOnToggle now s.locations s.publicLocations dog1._id enable },
       Reply.ok)

/-- The JSON body of `PUT /dog/:id`; `sharePublic` holds the truthiness of the
supplied value and `traits`, when present, is an array. -/
structure PutBody where
  name : Option String
  age : Option Nat
  breed : Option String
  traits : Option (List String)
  photoUrl : Option String
  deviceId : Option String
  sharePublic : Option Bool
deriving DecidableEq

/-- The field assignments of `PUT /dog/:id` (`if (x !== undefined) dog.x = x`). -/
def applyPut (dog : Dog) (deviceId : String) (b : PutBody) : Dog :=
  { dog with
    deviceId := deviceId
    sharePublic := b.sharePublic.getD dog.sharePublic
    profile :=
      { name := match b.name with | some n => some n | none => dog.profile.name
        age := match b.age with | some a => some a | none => dog.profile.age
        breed := match b.breed with | some x => some x | none => dog.profile.breed
        traits := b.traits.getD dog.profile.traits
        photoUrl := match b.photoUrl with | some u => some u | none => dog.profile.photoUrl } }

/-- The test `deviceId && deviceId !== dog.deviceId` of `PUT /dog/:id`. -/
def deviceChanges (dog : Dog) (b : PutBody) : Bool :=
  match b.deviceId with
  | some dev => decide (dev ≠ "" ∧ dev ≠ dog.deviceId)
  | none => false

/-- The device id of the dog after `PUT /dog/:id`. -/
def putDeviceId (dog : Dog) (b : PutBody) : String :=
  if deviceChanges dog b then b.deviceId.getD dog.deviceId else dog.deviceId

/-- The handler `app.put('/dog/:id')` for the authenticated user `userId`. -/
def putDog (now : Int) (s : Store) (userId : Nat) (id : Nat) (b : PutBody) : Store × Reply :=
  match findDogById s.dogs id with
  | none => (s, Reply.error 404)
  | some dog =>
    if dog.ownerId ≠ some userId then (s, Reply.error 403)
    else
      if deviceChanges dog b ∧ (findDogByDevice s.dogs (b.deviceId.getD "")).isSome then
        (s, Reply.error 400)
      else
        let dog1 := applyPut dog (putDeviceId dog b) b
        let pubs :=
          match b.sharePublic with
          | some _ => maintainOnToggle now s.locations s.publicLocations dog1._id dog1.sharePublic
          | none => s.publicLocations
        ({ s with dogs := saveDog s.dogs dog1, publicLocations := pubs }, Reply.ok)

/-! ## DELETE /dog/:id -/

/-- The handler `app.delete('/dog/:id')`: `Dog.deleteOne` then `Location.deleteMany`. -/
def deleteDog (s : Store) (userId : Nat) (id : Nat) : Store × Reply :=
  match findDogById s.dogs id with
  | none => (s, Reply.error 404)
  | some dog =>
    if dog.ownerId ≠ some userId then (s, Reply.error 403)
    else
      ({ s with
          dogs := deleteOneDog s.dogs dog._id
          locations := s.locations.filter (fun l => decide (l.dogId ≠ dog._id)) },
       Reply.ok)

/-! ## POST /nearby -/

/-- The destructured body of `POST /nearby`
(`{ lat, lon, radiusMeters = 2000, debug = false, homeThresholdMeters = 50 }`). -/
structure NearbyBody where
  lat : Option ℚ
  lon : Option ℚ
  radiusMeters : Option ℚ
  debug : Bool
  homeThresholdMeters : Option ℚ
deriving DecidableEq

/-- One element of `results`. -/
structure NearbyResult where
  dogId : Nat
  lat : ℚ
  lon : ℚ
  timestamp : Option Int
  profile : Profile
  sharePublic : Bool
  distanceMeters : Option ℚ
deriving DecidableEq

/-- The `reason` of a debug entry. -/
inductive Reason where
  | missing_dog
  | inside_owner_home
  | out_of_radius
deriving DecidableEq

/-- One element of `debugEntries`; `dist` is `distToHome` or `distanceMeters`. -/
structure DebugEntry where
  publicLocation : PublicLocation
  reason : Reason
  dist : Option ℚ
deriving DecidableEq

/-- The JSON payload of `POST /nearby`. -/
structure NearbyPayload where
  success : Bool
  count : Nat
  results : List NearbyResult
  debugEntries : Option (List DebugEntry)
deriving DecidableEq

/-- The record written by the maintenance pass and by the sharing toggles from the
latest canonical record (`timestamp: latest.timestamp || new Date()`). -/
def mirrorOf (now : Int) (dogId : Nat) (latest : Location) : PublicLocation :=
  { dogId := dogId, lat := latest.lat, lon := latest.lon,
    timestamp := some (latest.timestamp.getD now) }

/-- The test `!pub || latestTs > pubTs` of the maintenance pass, with
`latestTs = new Date(latest.timestamp || Date.now()).getTime()` and
`pubTs = pub ? new Date(pub.timestamp || 0).getTime() : 0`. -/
def needsRefresh (now : Int) (pub : Option PublicLocation) (latest : Location) : Bool :=
  let latestTs := latest.timestamp.getD now
  match pub with
  | none => true
  | some p => decide (latestTs > p.timestamp.getD 0)

/-- One iteration of `for (const dog of sharingDogs)` in the maintenance pass;
`existingMap` is the `Map` built before the loop. -/
def maintainStep (now : Int) (locs : List Location) (existingMap : List (Nat × PublicLocation))
    (pubs : List PublicLocation) (dog : Dog) : List PublicLocation :=
  let pub := mapGet existingMap dog._id
  match findLatest locs dog._id with
  | none => pubs
  | some latest =>
    if needsRefresh now pub latest then upsertPublic pubs (mirrorOf now dog._id latest)
    else pubs

/-- The maintenance pass at the start of `POST /nearby`: ensure `PublicLocation`
has entries for all dogs that have `sharePublic === true`. -/
def maintainBeforeNearby (now : Int) (dogs : List Dog) (locs : List Location)
    (pubs : List PublicLocation) : List PublicLocation :=
  let sharingDogs := dogs.filter (fun d => d.sharePublic)
  let sharingIds := sharingDogs.map (fun d => d._id)
  let existingPublic := pubs.filter (fun p => sharingIds.contains p.dogId)
  let existingMap := existingPublic.map (fun p => (p.dogId, p))
  sharingDogs.foldl (maintainStep now locs existingMap) pubs

/-- The defensive cleanup of `POST /nearby`: remove any `PublicLocation` entries for
dogs that no longer share (`!shareMap.get(String(p.dogId))`). -/
def cleanupStale (dogs : List Dog) (pubs : List PublicLocation) : List PublicLocation :=
  let pubDogIds := pubs.map (fun p => p.dogId)
  let dogsForPub := dogs.filter (fun d => pubDogIds.contains d._id)
  let shareMap := dogsForPub.map (fun d => (d._id, d.sharePublic))
  pubs.filter (fun p => (mapGet shareMap p.dogId).getD false)

/-- The reconciliation sweep run before every proximity query: the maintenance
pass followed by the defensive cleanup. -/
def sweep (now : Int) (s : Store) : Store :=
  { s with
    publicLocations :=
      cleanupStale s.dogs (maintainBeforeNearby now s.dogs s.locations s.publicLocations) }

/-- What the filter loop of `POST /nearby` does with one mirror record. -/
inductive Verdict where
  | skip (entry : DebugEntry)
  | emit (result : NearbyResult)
deriving DecidableEq

/-- The body of `for (const p of publicLocations)` when every distance is a number;
`dogById` and `ownerById` are the preloaded lookup objects. With distances that may be
`NaN` the body is `nearbyVerdictJs`, which agrees with this one on number-valued distance
functions (`nearbyVerdictJs_numberValued`). -/
def nearbyVerdict (hav : Haversine) (b : NearbyBody) (dogById : List (Nat × Dog))
    (ownerById : List (Nat × User)) (p : PublicLocation) : Verdict :=
  match mapGet dogById p.dogId with
  | none => Verdict.skip { publicLocation := p, reason := Reason.missing_dog, dist := none }
  | some dog =>
    let owner : Option User :=
      match dog.ownerId with
      | some oid => mapGet ownerById oid
      | none => none
    let home : Option ℚ :=
      match homePoint owner with
      | some (hla, hlo) =>
        let distToHome := hav p.lat p.lon hla hlo
        if distToHome ≤ b.homeThresholdMeters.getD 50 then some distToHome else none
      | none => none
    match home with
    | some distToHome =>
      Verdict.skip { publicLocation := p, reason := Reason.inside_owner_home, dist := some distToHome }
    | none =>
      let entry (distanceMeters : Option ℚ) : NearbyResult :=
        { dogId := p.dogId, lat := p.lat, lon := p.lon, timestamp := p.timestamp,
          profile := dog.profile, sharePublic := dog.sharePublic,
          distanceMeters := distanceMeters }
      match b.lat, b.lon with
      | some qlat, some qlon =>
        let distanceMeters := hav qlat qlon p.lat p.lon
        if distanceMeters > b.radiusMeters.getD 2000 then
          Verdict.skip { publicLocation := p, reason := Reason.out_of_radius,
                         dist := some distanceMeters }
        else Verdict.emit (entry (some distanceMeters))
      | _, _ => Verdict.emit (entry none)

/-- The result pushed for a verdict, if any. -/
def Verdict.result? : Verdict → Option NearbyResult
  | Verdict.emit r => some r
  | Verdict.skip _ => none

/-- The debug entry pushed for a verdict, if any. -/
def Verdict.debug? : Verdict → Option DebugEntry
  | Verdict.emit _ => none
  | Verdict.skip e => some e

/-- The preloaded `dogById` object of `POST /nearby`. -/
def preloadDogs (dogs : List Dog) (pubs : List PublicLocation) : List (Nat × Dog) :=
  let dogIds := pubs.map (fun p => p.dogId)
  (dogs.filter (fun d => dogIds.contains d._id)).map (fun d => (d._id, d))

/-- The preloaded `ownerById` object of `POST /nearby`. -/
def preloadOwners (users : List User) (dogs : List Dog) (pubs : List PublicLocation) :
    List (Nat × User) :=
  let ownerIds := (preloadDogs dogs pubs).filterMap (fun kv => kv.2.ownerId)
  (users.filter (fun u => ownerIds.contains u._id)).map (fun o => (o._id, o))

/-- The read part of `POST /nearby` on the maintained store. -/
def nearbyRead (hav : Haversine) (b : NearbyBody) (s : Store) : NearbyPayload :=
  let publicLocations := s.publicLocations
  let dogById := preloadDogs s.dogs publicLocations
  let ownerById := preloadOwners s.users s.dogs publicLocations
  let verdicts := publicLocations.map (nearbyVerdict hav b dogById ownerById)
  let results := verdicts.filterMap Verdict.result?
  { success := true
    count := results.length
    results := results
    debugEntries := if b.debug then some (verdicts.filterMap Verdict.debug?) else none }

/-- The handler `app.post('/nearby')`; `now` is the clock reading used when a
canonical record has no timestamp. -/
def nearby (hav : Haversine) (now : Int) (s : Store) (b : NearbyBody) : Store × NearbyPayload :=
  let s1 := sweep now s
  (s1, nearbyRead hav b s1)

/-! ## A concrete distance function for closed examples -/

/-- A distance function used to instantiate `hav` in closed examples: metres along
the latitude/longitude grid at 111195 m per degree. Like `haversineMeters` it gives
`0` for identical points and about 111 km for points one degree apart on the equator
or on a meridian; the examples only use such points. -/
def gridMeters : Haversine := fun lat1 lon1 lat2 lon2 =>
  111195 * (|lat2 - lat1| + |lon2 - lon1|)

/-! ## Lookups used to state the properties -/

/-- The lookup `dogById[id]` when every dog is loaded into the object. -/
def dogById (dogs : List Dog) (id : Nat) : Option Dog :=
  mapGet (dogs.map (fun d => (d._id, d))) id

/-- The lookup `ownerById[id]` when every user is loaded into the object. -/
def ownerById (users : List User) (id : Nat) : Option User :=
  mapGet (users.map (fun o => (o._id, o))) id

/-! ## The parts of the filter loop of `POST /nearby` -/

/-- The owner the filter loop resolves for a dog. -/
def nearbyOwner (users : List User) (dog : Dog) : Option User :=
  match dog.ownerId with
  | some oid => ownerById users oid
  | none => none

/-- The test `insideOwnerHome` of the filter loop of `POST /nearby` for a mirror
record of `dog`, with the threshold of the request. -/
def insideOwnerHomeNearby (hav : Haversine) (b : NearbyBody) (users : List User) (dog : Dog)
    (p : PublicLocation) : Bool :=
  match homePoint (nearbyOwner users dog) with
  | some (hla, hlo) => decide (hav p.lat p.lon hla hlo ≤ b.homeThresholdMeters.getD 50)
  | none => false

/-- The `distanceMeters` of the filter loop: the distance from the query point, or
`null` when the caller sent no `lat` or no `lon`. -/
def queryDistance (hav : Haversine) (b : NearbyBody) (p : PublicLocation) : Option ℚ :=
  match b.lat, b.lon with
  | some qlat, some qlon => some (hav qlat qlon p.lat p.lon)
  | _, _ => none

/-- The element pushed to `results` for the mirror record `p` of `dog`. -/
def resultOf (hav : Haversine) (b : NearbyBody) (dog : Dog) (p : PublicLocation) : NearbyResult :=
  { dogId := p.dogId, lat := p.lat, lon := p.lon, timestamp := p.timestamp,
    profile := dog.profile, sharePublic := dog.sharePublic,
    distanceMeters := queryDistance hav b p }

/-- The radius test of the filter loop: passes when there is no query point or
when the distance does not exceed `radiusMeters` (default 2000). -/
def withinRadius (hav : Haversine) (b : NearbyBody) (p : PublicLocation) : Bool :=
  match queryDistance hav b p with
  | some d => decide (d ≤ b.radiusMeters.getD 2000)
  | none => true

/-! ## Example data -/

/-- An owner whose home point is (10, 20). -/
def exOwner : User :=
  { _id := 1, homeLocation := some { lat := Coord.num 10, lon := Coord.num 20 } }

/-- A profile. -/
def exProfile : Profile :=
  { name := some "Rex", age := some 3, breed := none, traits := [], photoUrl := none }

/-- A sharing dog of `exOwner`. -/
def exDog : Dog :=
  { _id := 7, ownerId := some 1, deviceId := "dev7", sharePublic := true, profile := exProfile }

/-- A store with one owner and one sharing dog and no records yet. -/
def exStore : Store := { users := [exOwner], dogs := [exDog], locations := [], publicLocations := [] }

/-- A request body with no field set (`debug` false). -/
def exBody : NearbyBody :=
  { lat := none, lon := none, radiusMeters := none, debug := false, homeThresholdMeters := none }

/-- The store after the dog reported from (11, 20), one degree north of its home. -/
def exAway : Store := (postLocation gridMeters none 1000 1005 exStore "dev7" 11 20).1

/-- The store after the dog reported from its home point (10, 20). -/
def exAtHome : Store := (postLocation gridMeters none 1000 1005 exStore "dev7" 10 20).1

/-- The store after the dog reported from 100 m north of its home, the process-wide
threshold being set to 200 m (`HOME_THRESHOLD_METERS=200`). -/
def exNearHome : Store :=
  (postLocation gridMeters (some 200) 1000 1005 exStore "dev7" (10 + 100 / 111195) 20).1

/-! ## The mirror records of one dog -/

/-- The mirror documents of dog `e`, in natural order. -/
def recsOf (e : Nat) (pubs : List PublicLocation) : List PublicLocation :=
  pubs.filter (fun p => decide (p.dogId = e))

/-- The mirror holds a document for dog `e`. -/
def hasMirror (pubs : List PublicLocation) (e : Nat) : Bool :=
  pubs.any (fun p => decide (p.dogId = e))

/-- At most one mirror document per dog. -/
def MirrorUnique (pubs : List PublicLocation) : Prop :=
  (pubs.map (fun p => p.dogId)).Nodup

instance decMirrorUnique (pubs : List PublicLocation) : Decidable (MirrorUnique pubs) :=
  inferInstanceAs (Decidable ((pubs.map (fun p : PublicLocation => p.dogId)).Nodup))

/-! ## The reconciliation sweep, dog by dog -/

/-- The document the maintenance loop writes for dog `e` when `existingMap` is `em`, if any. -/
def refreshFor (now : Int) (locs : List Location) (em : List (Nat × PublicLocation)) (e : Nat) :
    Option PublicLocation :=
  match findLatest locs e with
  | none => none
  | some latest =>
    if needsRefresh now (mapGet em e) latest then some (mirrorOf now e latest) else none

/-- The document the maintenance pass writes for a sharing dog `e`, if any: the copy of
the latest canonical record, when the mirror has no document of `e` or its last one is older. -/
def sweepWrite (now : Int) (locs : List Location) (pubs : List PublicLocation) (e : Nat) :
    Option PublicLocation :=
  match findLatest locs e with
  | none => none
  | some latest =>
    if needsRefresh now (recsOf e pubs).getLast? latest then some (mirrorOf now e latest) else none

/-- Some dog with id `e` has `sharePublic` set. -/
def isSharing (dogs : List Dog) (e : Nat) : Bool :=
  dogs.any (fun d => d.sharePublic && decide (d._id = e))

/-- The test of the defensive cleanup: `shareMap.get(e)` is truthy. -/
def keeps (dogs : List Dog) (e : Nat) : Bool :=
  (mapGet (dogs.map (fun d => (d._id, d.sharePublic))) e).getD false

/-! ## The mirror-correctness condition of the specification -/

/-- The mirror-correctness condition as the specification words it, for dog `e`: a
mirror document of `e` exists iff `e` exists with `sharePublic` true, has a canonical
record, and its latest canonical record is outside the home geofence of its owner
(process-wide threshold), or the owner has no home point. -/
def MirrorCorrect (hav : Haversine) (env : Option ℚ) (s : Store) (e : Nat) : Prop :=
  hasMirror s.publicLocations e = true ↔
    ∃ d ∈ s.dogs, d._id = e ∧ d.sharePublic = true ∧
      ∃ latest, findLatest s.locations e = some latest ∧
        insideOwnerHomeReport hav (HOME_THRESHOLD_METERS env) (ownerOf s.users d)
          latest.lat latest.lon = false

/-! ## Example data: the radius scenario -/

/-- A second sharing dog of `exOwner`. -/
def exDog8 : Dog :=
  { _id := 8, ownerId := some 1, deviceId := "dev8", sharePublic := true, profile := exProfile }

/-- A mirror document 999 m north of the point (0, 0). -/
def exNear : PublicLocation :=
  { dogId := 7, lat := 999 / 111195, lon := 0, timestamp := some 1000 }

/-- A mirror document 1001 m north of the point (0, 0). -/
def exFar : PublicLocation :=
  { dogId := 8, lat := 1001 / 111195, lon := 0, timestamp := some 1000 }

/-- A store with two sharing dogs, at 999 m and at 1001 m from (0, 0). -/
def exRadius : Store :=
  { users := [exOwner], dogs := [exDog, exDog8],
    locations := [{ dogId := 7, lat := 999 / 111195, lon := 0, timestamp := some 1000 },
                  { dogId := 8, lat := 1001 / 111195, lon := 0, timestamp := some 1000 }],
    publicLocations := [exNear, exFar] }

/-- The query of the radius scenario: point (0, 0), radius 1000 m. -/
def exQuery : NearbyBody :=
  { lat := some 0, lon := some 0, radiusMeters := some 1000, debug := false,
    homeThresholdMeters := none }

/-! ## Sequences of queries and the sharing toggles -/

/-- The store after a sequence of `POST /nearby` requests (clock reading and body of each). -/
def runNearby (hav : Haversine) (reqs : List (Int × NearbyBody)) (s : Store) : Store :=
  reqs.foldl (fun st q => (nearby hav q.1 st q.2).1) s

/-- A `PUT /dog/:id` body that only sets `sharePublic` to false. -/
def exPutOff : PutBody :=
  { name := none, age := none, breed := none, traits := none, photoUrl := none,
    deviceId := none, sharePublic := some false }

/-! ## Example data: a dog that does not share -/

/-- The dog of `exOwner` with sharing off. -/
def exDogPrivate : Dog := { exDog with sharePublic := false }

/-- The store after the non-sharing dog reported from its home point (10, 20). -/
def exPrivateAtHome : Store :=
  (postLocation gridMeters none 1000 1005 { exStore with dogs := [exDogPrivate] } "dev7" 10 20).1

/-- A `PUT /dog/:id` body that only sets `sharePublic` to true. -/
def exPutOn : PutBody :=
  { name := none, age := none, breed := none, traits := none, photoUrl := none,
    deviceId := none, sharePublic := some true }

/-! ## POST /location when awaited store operations fail -/

/-- Which awaited operations of the maintenance block of `POST /location` reject:
`ownerLookup` is `User.findById` (its `catch` ignores the error and `owner` stays `null`),
`mirrorWrite` is the `PublicLocation.deleteOne` or `findOneAndUpdate` call (the outer
`catch` logs the error, the mirror is not written). -/
structure ReportFaults where
  ownerLookup : Bool
  mirrorWrite : Bool
deriving DecidableEq

/-- The `try` block of `POST /location` under the given faults. -/
def maintainOnReportF (faults : ReportFaults) (hav : Haversine) (env : Option ℚ) (tPub : Int)
    (users : List User) (pubs : List PublicLocation) (dog : Dog) (lat lon : ℚ) :
    List PublicLocation :=
  if dog.sharePublic then
    let owner := if faults.ownerLookup then none else ownerOf users dog
    let insideOwnerHome := insideOwnerHomeReport hav (HOME_THRESHOLD_METERS env) owner lat lon
    if faults.mirrorWrite then pubs
    else if insideOwnerHome then deleteOnePublic pubs dog._id
    else upsertPublic pubs { dogId := dog._id, lat := lat, lon := lon, timestamp := some tPub }
  else
    if faults.mirrorWrite then pubs else deleteOnePublic pubs dog._id

/-- The handler `app.post("/location")` under the given faults of its maintenance block. -/
def postLocationF (faults : ReportFaults) (hav : Haversine) (env : Option ℚ) (tLoc tPub : Int)
    (s : Store) (deviceId : String) (lat lon : ℚ) : Store × Reply :=
  match findDogByDevice s.dogs deviceId with
  | none => (s, Reply.error 400)
  | some dog =>
    let loc : Location := { dogId := dog._id, lat := lat, lon := lon, timestamp := some tLoc }
    ({ s with
        locations := s.locations ++ [loc]
        publicLocations :=
          maintainOnReportF faults hav env tPub s.users s.publicLocations dog lat lon },
     Reply.ok)

/-- The dog of `exOwner` at home, not sharing, with a stale mirror document. -/
def exStale : Store :=
  { users := [exOwner], dogs := [exDogPrivate], locations := [],
    publicLocations := [{ dogId := 7, lat := 11, lon := 20, timestamp := some 500 }] }

/-! ## GET /locations -/

/-- One element of the payload of `GET /locations`; `lat` and `lon` are `loc?.lat` and
`loc?.lon`. -/
structure DogDatum where
  dogId : Nat
  deviceId : String
  lat : Option ℚ
  lon : Option ℚ
  profile : Profile
  sharePublic : Bool
  ownerId : Option Nat
deriving DecidableEq

/-- The preloaded `ownersById` object of `GET /locations`. -/
def preloadAllOwners (users : List User) (dogs : List Dog) : List (Nat × User) :=
  let ownerIds := dogs.filterMap (fun d => d.ownerId)
  let owners := if ownerIds.isEmpty then [] else users.filter (fun u => ownerIds.contains u._id)
  owners.map (fun o => (o._id, o))

/-- The flag `isOwner` of `GET /locations`: `requesterId && dog.ownerId &&
String(dog.ownerId) === String(requesterId)`; `none` is a request without a valid token. -/
def isOwner (requesterId : Option Nat) (dog : Dog) : Bool :=
  match requesterId, dog.ownerId with
  | some r, some o => decide (o = r)
  | _, _ => false

/-- The home point that `GET /locations` passes to `haversineMeters`: the handler tests
`owner.homeLocation` but not its coordinates, and passes them as they are, so a stored
`null` counts as `0`; with a coordinate `undefined` the distance is `NaN` (`none`). -/
def listingHome (owner : Option User) : Option (ℚ × ℚ) :=
  match owner with
  | none => none
  | some o =>
    match o.homeLocation with
    | none => none
    | some h =>
      match h.lat.inArith, h.lon.inArith with
      | some la, some lo => some (la, lo)
      | _, _ => none

/-- The test of `GET /locations` that hides a public marker: `owner`, `owner.homeLocation`
and `loc` exist and `haversineMeters(home.lat, home.lon, loc.lat, loc.lon) <= threshold`;
a `NaN` distance makes the comparison false. -/
def hiddenAtHome (hav : Haversine) (threshold : ℚ) (owner : Option User)
    (loc : Option Location) : Bool :=
  match listingHome owner, loc with
  | some (hla, hlo), some l => decide (hav hla hlo l.lat l.lon ≤ threshold)
  | _, _ => false

/-- The element pushed to `dogData` for `dog` with latest location `loc`. -/
def datumOf (dog : Dog) (loc : Option Location) : DogDatum :=
  { dogId := dog._id, deviceId := dog.deviceId,
    lat := loc.map (fun l => l.lat), lon := loc.map (fun l => l.lon),
    profile := dog.profile, sharePublic := dog.sharePublic, ownerId := dog.ownerId }

/-- The body of `for (const dog of dogs)` in `GET /locations`; `loc` is the entry of
`latestLocations` for the dog (the first record of the dog in descending timestamp order). -/
def locationsEntry (hav : Haversine) (env : Option ℚ) (ownersById : List (Nat × User))
    (locs : List Location) (requesterId : Option Nat) (dog : Dog) : Option DogDatum :=
  let loc := findLatest locs dog._id
  if isOwner requesterId dog then some (datumOf dog loc)
  else if !dog.sharePublic then none
  else
    let owner : Option User :=
      match dog.ownerId with
      | some oid => mapGet ownersById oid
      | none => none
    if hiddenAtHome hav (HOME_THRESHOLD_METERS env) owner loc then none
    else some (datumOf dog loc)

/-- The handler `app.get("/locations")` for the requester decoded from the token, if any. -/
def getLocations (hav : Haversine) (env : Option ℚ) (s : Store) (requesterId : Option Nat) :
    List DogDatum :=
  let ownersById := preloadAllOwners s.users s.dogs
  s.dogs.filterMap (locationsEntry hav env ownersById s.locations requesterId)

/-- The visibility rule of the listing for `dog` as the specification words it: the
requester owns it, or it shares and is not (owner with a home point, latest canonical
record within the threshold of it). -/
def visibleTo (hav : Haversine) (env : Option ℚ) (s : Store) (requesterId : Option Nat)
    (dog : Dog) : Prop :=
  isOwner requesterId dog = true
    ∨ (dog.sharePublic = true
        ∧ ¬ ∃ hla hlo latest, homePoint (nearbyOwner s.users dog) = some (hla, hlo)
            ∧ findLatest s.locations dog._id = some latest
            ∧ hav hla hlo latest.lat latest.lon ≤ HOME_THRESHOLD_METERS env)

/-- The rule `GET /locations` applies to `dog`: like `visibleTo`, with the home point read
as the handler passes it to `haversineMeters` (a stored `null` coordinate counts as `0`). -/
def listedTo (hav : Haversine) (env : Option ℚ) (s : Store) (requesterId : Option Nat)
    (dog : Dog) : Prop :=
  isOwner requesterId dog = true
    ∨ (dog.sharePublic = true
        ∧ ¬ ∃ hla hlo latest, listingHome (nearbyOwner s.users dog) = some (hla, hlo)
            ∧ findLatest s.locations dog._id = some latest
            ∧ hav hla hlo latest.lat latest.lon ≤ HOME_THRESHOLD_METERS env)

/-- No stored home coordinate of the owner is `null`. -/
def noNullHome (owner : Option User) : Prop :=
  ∀ o h, owner = some o → o.homeLocation = some h → h.lat ≠ Coord.null ∧ h.lon ≠ Coord.null

/-- An owner whose stored home is `{ lat: null, lon: 20 }`. -/
def exOwnerNullHome : User :=
  { _id := 1, homeLocation := some { lat := Coord.null, lon := Coord.num 20 } }

/-- The store after the sharing dog of `exOwnerNullHome` reported from (0, 20). -/
def exNullHome : Store :=
  (postLocation gridMeters none 1000 1005
    { users := [exOwnerNullHome], dogs := [exDog], locations := [], publicLocations := [] }
    "dev7" 0 20).1

/-! ## POST /location on a raw body -/

/-- The document `new Location({ dogId, lat, lon })` for a body whose `lat` or `lon` may
be missing (`undefined`): the schema declares no required field. -/
structure RawLocation where
  dogId : Nat
  lat : Option ℚ
  lon : Option ℚ
  timestamp : Option Int
deriving DecidableEq

/-- The reply of `app.post("/location")` and the document it saves to the canonical log,
for a body whose `lat` or `lon` may be missing. The only `return res.status(400)` of the
handler is for an unregistered device; the document is saved before the maintenance
block, whose errors are caught, and the success reply follows it. -/
def postLocationRaw (tLoc : Int) (s : Store) (deviceId : String) (lat lon : Option ℚ) :
    Reply × Option RawLocation :=
  match findDogByDevice s.dogs deviceId with
  | none => (Reply.error 400, none)
  | some dog =>
    (Reply.ok, some { dogId := dog._id, lat := lat, lon := lon, timestamp := some tLoc })

/-! ## Example data: an owner without a home point -/

/-- A store whose only owner has a `homeLocation` without `lon`, with the sharing dog. -/
def exNoHome : Store :=
  { users := [{ _id := 1, homeLocation := some { lat := Coord.num 10, lon := Coord.absent } }],
    dogs := [exDog], locations := [], publicLocations := [] }

/-! ## haversineMeters over real arithmetic -/

/-- The function `Math.atan2(y, x)` over the reals: the angle of the point `(x, y)`, in
`(-π, π]`, and `0` at the origin. -/
noncomputable def atan2 (y x : ℝ) : ℝ := Complex.arg ⟨x, y⟩

/-- The inner function `toRad` of `haversineMeters`. -/
noncomputable def toRad (v : ℝ) : ℝ := v * Real.pi / 180

/-- The constant `a` of `haversineMeters`. -/
noncomputable def haversineA (lat1 lon1 lat2 lon2 : ℝ) : ℝ :=
  let dLat := toRad (lat2 - lat1)
  let dLon := toRad (lon2 - lon1)
  Real.sin (dLat / 2) * Real.sin (dLat / 2)
    + Real.cos (toRad lat1) * Real.cos (toRad lat2) * Real.sin (dLon / 2) * Real.sin (dLon / 2)

/-- The function `haversineMeters` with its arithmetic read over the real numbers
(`Math.sqrt`, `Math.sin`, `Math.cos`, `Math.atan2` exact, no rounding). -/
noncomputable def haversineMeters (lat1 lon1 lat2 lon2 : ℝ) : ℝ :=
  let R : ℝ := 6371000
  let a := haversineA lat1 lon1 lat2 lon2
  let c := 2 * atan2 (Real.sqrt a) (Real.sqrt (1 - a))
  R * c

/-! ## haversineMeters in floating point, and `POST /nearby` over its results -/

/-- The result of `haversineMeters` in floating point: a number or `NaN`. -/
inductive JsNum where
  | num (q : ℚ)
  | nan
deriving DecidableEq

/-- The comparison `x <= y` with a number `y`: false when `x` is `NaN`. -/
def JsNum.le (x : JsNum) (y : ℚ) : Bool :=
  match x with
  | JsNum.num q => decide (q ≤ y)
  | JsNum.nan => false

/-- The comparison `x > y` with a number `y`: false when `x` is `NaN`. -/
def JsNum.gt (x : JsNum) (y : ℚ) : Bool :=
  match x with
  | JsNum.num q => decide (q > y)
  | JsNum.nan => false

/-- The type of `haversineMeters(lat1, lon1, lat2, lon2)` when the result may be `NaN`. -/
abbrev HaversineJs := ℚ → ℚ → ℚ → ℚ → JsNum

/-- A number-valued distance function seen as one that never returns `NaN`. -/
def numberValued (hav : Haversine) : HaversineJs :=
  fun lat1 lon1 lat2 lon2 => JsNum.num (hav lat1 lon1 lat2 lon2)

/-- What the floating-point runtime contributes to `haversineMeters`: the double `a`
computed from the four arguments (`Math.sin`, `Math.cos` and the rounded products and
sum), and the double `R * (2 * Math.atan2(Math.sqrt(a), Math.sqrt(1 - a)))` computed from
an `a` whose two square roots are numbers. Doubles are rationals. -/
structure FloatRuntime where
  a : ℚ → ℚ → ℚ → ℚ → ℚ
  meters : ℚ → ℚ

/-- The function `haversineMeters` in floating point: `Math.sqrt` of a negative number is
`NaN`, `Math.atan2` with a `NaN` argument is `NaN`, and `R * NaN` is `NaN`. -/
def haversineMetersJs (rt : FloatRuntime) : HaversineJs := fun lat1 lon1 lat2 lon2 =>
  let a := rt.a lat1 lon1 lat2 lon2
  if a < 0 ∨ 1 - a < 0 then JsNum.nan else JsNum.num (rt.meters a)

/-- One element of `results`, with the `distanceMeters` the loop computed. -/
structure NearbyResultJs where
  dogId : Nat
  lat : ℚ
  lon : ℚ
  timestamp : Option Int
  profile : Profile
  sharePublic : Bool
  distanceMeters : Option JsNum
deriving DecidableEq

/-- One element of `debugEntries`; `dist` is `distToHome` or `distanceMeters`. -/
structure DebugEntryJs where
  publicLocation : PublicLocation
  reason : Reason
  dist : Option JsNum
deriving DecidableEq

/-- The JSON payload of `POST /nearby`. -/
structure NearbyPayloadJs where
  success : Bool
  count : Nat
  results : List NearbyResultJs
  debugEntries : Option (List DebugEntryJs)
deriving DecidableEq

/-- What the filter loop of `POST /nearby` does with one mirror record. -/
inductive VerdictJs where
  | skip (entry : DebugEntryJs)
  | emit (result : NearbyResultJs)
deriving DecidableEq

/-- The body of `for (const p of publicLocations)` for a distance function that may
return `NaN`: `distToHome <= Number(homeThresholdMeters)` and
`distanceMeters > Number(radiusMeters)` are both false on `NaN`. -/
def nearbyVerdictJs (hav : HaversineJs) (b : NearbyBody) (dogById : List (Nat × Dog))
    (ownerById : List (Nat × User)) (p : PublicLocation) : VerdictJs :=
  match mapGet dogById p.dogId with
  | none => VerdictJs.skip { publicLocation := p, reason := Reason.missing_dog, dist := none }
  | some dog =>
    let owner : Option User :=
      match dog.ownerId with
      | some oid => mapGet ownerById oid
      | none => none
    let home : Option JsNum :=
      match homePoint owner with
      | some (hla, hlo) =>
        let distToHome := hav p.lat p.lon hla hlo
        if distToHome.le (b.homeThresholdMeters.getD 50) then some distToHome else none
      | none => none
    match home with
    | some distToHome =>
      VerdictJs.skip { publicLocation := p, reason := Reason.inside_owner_home,
                       dist := some distToHome }
    | none =>
      let entry (distanceMeters : Option JsNum) : NearbyResultJs :=
        { dogId := p.dogId, lat := p.lat, lon := p.lon, timestamp := p.timestamp,
          profile := dog.profile, sharePublic := dog.sharePublic,
          distanceMeters := distanceMeters }
      match b.lat, b.lon with
      | some qlat, some qlon =>
        let distanceMeters := hav qlat qlon p.lat p.lon
        if distanceMeters.gt (b.radiusMeters.getD 2000) then
          VerdictJs.skip { publicLocation := p, reason := Reason.out_of_radius,
                           dist := some distanceMeters }
        else VerdictJs.emit (entry (some distanceMeters))
      | _, _ => VerdictJs.emit (entry none)

/-- The result pushed for a verdict, if any. -/
def VerdictJs.result? : VerdictJs → Option NearbyResultJs
  | VerdictJs.emit r => some r
  | VerdictJs.skip _ => none

/-- The debug entry pushed for a verdict, if any. -/
def VerdictJs.debug? : VerdictJs → Option DebugEntryJs
  | VerdictJs.emit _ => none
  | VerdictJs.skip e => some e

/-- The read part of `POST /nearby` on the maintained store. -/
def nearbyReadJs (hav : HaversineJs) (b : NearbyBody) (s : Store) : NearbyPayloadJs :=
  let publicLocations := s.publicLocations
  let dogById := preloadDogs s.dogs publicLocations
  let ownerById := preloadOwners s.users s.dogs publicLocations
  let verdicts := publicLocations.map (nearbyVerdictJs hav b dogById ownerById)
  let results := verdicts.filterMap VerdictJs.result?
  { success := true
    count := results.length
    results := results
    debugEntries := if b.debug then some (verdicts.filterMap VerdictJs.debug?) else none }

/-- The handler `app.post('/nearby')` for a distance function that may return `NaN`. -/
def nearbyJs (hav : HaversineJs) (now : Int) (s : Store) (b : NearbyBody) :
    Store × NearbyPayloadJs :=
  let s1 := sweep now s
  (s1, nearbyReadJs hav b s1)

/-- A result whose distance is a number, as an element of the payload. -/
def NearbyResult.toJs (r : NearbyResult) : NearbyResultJs :=
  { dogId := r.dogId, lat := r.lat, lon := r.lon, timestamp := r.timestamp,
    profile := r.profile, sharePublic := r.sharePublic,
    distanceMeters := r.distanceMeters.map JsNum.num }

/-- A debug entry whose distance is a number, as an element of the payload. -/
def DebugEntry.toJs (e : DebugEntry) : DebugEntryJs :=
  { publicLocation := e.publicLocation, reason := e.reason, dist := e.dist.map JsNum.num }

/-- A verdict with number-valued distances. -/
def Verdict.toJs : Verdict → VerdictJs
  | Verdict.skip e => VerdictJs.skip e.toJs
  | Verdict.emit r => VerdictJs.emit r.toJs

/-- A payload with number-valued distances. -/
def NearbyPayload.toJs (p : NearbyPayload) : NearbyPayloadJs :=
  { success := p.success, count := p.count, results := p.results.map NearbyResult.toJs,
    debugEntries := p.debugEntries.map (fun l => l.map DebugEntry.toJs) }

/-! ## Example data: a point and its antipode -/

/-- An owner without `homeLocation`. -/
def exOwnerNoHome : User := { _id := 1, homeLocation := none }

/-- The store after the sharing dog of `exOwnerNoHome` reported from (8, 0). -/
def exAntipodal : Store :=
  (postLocation gridMeters none 1000 1005
    { users := [exOwnerNoHome], dogs := [exDog], locations := [], publicLocations := [] }
    "dev7" 8 0).1

/-- The request `{ lat: -8, lon: -180, radiusMeters: 10 }`: the antipode of (8, 0). -/
def exAntipodalQuery : NearbyBody :=
  { lat := some (-8), lon := some (-180), radiusMeters := some 10, debug := false,
    homeThresholdMeters := none }

/-- A runtime for closed examples. For a point at latitude 8 or -8 and its antipode, `a` is
`1.0000000000000002` (`1 + 2^-52`): the double that line 107 yields there with the `Math.sin`
and `Math.cos` of V8 and of glibc. Elsewhere the distance is `gridMeters`, up to the
540 degrees of grid that two valid coordinates can be apart. -/
def exRuntime : FloatRuntime :=
  { a := fun lat1 lon1 lat2 lon2 =>
      if lat1 + lat2 = 0 ∧ |lat1| = 8 ∧ |lon2 - lon1| = 180 then 1 + 1 / 2 ^ 52
      else min 1 ((|lat2 - lat1| + |lon2 - lon1|) / 540)
    meters := fun a => 111195 * 540 * a }

/-! # Theorems -/

/-! ## Lemmas on `mapGet` -/

theorem mapGet_mem {β : Type} (l : List (Nat × β)) (k : Nat) (v : β)
    (h : mapGet l k = some v) : (k, v) ∈ l := by
  induction l with
  | nil => simp [mapGet] at h
  | cons a rest ih =>
    obtain ⟨k1, v1⟩ := a
    simp only [mapGet] at h
    cases hr : mapGet rest k with
    | some w =>
      rw [hr] at h
      simp only [Option.some.injEq] at h
      subst h
      exact List.mem_cons_of_mem _ (ih hr)
    | none =>
      rw [hr] at h
      by_cases hk : k1 = k
      · simp [hk] at h
        subst h; subst hk
        exact List.mem_cons_self _ _
      · simp [hk] at h

theorem mapGet_filter_map {α β : Type} (key : α → Nat) (g : α → β) (q : α → Bool)
    (l : List α) (k : Nat) (hq : ∀ x ∈ l, key x = k → q x = true) :
    mapGet ((l.filter q).map (fun x => (key x, g x))) k
      = mapGet (l.map (fun x => (key x, g x))) k := by
  induction l with
  | nil => rfl
  | cons a rest ih =>
    have ih1 := ih (fun x hx => hq x (List.mem_cons_of_mem _ hx))
    by_cases hqa : q a = true
    · simp only [List.filter_cons, hqa, if_true, List.map_cons, mapGet, ih1]
    · have hka : key a ≠ k := fun hk => hqa (hq a (List.mem_cons_self _ _) hk)
      have hqa1 : q a = false := by simpa using hqa
      simp only [List.filter_cons, hqa1, Bool.false_eq_true, if_false, List.map_cons, mapGet, hka]
      rw [ih1]
      cases mapGet (rest.map (fun x => (key x, g x))) k <;> rfl

theorem mapGet_map_some {α β : Type} (key : α → Nat) (g : α → β) (l : List α) (k : Nat)
    (v : β) (h : mapGet (l.map (fun x => (key x, g x))) k = some v) :
    ∃ x ∈ l, key x = k ∧ g x = v := by
  have hm := mapGet_mem _ _ _ h
  simp only [List.mem_map, Prod.mk.injEq] at hm
  obtain ⟨x, hx, hk, hv⟩ := hm
  exact ⟨x, hx, hk, hv⟩

theorem mapGet_map_none {α β : Type} (key : α → Nat) (g : α → β) (l : List α) (k : Nat) :
    mapGet (l.map (fun x => (key x, g x))) k = none ↔ ∀ x ∈ l, key x ≠ k := by
  induction l with
  | nil => simp [mapGet]
  | cons a rest ih =>
    simp only [List.map_cons, mapGet, List.mem_cons, forall_eq_or_imp]
    cases hr : mapGet (rest.map (fun x => (key x, g x))) k with
    | some w =>
      simp only [false_iff, not_and, reduceCtorEq]
      intro _ hall
      rw [ih.mpr hall] at hr
      cases hr
    | none =>
      by_cases hk : key a = k
      · simp [hk]
      · simp only [hk, if_false, true_iff, ne_eq, not_false_eq_true, true_and]
        exact ih.mp hr

/-- With unique keys the lookup finds each listed element. -/
theorem mapGet_map_of_nodup {α β : Type} (key : α → Nat) (g : α → β) (l : List α)
    (hnd : (l.map key).Nodup) (x : α) (hx : x ∈ l) :
    mapGet (l.map (fun y => (key y, g y))) (key x) = some (g x) := by
  induction l with
  | nil => cases hx
  | cons a rest ih =>
    simp only [List.map_cons, List.nodup_cons, List.mem_map, not_exists, not_and] at hnd
    simp only [List.map_cons, mapGet]
    rcases List.mem_cons.mp hx with rfl | hx1
    · have : mapGet (rest.map (fun y => (key y, g y))) (key x) = none :=
        (mapGet_map_none key g rest (key x)).mpr (fun y hy => hnd.1 y hy)
      simp [this]
    · rw [ih hnd.2 hx1]

/-! ## The filter loop of `POST /nearby` -/

theorem preloadDogs_get (dogs : List Dog) (pubs : List PublicLocation) (p : PublicLocation)
    (hp : p ∈ pubs) : mapGet (preloadDogs dogs pubs) p.dogId = dogById dogs p.dogId := by
  unfold preloadDogs dogById
  apply mapGet_filter_map (fun d : Dog => d._id) (fun d => d)
  intro d _ hd
  simp only [List.contains_eq_any_beq, List.any_eq_true, List.mem_map, beq_iff_eq]
  exact ⟨p.dogId, ⟨p, hp, rfl⟩, hd⟩

theorem preloadOwners_get (users : List User) (dogs : List Dog) (pubs : List PublicLocation)
    (k oid : Nat) (dog : Dog) (hdog : mapGet (preloadDogs dogs pubs) k = some dog)
    (ho : dog.ownerId = some oid) :
    mapGet (preloadOwners users dogs pubs) oid = ownerById users oid := by
  unfold preloadOwners ownerById
  apply mapGet_filter_map (fun u : User => u._id) (fun u => u)
  intro u _ hu
  simp only [List.contains_eq_any_beq, List.any_eq_true, List.mem_filterMap, beq_iff_eq]
  exact ⟨oid, ⟨(k, dog), mapGet_mem _ _ _ hdog, ho⟩, hu⟩

/-- The preloaded lookup objects answer like lookups over the whole collections. -/
theorem nearbyVerdict_preload (hav : Haversine) (b : NearbyBody) (users : List User)
    (dogs : List Dog) (pubs : List PublicLocation) (p : PublicLocation) (hp : p ∈ pubs) :
    nearbyVerdict hav b (preloadDogs dogs pubs) (preloadOwners users dogs pubs) p
      = nearbyVerdict hav b (dogs.map (fun d => (d._id, d))) (users.map (fun o => (o._id, o))) p := by
  have hd := preloadDogs_get dogs pubs p hp
  unfold dogById at hd
  unfold nearbyVerdict
  rw [← hd]
  cases hdog : mapGet (preloadDogs dogs pubs) p.dogId with
  | none => rfl
  | some dog =>
    cases ho : dog.ownerId with
    | none => simp only [ho]
    | some oid =>
      have hou := preloadOwners_get users dogs pubs p.dogId oid dog hdog ho
      unfold ownerById at hou
      simp only [ho, hou]

/-- Characterisation of the records that the filter loop emits. -/
theorem nearbyVerdict_emit_iff (hav : Haversine) (b : NearbyBody) (users : List User)
    (dogs : List Dog) (p : PublicLocation) (r : NearbyResult) :
    nearbyVerdict hav b (dogs.map (fun d => (d._id, d))) (users.map (fun o => (o._id, o))) p
        = Verdict.emit r
      ↔ ∃ dog, dogById dogs p.dogId = some dog
          ∧ insideOwnerHomeNearby hav b users dog p = false
          ∧ withinRadius hav b p = true
          ∧ r = resultOf hav b dog p := by
  unfold nearbyVerdict dogById insideOwnerHomeNearby nearbyOwner ownerById withinRadius
    resultOf queryDistance
  cases hdog : mapGet (dogs.map (fun d => (d._id, d))) p.dogId with
  | none => simp
  | some dog =>
    simp only [Option.some.injEq, exists_eq_left']
    cases hh : homePoint (match dog.ownerId with
        | some oid => mapGet (users.map (fun o => (o._id, o))) oid
        | none => none) with
    | none =>
      simp only [hh]
      cases hla : b.lat <;> cases hlo : b.lon <;>
        simp [eq_comm, not_lt]
      split_ifs with hgt
      · simp [not_le.mpr hgt]
      · simp [not_lt.mp hgt, eq_comm]
    | some hp =>
      obtain ⟨hla, hlo⟩ := hp
      simp only [hh]
      by_cases hin : hav p.lat p.lon hla hlo ≤ b.homeThresholdMeters.getD 50
      · simp [hin]
      · simp only [hin, if_false, decide_False, true_and]
        cases hla : b.lat <;> cases hlo : b.lon <;>
          simp [eq_comm, not_lt]
        split_ifs with hgt
        · simp [not_le.mpr hgt]
        · simp [not_lt.mp hgt, eq_comm]

theorem mem_results_iff (hav : Haversine) (b : NearbyBody) (s : Store) (r : NearbyResult) :
    r ∈ (nearbyRead hav b s).results
      ↔ ∃ p ∈ s.publicLocations, ∃ dog, dogById s.dogs p.dogId = some dog
          ∧ insideOwnerHomeNearby hav b s.users dog p = false
          ∧ withinRadius hav b p = true
          ∧ r = resultOf hav b dog p := by
  simp only [nearbyRead, List.mem_filterMap, List.mem_map, exists_exists_and_eq_and]
  constructor
  · rintro ⟨p, hp, hv⟩
    rw [nearbyVerdict_preload hav b s.users s.dogs s.publicLocations p hp] at hv
    cases hv1 : nearbyVerdict hav b (s.dogs.map (fun d => (d._id, d)))
        (s.users.map (fun o => (o._id, o))) p with
    | skip e => rw [hv1] at hv; simp [Verdict.result?] at hv
    | emit r1 =>
      rw [hv1] at hv
      simp only [Verdict.result?, Option.some.injEq] at hv
      subst hv
      exact ⟨p, hp, (nearbyVerdict_emit_iff hav b s.users s.dogs p r1).mp hv1⟩
  · rintro ⟨p, hp, hex⟩
    refine ⟨p, hp, ?_⟩
    rw [nearbyVerdict_preload hav b s.users s.dogs s.publicLocations p hp,
      (nearbyVerdict_emit_iff hav b s.users s.dogs p r).mpr hex]
    rfl

/-! ## C1: privacy at read time -/

/-- C1. Every element of `results` of `POST /nearby`, for every store (the mirror may
hold any stale record) and every request, whose dog has an owner with a home point
(both `lat` and `lon` present), lies strictly more than the request's home threshold
(`homeThresholdMeters`, 50 when not supplied) from that home point. -/
theorem nearby_result_outside_home (hav : Haversine) (now : Int) (s : Store) (b : NearbyBody)
    (r : NearbyResult) (dog : Dog) (oid : Nat) (owner : User) (hla hlo : ℚ)
    (hr : r ∈ (nearby hav now s b).2.results)
    (hdog : dogById s.dogs r.dogId = some dog)
    (hoid : dog.ownerId = some oid)
    (hown : ownerById s.users oid = some owner)
    (hhome : owner.homeLocation = some { lat := Coord.num hla, lon := Coord.num hlo }) :
    b.homeThresholdMeters.getD 50 < hav r.lat r.lon hla hlo := by
  obtain ⟨p, _, dog1, hd1, hin, _, hres⟩ := (mem_results_iff hav b (sweep now s) r).mp hr
  subst hres
  have hdd : dog1 = dog := by
    have : dogById s.dogs p.dogId = some dog1 := hd1
    rw [show (resultOf hav b dog1 p).dogId = p.dogId from rfl, this] at hdog
    exact Option.some.inj hdog
  subst hdd
  have hn : nearbyOwner (sweep now s).users dog1 = some owner := by
    simp only [nearbyOwner, hoid]
    exact hown
  simp only [insideOwnerHomeNearby, hn, homePoint, hhome, decide_eq_false_iff_not, not_le] at hin
  exact hin

/-- C1 at a concrete store: the dog reported one degree away from home and is returned,
more than 50 m from the home point. -/
theorem nearby_result_outside_home_witness :
    (nearby gridMeters 2000 exAway exBody).2.results
        = [{ dogId := 7, lat := 11, lon := 20, timestamp := some 1005, profile := exProfile,
             sharePublic := true, distanceMeters := none }]
      ∧ (50 : ℚ) < gridMeters 11 20 10 20 :=
  ⟨by decide!,
   nearby_result_outside_home gridMeters 2000 exAway exBody
    { dogId := 7, lat := 11, lon := 20, timestamp := some 1005, profile := exProfile,
      sharePublic := true, distanceMeters := none }
    exDog 1 exOwner 10 20 (by decide!) (by decide!) rfl (by decide!) rfl⟩

/-! ## C2: the threshold of the read-time filter comes from the request -/

/-- C2 (the code at the failing input). The dog's latest canonical record is at its
owner's home point (distance 0, within the process-wide threshold of 50 m), the report
path removed it from the mirror, and yet `POST /nearby` with `homeThresholdMeters: -1`
in the body returns the dog with its home coordinates. -/
theorem nearby_discloses_home_when_caller_lowers_threshold :
    exAtHome.publicLocations = []
      ∧ findLatest exAtHome.locations 7
          = some { dogId := 7, lat := 10, lon := 20, timestamp := some 1000 }
      ∧ gridMeters 10 20 10 20 ≤ HOME_THRESHOLD_METERS none
      ∧ (nearby gridMeters 2000 exAtHome { exBody with homeThresholdMeters := some (-1) }).2.results
          = [{ dogId := 7, lat := 10, lon := 20, timestamp := some 1000, profile := exProfile,
               sharePublic := true, distanceMeters := none }] := by
  refine ⟨by decide!, by decide!, by decide!, by decide!⟩

/-- The read-time filter does not read `HOME_THRESHOLD_METERS`: with the process-wide
threshold at 200 m, a dog 100 m from home is removed from the mirror by its report and
returned by a `POST /nearby` that supplies no threshold (the filter then uses 50). -/
theorem nearby_ignores_process_threshold :
    exNearHome.publicLocations = []
      ∧ gridMeters 10 20 (10 + 100 / 111195) 20 = 100
      ∧ (100 : ℚ) ≤ HOME_THRESHOLD_METERS (some 200)
      ∧ (nearby gridMeters 2000 exNearHome exBody).2.results
          = [{ dogId := 7, lat := 10 + 100 / 111195, lon := 20, timestamp := some 1000,
               profile := exProfile, sharePublic := true, distanceMeters := none }] := by
  refine ⟨by decide!, by decide!, by decide!, by decide!⟩

/-! ## Lemmas on the latest canonical record -/

theorem foldl_pickLatest_some (xs : List Location) (b : Location) :
    ∃ x, xs.foldl pickLatest (some b) = some x ∧ (x = b ∨ x ∈ xs) := by
  induction xs generalizing b with
  | nil => exact ⟨b, rfl, Or.inl rfl⟩
  | cons a rest ih =>
    simp only [List.foldl_cons, pickLatest]
    split_ifs
    · obtain ⟨x, hx, hm⟩ := ih a
      refine ⟨x, hx, Or.inr ?_⟩
      rcases hm with rfl | hm
      · exact List.mem_cons_self _ _
      · exact List.mem_cons_of_mem _ hm
    · obtain ⟨x, hx, hm⟩ := ih b
      refine ⟨x, hx, ?_⟩
      rcases hm with rfl | hm
      · exact Or.inl rfl
      · exact Or.inr (List.mem_cons_of_mem _ hm)

theorem findLatest_some_mem (locs : List Location) (e : Nat) (l : Location)
    (h : findLatest locs e = some l) : l ∈ locs ∧ l.dogId = e := by
  unfold findLatest at h
  cases hf : locs.filter (fun l => decide (l.dogId = e)) with
  | nil => rw [hf] at h; simp at h
  | cons a rest =>
    rw [hf] at h
    simp only [List.foldl_cons, pickLatest] at h
    obtain ⟨x, hx, hm⟩ := foldl_pickLatest_some rest a
    rw [hx] at h
    have hxl : x = l := Option.some.inj h
    subst hxl
    have hmem : x ∈ locs.filter (fun l => decide (l.dogId = e)) := by
      rw [hf]
      rcases hm with rfl | hm
      · exact List.mem_cons_self _ _
      · exact List.mem_cons_of_mem _ hm
    simpa using hmem

theorem findLatest_eq_none_iff (locs : List Location) (e : Nat) :
    findLatest locs e = none ↔ ∀ l ∈ locs, l.dogId ≠ e := by
  unfold findLatest
  cases hf : locs.filter (fun l => decide (l.dogId = e)) with
  | nil =>
    simp only [List.foldl_nil, true_iff]
    intro l hl he
    have : l ∈ locs.filter (fun l => decide (l.dogId = e)) := by simp [hl, he]
    rw [hf] at this
    cases this
  | cons a rest =>
    simp only [List.foldl_cons, pickLatest]
    obtain ⟨x, hx, _⟩ := foldl_pickLatest_some rest a
    rw [hx]
    simp only [false_iff, not_forall, reduceCtorEq]
    have ha : a ∈ locs.filter (fun l => decide (l.dogId = e)) := by
      rw [hf]; exact List.mem_cons_self _ _
    simp only [List.mem_filter, decide_eq_true_eq] at ha
    exact ⟨a, ha.1, fun hne => hne ha.2⟩

theorem findLatest_isSome_iff (locs : List Location) (e : Nat) :
    (findLatest locs e).isSome = true ↔ ∃ l ∈ locs, l.dogId = e := by
  rw [Option.isSome_iff_ne_none, ne_eq, findLatest_eq_none_iff]
  simp

/-! ## The mirror records of one dog -/

theorem hasMirror_iff (pubs : List PublicLocation) (e : Nat) :
    hasMirror pubs e = true ↔ ∃ p ∈ pubs, p.dogId = e := by
  simp [hasMirror]

theorem hasMirror_iff_recsOf (pubs : List PublicLocation) (e : Nat) :
    hasMirror pubs e = true ↔ recsOf e pubs ≠ [] := by
  rw [hasMirror_iff, recsOf, ne_eq, List.filter_eq_nil_iff]
  simp

theorem recsOf_upsert_ne (pubs : List PublicLocation) (r : PublicLocation) (e : Nat)
    (h : r.dogId ≠ e) : recsOf e (upsertPublic pubs r) = recsOf e pubs := by
  induction pubs with
  | nil => simp [upsertPublic, recsOf, h]
  | cons a rest ih =>
    simp only [upsertPublic]
    split_ifs with ha
    · have hae : a.dogId ≠ e := ha ▸ h
      simp [recsOf, h, hae]
    · unfold recsOf at ih ⊢
      simp only [List.filter_cons, ih]

theorem recsOf_upsert_eq (pubs : List PublicLocation) (r : PublicLocation) :
    recsOf r.dogId (upsertPublic pubs r) = r :: (recsOf r.dogId pubs).tail := by
  induction pubs with
  | nil => simp [upsertPublic, recsOf]
  | cons a rest ih =>
    simp only [upsertPublic]
    split_ifs with ha
    · simp [recsOf, ha]
    · unfold recsOf at ih ⊢
      simp only [List.filter_cons, ha, decide_False, Bool.false_eq_true, if_false, ih]

theorem upsert_eq_self (pubs : List PublicLocation) (r : PublicLocation)
    (h : (recsOf r.dogId pubs).head? = some r) : upsertPublic pubs r = pubs := by
  induction pubs with
  | nil => simp [recsOf] at h
  | cons a rest ih =>
    simp only [upsertPublic]
    by_cases ha : a.dogId = r.dogId
    · simp only [recsOf, List.filter_cons, ha, decide_True, if_true, List.head?_cons,
        Option.some.injEq] at h
      simp [ha, h]
    · simp only [recsOf, List.filter_cons, ha, decide_False, Bool.false_eq_true, if_false] at h
      simp only [ha, if_false, ih h]

theorem recsOf_deleteOne_ne (pubs : List PublicLocation) (d e : Nat) (h : d ≠ e) :
    recsOf e (deleteOnePublic pubs d) = recsOf e pubs := by
  induction pubs with
  | nil => rfl
  | cons a rest ih =>
    simp only [deleteOnePublic]
    split_ifs with ha
    · have hae : a.dogId ≠ e := ha ▸ h
      simp [recsOf, hae]
    · unfold recsOf at ih ⊢
      simp only [List.filter_cons, ih]

theorem recsOf_deleteOne_eq (pubs : List PublicLocation) (d : Nat) :
    recsOf d (deleteOnePublic pubs d) = (recsOf d pubs).tail := by
  induction pubs with
  | nil => rfl
  | cons a rest ih =>
    simp only [deleteOnePublic]
    split_ifs with ha
    · simp [recsOf, ha]
    · unfold recsOf at ih ⊢
      simp only [List.filter_cons, ha, decide_False, Bool.false_eq_true, if_false, ih]

/-- The lookup `existingMap.get(e)` is the last mirror document of dog `e`. -/
theorem mapGet_pubs (pubs : List PublicLocation) (e : Nat) :
    mapGet (pubs.map (fun p => (p.dogId, p))) e = (recsOf e pubs).getLast? := by
  induction pubs with
  | nil => rfl
  | cons a rest ih =>
    simp only [List.map_cons, mapGet, ih, recsOf, List.filter_cons]
    unfold recsOf at ih
    by_cases ha : a.dogId = e
    · simp only [ha, decide_True, if_true]
      cases hr : rest.filter (fun p => decide (p.dogId = e)) with
      | nil => simp
      | cons x xs =>
        rw [List.getLast?_cons_cons, List.getLast?_eq_getLast _ (List.cons_ne_nil x xs)]
    · simp only [ha, decide_False, Bool.false_eq_true, if_false]
      cases (rest.filter (fun p => decide (p.dogId = e))).getLast? <;> rfl

/-! ## The reconciliation sweep, dog by dog -/

theorem maintainStep_eq (now : Int) (locs : List Location) (em : List (Nat × PublicLocation))
    (pubs : List PublicLocation) (dog : Dog) :
    maintainStep now locs em pubs dog
      = match refreshFor now locs em dog._id with
        | some r => upsertPublic pubs r
        | none => pubs := by
  unfold maintainStep refreshFor
  cases findLatest locs dog._id with
  | none => rfl
  | some latest => simp only; split_ifs <;> rfl

theorem refreshFor_dogId (now : Int) (locs : List Location) (em : List (Nat × PublicLocation))
    (e : Nat) (r : PublicLocation) (h : refreshFor now locs em e = some r) : r.dogId = e := by
  unfold refreshFor at h
  cases hl : findLatest locs e with
  | none => rw [hl] at h; cases h
  | some latest =>
    rw [hl] at h
    simp only at h
    split_ifs at h
    cases h
    rfl

theorem recsOf_maintainStep (now : Int) (locs : List Location)
    (em : List (Nat × PublicLocation)) (pubs : List PublicLocation) (dog : Dog) (e : Nat) :
    recsOf e (maintainStep now locs em pubs dog)
      = if dog._id = e then
          (match refreshFor now locs em e with
           | some r => r :: (recsOf e pubs).tail
           | none => recsOf e pubs)
        else recsOf e pubs := by
  rw [maintainStep_eq]
  by_cases hd : dog._id = e
  · subst hd
    simp only [if_true]
    cases hr : refreshFor now locs em dog._id with
    | none => rfl
    | some r =>
      have hid := refreshFor_dogId now locs em dog._id r hr
      simp only
      rw [← hid, recsOf_upsert_eq]
  · simp only [hd, if_false]
    cases hr : refreshFor now locs em dog._id with
    | none => rfl
    | some r =>
      have hid := refreshFor_dogId now locs em dog._id r hr
      simp only
      exact recsOf_upsert_ne pubs r e (hid ▸ hd)

theorem recsOf_foldl_maintain (now : Int) (locs : List Location)
    (em : List (Nat × PublicLocation)) (ds : List Dog) (pubs : List PublicLocation) (e : Nat) :
    recsOf e (ds.foldl (maintainStep now locs em) pubs)
      = if e ∈ ds.map (fun d => d._id) then
          (match refreshFor now locs em e with
           | some r => r :: (recsOf e pubs).tail
           | none => recsOf e pubs)
        else recsOf e pubs := by
  induction ds generalizing pubs with
  | nil => simp
  | cons d rest ih =>
    simp only [List.foldl_cons, ih, recsOf_maintainStep, List.map_cons, List.mem_cons]
    by_cases hd : d._id = e
    · subst hd
      simp only [if_true, true_or]
      cases hr : refreshFor now locs em d._id with
      | none => simp
      | some r => simp
    · have he : ¬ e = d._id := fun h => hd h.symm
      simp only [hd, if_false, he, false_or]

theorem existingMap_get (dogs : List Dog) (pubs : List PublicLocation) (e : Nat)
    (he : e ∈ (dogs.filter (fun d => d.sharePublic)).map (fun d => d._id)) :
    mapGet ((pubs.filter (fun p =>
        ((dogs.filter (fun d => d.sharePublic)).map (fun d => d._id)).contains p.dogId)).map
          (fun p => (p.dogId, p))) e
      = (recsOf e pubs).getLast? := by
  rw [← mapGet_pubs]
  apply mapGet_filter_map (fun p : PublicLocation => p.dogId) (fun p => p)
  intro p _ hp
  simp only [List.contains_eq_any_beq, List.any_eq_true, beq_iff_eq]
  exact ⟨e, he, hp⟩

theorem mem_sharingIds_iff (dogs : List Dog) (e : Nat) :
    e ∈ (dogs.filter (fun d => d.sharePublic)).map (fun d => d._id) ↔ isSharing dogs e = true := by
  simp only [isSharing, List.mem_map, List.mem_filter, List.any_eq_true, Bool.and_eq_true,
    decide_eq_true_eq, and_assoc]

/-- Effect of the maintenance pass on the mirror documents of one dog. -/
theorem recsOf_maintain (now : Int) (dogs : List Dog) (locs : List Location)
    (pubs : List PublicLocation) (e : Nat) :
    recsOf e (maintainBeforeNearby now dogs locs pubs)
      = if isSharing dogs e = true then
          (match sweepWrite now locs pubs e with
           | some r => r :: (recsOf e pubs).tail
           | none => recsOf e pubs)
        else recsOf e pubs := by
  unfold maintainBeforeNearby
  simp only [recsOf_foldl_maintain, mem_sharingIds_iff]
  by_cases hs : isSharing dogs e = true
  · rw [if_pos hs, if_pos hs]
    have hem := existingMap_get dogs pubs e ((mem_sharingIds_iff dogs e).mpr hs)
    unfold refreshFor sweepWrite
    rw [hem]
  · rw [if_neg hs, if_neg hs]

theorem cleanupStale_eq_filter (dogs : List Dog) (pubs : List PublicLocation) :
    cleanupStale dogs pubs = pubs.filter (fun p => keeps dogs p.dogId) := by
  unfold cleanupStale keeps
  apply List.filter_congr
  intro p hp
  congr 1
  apply mapGet_filter_map (fun d : Dog => d._id) (fun d => d.sharePublic)
  intro d _ hd
  simp only [List.contains_eq_any_beq, List.any_eq_true, List.mem_map, beq_iff_eq]
  exact ⟨p.dogId, ⟨p, hp, rfl⟩, hd⟩

theorem recsOf_cleanupStale (dogs : List Dog) (pubs : List PublicLocation) (e : Nat) :
    recsOf e (cleanupStale dogs pubs) = if keeps dogs e = true then recsOf e pubs else [] := by
  rw [cleanupStale_eq_filter]
  unfold recsOf
  rw [List.filter_filter]
  split_ifs with hk
  · apply List.filter_congr
    intro p _
    by_cases hp : p.dogId = e
    · simp [hp, hk]
    · simp [hp]
  · rw [List.filter_eq_nil_iff]
    intro p _
    by_cases hp : p.dogId = e
    · simp [hp, hk]
    · simp [hp]

theorem keeps_isSharing (dogs : List Dog) (e : Nat) (h : keeps dogs e = true) :
    isSharing dogs e = true := by
  unfold keeps at h
  cases hm : mapGet (dogs.map (fun d => (d._id, d.sharePublic))) e with
  | none => rw [hm] at h; simp at h
  | some v =>
    rw [hm] at h
    simp only [Option.getD_some] at h
    subst h
    obtain ⟨d, hd, hk, hv⟩ := mapGet_map_some (fun d : Dog => d._id) (fun d => d.sharePublic) dogs e true hm
    simp only [isSharing, List.any_eq_true, Bool.and_eq_true, decide_eq_true_eq]
    exact ⟨d, hd, hv, hk⟩

theorem keeps_iff_of_nodup (dogs : List Dog) (hnd : (dogs.map (fun d => d._id)).Nodup) (e : Nat) :
    keeps dogs e = true ↔ ∃ d ∈ dogs, d._id = e ∧ d.sharePublic = true := by
  constructor
  · intro h
    have := keeps_isSharing dogs e h
    simp only [isSharing, List.any_eq_true, Bool.and_eq_true, decide_eq_true_eq] at this
    obtain ⟨d, hd, hv, hk⟩ := this
    exact ⟨d, hd, hk, hv⟩
  · rintro ⟨d, hd, hk, hv⟩
    unfold keeps
    have := mapGet_map_of_nodup (fun d : Dog => d._id) (fun d => d.sharePublic) dogs hnd d hd
    simp only at this
    rw [← hk, this, hv]
    rfl

/-! ## C3: which dogs have a mirror document after the sweep -/

/-- After the dog reported from its home point the sweep writes a mirror document for it,
although its latest canonical record is inside the geofence: the condition of the
specification fails after the sweep. -/
theorem sweep_not_mirrorCorrect :
    ¬ MirrorCorrect gridMeters none (sweep 2000 exAtHome) 7 := by
  intro h
  have hm : hasMirror (sweep 2000 exAtHome).publicLocations 7 = true := by decide!
  obtain ⟨d, hd, _, _, latest, hl, hin⟩ := h.mp hm
  have hd1 : d = exDog := by
    have : (sweep 2000 exAtHome).dogs = [exDog] := by decide!
    rw [this] at hd
    simpa using hd
  have hl1 : findLatest (sweep 2000 exAtHome).locations 7
      = some { dogId := 7, lat := 10, lon := 20, timestamp := some 1000 } := by decide!
  rw [hl1] at hl
  have hl2 := Option.some.inj hl
  subst hd1
  subst hl2
  revert hin
  decide!

/-- What the sweep does instead. After the sweep (dog ids being unique), a mirror
document of dog `e` exists iff `e` exists with `sharePublic` true and either has a canonical record or
already had a mirror document before the sweep; the geofence plays no part. -/
theorem sweep_mirror_iff (now : Int) (s : Store) (e : Nat)
    (hnd : (s.dogs.map (fun d => d._id)).Nodup) :
    hasMirror (sweep now s).publicLocations e = true
      ↔ (∃ d ∈ s.dogs, d._id = e ∧ d.sharePublic = true)
          ∧ ((∃ l ∈ s.locations, l.dogId = e) ∨ hasMirror s.publicLocations e = true) := by
  rw [hasMirror_iff_recsOf, hasMirror_iff_recsOf, ← keeps_iff_of_nodup s.dogs hnd e]
  show recsOf e (cleanupStale s.dogs (maintainBeforeNearby now s.dogs s.locations
    s.publicLocations)) ≠ [] ↔ _
  rw [recsOf_cleanupStale, recsOf_maintain]
  by_cases hk : keeps s.dogs e = true
  · have hs := keeps_isSharing s.dogs e hk
    simp only [hk, hs, if_true, true_and]
    unfold sweepWrite
    cases hl : findLatest s.locations e with
    | none =>
      have hno := (findLatest_eq_none_iff s.locations e).mp hl
      simp only [ne_eq]
      constructor
      · intro h; exact Or.inr h
      · rintro (⟨l, hl1, hl2⟩ | h)
        · exact absurd hl2 (hno l hl1)
        · exact h
    | some latest =>
      have hmem := findLatest_some_mem s.locations e latest hl
      simp only
      constructor
      · intro _; exact Or.inl ⟨latest, hmem.1, hmem.2⟩
      · intro _
        by_cases hn : needsRefresh now (recsOf e s.publicLocations).getLast? latest = true
        · simp [hn]
        · have hn1 : needsRefresh now (recsOf e s.publicLocations).getLast? latest = false := by
            simpa using hn
          simp only [hn1, Bool.false_eq_true, if_false]
          intro hnil
          rw [hnil] at hn
          exact hn rfl
  · simp [hk]

/-- The rule of the sweep at a concrete store: the dog at home has a mirror document after
the sweep. -/
theorem sweep_mirror_iff_witness :
    hasMirror (sweep 2000 exAtHome).publicLocations 7 = true
      ↔ (∃ d ∈ exAtHome.dogs, d._id = 7 ∧ d.sharePublic = true)
          ∧ ((∃ l ∈ exAtHome.locations, l.dogId = 7) ∨ hasMirror exAtHome.publicLocations 7 = true) :=
  sweep_mirror_iff 2000 exAtHome 7 (by decide!)

/-- C3 (the code at the failing input). The sharing dog reported from its owner's home
point (10, 20), and the report removed its mirror document ("ensure no public record
exists while dog is at home"). The sweep of the next `POST /nearby` writes a mirror
document for the dog at the home coordinates, although its latest canonical record is
inside the geofence by the test of the report: the condition of the specification fails
in the store the sweep leaves. -/
theorem sweep_mirrors_dog_at_home :
    exAtHome.publicLocations = []
      ∧ findLatest exAtHome.locations 7
          = some { dogId := 7, lat := 10, lon := 20, timestamp := some 1000 }
      ∧ insideOwnerHomeReport gridMeters (HOME_THRESHOLD_METERS none)
          (ownerOf exAtHome.users exDog) 10 20 = true
      ∧ (sweep 2000 exAtHome).publicLocations
          = [{ dogId := 7, lat := 10, lon := 20, timestamp := some 1000 }]
      ∧ (nearby gridMeters 2000 exAtHome exBody).1.publicLocations
          = [{ dogId := 7, lat := 10, lon := 20, timestamp := some 1000 }]
      ∧ ¬ MirrorCorrect gridMeters none (sweep 2000 exAtHome) 7 :=
  ⟨by decide!, by decide!, by decide!, by decide!, by decide!, sweep_not_mirrorCorrect⟩

/-! ## C4: timestamps on the mirror-write paths -/

/-- C4 (counterexample). After a report from (11, 20) the mirror document carries the
time of the upsert (1005), later than the canonical record (1000). Enabling sharing
again through `POST /dog/:id/share` writes the older canonical record over it: the
stored timestamp goes back from 1005 to 1000. -/
theorem share_toggle_overwrites_newer_mirror :
    exAway.publicLocations = [{ dogId := 7, lat := 11, lon := 20, timestamp := some 1005 }]
      ∧ findLatest exAway.locations 7
          = some { dogId := 7, lat := 11, lon := 20, timestamp := some 1000 }
      ∧ (postShare 3000 exAway 1 7 true).1.publicLocations
          = [{ dogId := 7, lat := 11, lon := 20, timestamp := some 1000 }]
      ∧ (postShare 3000 exAway 1 7 true).1.publicLocations ≠ exAway.publicLocations := by
  refine ⟨by decide!, by decide!, by decide!, by decide!⟩

/-- C4 (amended). Only the reconciliation sweep compares timestamps: when the mirror
document of dog `e` is not older than the latest canonical record of `e`, the maintenance
pass leaves the mirror documents of `e` unchanged. The sharing toggle and the location
report compare nothing: when they write, the first mirror document of the dog becomes
the record being written, whatever timestamp it had. -/
theorem mirror_write_timestamp_rule (hav : Haversine) (env : Option ℚ) (now : Int)
    (users : List User) (dogs : List Dog) (locs : List Location) (pubs : List PublicLocation)
    (e : Nat) (pub : PublicLocation)
    (hpub : (recsOf e pubs).getLast? = some pub)
    (hnew : ∀ latest, findLatest locs e = some latest →
      latest.timestamp.getD now ≤ pub.timestamp.getD 0) :
    recsOf e (maintainBeforeNearby now dogs locs pubs) = recsOf e pubs
      ∧ (∀ latest, findLatest locs e = some latest →
          (recsOf e (maintainOnToggle now locs pubs e true)).head?
            = some (mirrorOf now e latest))
      ∧ (∀ dog lat lon, dog._id = e → dog.sharePublic = true →
          insideOwnerHomeReport hav (HOME_THRESHOLD_METERS env) (ownerOf users dog) lat lon = false →
          (recsOf e (maintainOnReport hav env now users pubs dog lat lon)).head?
            = some { dogId := e, lat := lat, lon := lon, timestamp := some now }) := by
  refine ⟨?_, ?_, ?_⟩
  · rw [recsOf_maintain]
    split_ifs with hs
    · unfold sweepWrite
      cases hl : findLatest locs e with
      | none => rfl
      | some latest =>
        have hle := hnew latest hl
        have hn : needsRefresh now (recsOf e pubs).getLast? latest = false := by
          rw [hpub]
          simp only [needsRefresh, gt_iff_lt, decide_eq_false_iff_not, not_lt]
          exact hle
        simp only [hn, Bool.false_eq_true, if_false]
    · rfl
  · intro latest hl
    have : maintainOnToggle now locs pubs e true = upsertPublic pubs (mirrorOf now e latest) := by
      simp only [maintainOnToggle, if_true, hl, mirrorOf]
    rw [this]
    have h := recsOf_upsert_eq pubs (mirrorOf now e latest)
    rw [show (mirrorOf now e latest).dogId = e from rfl] at h
    rw [h]
    rfl
  · intro dog lat lon hid hsh hin
    subst hid
    have : maintainOnReport hav env now users pubs dog lat lon
        = upsertPublic pubs { dogId := dog._id, lat := lat, lon := lon, timestamp := some now } := by
      simp only [maintainOnReport, hsh, if_true, hin, Bool.false_eq_true, if_false]
    rw [this]
    have h := recsOf_upsert_eq pubs
      { dogId := dog._id, lat := lat, lon := lon, timestamp := some now }
    simp only at h
    rw [h]
    rfl

/-- C4 (amended) at a concrete store: the sweep leaves the mirror document written at
1005 alone (the latest canonical record is from 1000), while the toggle replaces it. -/
theorem mirror_write_timestamp_rule_witness :
    recsOf 7 (maintainBeforeNearby 3000 exAway.dogs exAway.locations exAway.publicLocations)
        = recsOf 7 exAway.publicLocations
      ∧ (∀ latest, findLatest exAway.locations 7 = some latest →
          (recsOf 7 (maintainOnToggle 3000 exAway.locations exAway.publicLocations 7 true)).head?
            = some (mirrorOf 3000 7 latest))
      ∧ (∀ dog lat lon, dog._id = 7 → dog.sharePublic = true →
          insideOwnerHomeReport gridMeters (HOME_THRESHOLD_METERS none)
            (ownerOf exAway.users dog) lat lon = false →
          (recsOf 7 (maintainOnReport gridMeters none 3000 exAway.users exAway.publicLocations
              dog lat lon)).head?
            = some { dogId := 7, lat := lat, lon := lon, timestamp := some 3000 }) :=
  mirror_write_timestamp_rule gridMeters none 3000 exAway.users exAway.dogs exAway.locations
    exAway.publicLocations 7 { dogId := 7, lat := 11, lon := 20, timestamp := some 1005 }
    (by decide!)
    (by
      intro latest hl
      have h1 : findLatest exAway.locations 7
          = some { dogId := 7, lat := 11, lon := 20, timestamp := some 1000 } := by decide!
      rw [h1] at hl
      have h2 := Option.some.inj hl
      subst h2
      decide)

/-! ## C5: the sweep is idempotent -/

theorem filter_upsert (k : Nat → Bool) (pubs : List PublicLocation) (r : PublicLocation) :
    (upsertPublic pubs r).filter (fun p => k p.dogId)
      = if k r.dogId = true then upsertPublic (pubs.filter (fun p => k p.dogId)) r
        else pubs.filter (fun p => k p.dogId) := by
  induction pubs with
  | nil =>
    by_cases hk : k r.dogId = true <;> simp [upsertPublic, hk]
  | cons a rest ih =>
    by_cases ha : a.dogId = r.dogId
    · by_cases hk : k r.dogId = true
      · simp [upsertPublic, ha, hk]
      · simp [upsertPublic, ha, hk]
    · by_cases hka : k a.dogId = true
      · simp only [upsertPublic, ha, if_false, List.filter_cons, hka, if_true, ih]
        split_ifs <;> simp [upsertPublic, ha]
      · have hka1 : k a.dogId = false := by simpa using hka
        simp only [upsertPublic, ha, if_false, List.filter_cons, hka1, Bool.false_eq_true, ih]

theorem needsRefresh_of_timestamp (now1 now2 : Int) (pub : Option PublicLocation)
    (latest : Location) (h : latest.timestamp ≠ none) :
    needsRefresh now2 pub latest = needsRefresh now1 pub latest := by
  obtain ⟨t, ht⟩ := Option.ne_none_iff_exists'.mp h
  simp [needsRefresh, ht]

theorem mirrorOf_of_timestamp (now1 now2 : Int) (e : Nat) (latest : Location)
    (h : latest.timestamp ≠ none) : mirrorOf now2 e latest = mirrorOf now1 e latest := by
  obtain ⟨t, ht⟩ := Option.ne_none_iff_exists'.mp h
  simp [mirrorOf, ht]

/-- After one sweep, a document that a second maintenance pass would write for a
kept sharing dog is already the first mirror document of that dog. -/
theorem second_pass_writes_nothing_new (now1 now2 : Int) (s : Store) (e : Nat)
    (hts : ∀ l ∈ s.locations, l.timestamp ≠ none)
    (hs : isSharing s.dogs e = true) (hk : keeps s.dogs e = true) (r : PublicLocation)
    (hr : sweepWrite now2 s.locations (sweep now1 s).publicLocations e = some r) :
    (recsOf e (sweep now1 s).publicLocations).head? = some r := by
  have hrec : recsOf e (sweep now1 s).publicLocations
      = match sweepWrite now1 s.locations s.publicLocations e with
        | some r1 => r1 :: (recsOf e s.publicLocations).tail
        | none => recsOf e s.publicLocations := by
    show recsOf e (cleanupStale s.dogs (maintainBeforeNearby now1 s.dogs s.locations
      s.publicLocations)) = _
    rw [recsOf_cleanupStale, recsOf_maintain, if_pos hk, if_pos hs]
  unfold sweepWrite at hr hrec
  cases hl : findLatest s.locations e with
  | none => rw [hl] at hr; cases hr
  | some latest =>
    have ht := hts latest (findLatest_some_mem s.locations e latest hl).1
    rw [hl] at hr hrec
    simp only at hr hrec
    by_cases hn : needsRefresh now1 (recsOf e s.publicLocations).getLast? latest = true
    · simp only [hn, if_true] at hrec
      rw [hrec] at hr ⊢
      split_ifs at hr
      rw [mirrorOf_of_timestamp now1 now2 e latest ht] at hr
      simpa using hr
    · have hn1 : needsRefresh now1 (recsOf e s.publicLocations).getLast? latest = false := by
        simpa using hn
      simp only [hn1, Bool.false_eq_true, if_false] at hrec
      rw [hrec, needsRefresh_of_timestamp now1 now2 _ latest ht, hn1] at hr
      simp at hr

theorem foldl_maintain_cleanup_fixed (now : Int) (locs : List Location)
    (em : List (Nat × PublicLocation)) (dogs : List Dog) (m1 : List PublicLocation)
    (hnoop : ∀ e r, keeps dogs e = true → refreshFor now locs em e = some r →
      (recsOf e m1).head? = some r)
    (ds : List Dog) (acc : List PublicLocation)
    (hacc : acc.filter (fun p => keeps dogs p.dogId) = m1) :
    (ds.foldl (maintainStep now locs em) acc).filter (fun p => keeps dogs p.dogId) = m1 := by
  induction ds generalizing acc with
  | nil => exact hacc
  | cons d rest ih =>
    simp only [List.foldl_cons]
    apply ih
    rw [maintainStep_eq]
    cases hr : refreshFor now locs em d._id with
    | none => exact hacc
    | some r =>
      have hid := refreshFor_dogId now locs em d._id r hr
      simp only
      rw [filter_upsert (keeps dogs), hacc]
      split_ifs with hk
      · apply upsert_eq_self
        rw [hid]
        exact hnoop d._id r (hid ▸ hk) hr
      · rfl

/-- C5. When every canonical record carries a timestamp, a second reconciliation sweep
(whatever the clock reads) changes nothing: the store after the second sweep equals the
store after the first, and neither sweep touches users, dogs or the canonical log. -/
theorem sweep_idempotent (now1 now2 : Int) (s : Store)
    (hts : ∀ l ∈ s.locations, l.timestamp ≠ none) :
    sweep now2 (sweep now1 s) = sweep now1 s
      ∧ (sweep now1 s).locations = s.locations
      ∧ (sweep now1 s).dogs = s.dogs
      ∧ (sweep now1 s).users = s.users := by
  refine ⟨?_, rfl, rfl, rfl⟩
  have hm1 : (sweep now1 s).publicLocations.filter (fun p => keeps s.dogs p.dogId)
      = (sweep now1 s).publicLocations := by
    show (cleanupStale s.dogs _).filter _ = cleanupStale s.dogs _
    rw [cleanupStale_eq_filter, List.filter_filter]
    apply List.filter_congr
    intro p _
    simp
  have hgoal : cleanupStale s.dogs (maintainBeforeNearby now2 s.dogs s.locations
      (sweep now1 s).publicLocations) = (sweep now1 s).publicLocations := by
    rw [cleanupStale_eq_filter]
    unfold maintainBeforeNearby
    apply foldl_maintain_cleanup_fixed now2 s.locations _ s.dogs _ _ _ _ hm1
    intro e r hk hr
    have hs := keeps_isSharing s.dogs e hk
    have hem := existingMap_get s.dogs (sweep now1 s).publicLocations e
      ((mem_sharingIds_iff s.dogs e).mpr hs)
    apply second_pass_writes_nothing_new now1 now2 s e hts hs hk r
    unfold refreshFor at hr
    unfold sweepWrite
    rw [hem] at hr
    exact hr
  have hsw : sweep now2 (sweep now1 s)
      = { sweep now1 s with
          publicLocations :=
            (cleanupStale s.dogs (maintainBeforeNearby now2 s.dogs s.locations
              (sweep now1 s).publicLocations)) } := rfl
  rw [hsw, hgoal]

/-- C5 at a concrete store: two sweeps after a report from home. -/
theorem sweep_idempotent_witness :
    sweep 3000 (sweep 2000 exAtHome) = sweep 2000 exAtHome
      ∧ (sweep 2000 exAtHome).locations = exAtHome.locations
      ∧ (sweep 2000 exAtHome).dogs = exAtHome.dogs
      ∧ (sweep 2000 exAtHome).users = exAtHome.users :=
  sweep_idempotent 2000 3000 exAtHome (by decide!)

/-! ## The radius filter when every distance is a number -/

/-- The radius rule for a distance function that never returns `NaN`. For a request with
both `lat` and `lon`, a mirror record that passes the missing-dog and owner-home filters
is in `results` iff its distance `d` from the query point satisfies `d <= radiusMeters`
(2000 when not supplied; `d = radiusMeters` is included), its element carries
`distanceMeters = d`, and every element of `results` carries its own distance from the
query point, which is within the radius. -/
theorem nearby_radius (hav : Haversine) (now : Int) (s : Store) (b : NearbyBody)
    (qlat qlon : ℚ) (p : PublicLocation) (dog : Dog)
    (hlat : b.lat = some qlat) (hlon : b.lon = some qlon)
    (hp : p ∈ (nearby hav now s b).1.publicLocations)
    (hdog : dogById s.dogs p.dogId = some dog)
    (hout : insideOwnerHomeNearby hav b s.users dog p = false) :
    (resultOf hav b dog p ∈ (nearby hav now s b).2.results
        ↔ hav qlat qlon p.lat p.lon ≤ b.radiusMeters.getD 2000)
      ∧ (resultOf hav b dog p).distanceMeters = some (hav qlat qlon p.lat p.lon)
      ∧ ∀ r ∈ (nearby hav now s b).2.results,
          r.distanceMeters = some (hav qlat qlon r.lat r.lon)
            ∧ hav qlat qlon r.lat r.lon ≤ b.radiusMeters.getD 2000 := by
  have hq : ∀ q : PublicLocation, queryDistance hav b q = some (hav qlat qlon q.lat q.lon) := by
    intro q; simp [queryDistance, hlat, hlon]
  have hw : ∀ q : PublicLocation, withinRadius hav b q = true
      ↔ hav qlat qlon q.lat q.lon ≤ b.radiusMeters.getD 2000 := by
    intro q; simp [withinRadius, hq]
  have hall : ∀ r ∈ (nearby hav now s b).2.results,
      r.distanceMeters = some (hav qlat qlon r.lat r.lon)
        ∧ hav qlat qlon r.lat r.lon ≤ b.radiusMeters.getD 2000 := by
    intro r hr
    obtain ⟨q, _, dog1, _, _, hwq, hres⟩ := (mem_results_iff hav b (sweep now s) r).mp hr
    subst hres
    exact ⟨hq q, (hw q).mp hwq⟩
  refine ⟨⟨?_, ?_⟩, hq p, hall⟩
  · intro hr
    exact (hall _ hr).2
  · intro hd
    exact (mem_results_iff hav b (sweep now s) _).mpr
      ⟨p, hp, dog, hdog, hout, (hw p).mpr hd, rfl⟩

/-- The radius rule at the scenario of the specification: the record at 999 m is in
`results` with `distanceMeters = 999`. -/
theorem nearby_radius_witness :
    (resultOf gridMeters exQuery exDog exNear ∈ (nearby gridMeters 2000 exRadius exQuery).2.results
        ↔ gridMeters 0 0 exNear.lat exNear.lon ≤ exQuery.radiusMeters.getD 2000)
      ∧ (resultOf gridMeters exQuery exDog exNear).distanceMeters
          = some (gridMeters 0 0 exNear.lat exNear.lon)
      ∧ ∀ r ∈ (nearby gridMeters 2000 exRadius exQuery).2.results,
          r.distanceMeters = some (gridMeters 0 0 r.lat r.lon)
            ∧ gridMeters 0 0 r.lat r.lon ≤ exQuery.radiusMeters.getD 2000 :=
  nearby_radius gridMeters 2000 exRadius exQuery 0 0 exNear exDog rfl rfl
    (by decide!) (by decide!) (by decide!)

/-- The radius scenario evaluated: of the records at 999 m and 1001 m from (0, 0), with
radius 1000 m, exactly the first is returned. -/
theorem radius_scenario :
    gridMeters 0 0 exNear.lat exNear.lon = 999
      ∧ gridMeters 0 0 exFar.lat exFar.lon = 1001
      ∧ (nearby gridMeters 2000 exRadius exQuery).2.results
          = [{ dogId := 7, lat := 999 / 111195, lon := 0, timestamp := some 1000,
               profile := exProfile, sharePublic := true, distanceMeters := some 999 }] := by
  refine ⟨by decide!, by decide!, by decide!⟩

/-! ## C7: disabling sharing -/

theorem findDogById_some (dogs : List Dog) (id : Nat) (dog : Dog)
    (h : findDogById dogs id = some dog) : dog ∈ dogs ∧ dog._id = id := by
  unfold findDogById at h
  have h1 := List.find?_some h
  have h2 := List.mem_of_find?_eq_some h
  exact ⟨h2, by simpa using h1⟩

theorem mem_saveDog (dogs : List Dog) (dog1 x : Dog)
    (hnd : (dogs.map (fun d => d._id)).Nodup) (hx : x ∈ saveDog dogs dog1) :
    x = dog1 ∨ (x ∈ dogs ∧ x._id ≠ dog1._id) := by
  induction dogs with
  | nil => simp [saveDog] at hx
  | cons a rest ih =>
    simp only [List.map_cons, List.nodup_cons, List.mem_map, not_exists, not_and] at hnd
    simp only [saveDog] at hx
    split_ifs at hx with ha
    · rcases List.mem_cons.mp hx with rfl | hx1
      · exact Or.inl rfl
      · refine Or.inr ⟨List.mem_cons_of_mem _ hx1, ?_⟩
        intro hxe
        exact hnd.1 x hx1 (hxe.trans ha.symm)
    · rcases List.mem_cons.mp hx with rfl | hx1
      · exact Or.inr ⟨List.mem_cons_self _ _, ha⟩
      · rcases ih hnd.2 hx1 with h | ⟨h1, h2⟩
        · exact Or.inl h
        · exact Or.inr ⟨List.mem_cons_of_mem _ h1, h2⟩

theorem isSharing_saveDog_off (dogs : List Dog) (dog1 : Dog)
    (hnd : (dogs.map (fun d => d._id)).Nodup) (hoff : dog1.sharePublic = false) :
    isSharing (saveDog dogs dog1) dog1._id = false := by
  rw [Bool.eq_false_iff]
  intro h
  simp only [isSharing, List.any_eq_true, Bool.and_eq_true, decide_eq_true_eq] at h
  obtain ⟨x, hx, hsh, hid⟩ := h
  rcases mem_saveDog dogs dog1 x hnd hx with rfl | ⟨_, hne⟩
  · rw [hoff] at hsh; cases hsh
  · exact hne hid

theorem results_keeps (hav : Haversine) (now : Int) (s : Store) (b : NearbyBody)
    (r : NearbyResult) (hr : r ∈ (nearby hav now s b).2.results) :
    keeps s.dogs r.dogId = true := by
  obtain ⟨p, hp, dog, _, _, _, hres⟩ := (mem_results_iff hav b (sweep now s) r).mp hr
  subst hres
  have hp1 : p ∈ cleanupStale s.dogs
      (maintainBeforeNearby now s.dogs s.locations s.publicLocations) := hp
  rw [cleanupStale_eq_filter] at hp1
  exact (List.mem_filter.mp hp1).2

theorem runNearby_dogs (hav : Haversine) (reqs : List (Int × NearbyBody)) (s : Store) :
    (runNearby hav reqs s).dogs = s.dogs := by
  unfold runNearby
  induction reqs generalizing s with
  | nil => rfl
  | cons q rest ih =>
    simp only [List.foldl_cons]
    rw [ih]
    rfl

/-- No request returns a dog that is not sharing. -/
theorem not_sharing_not_returned (hav : Haversine) (reqs : List (Int × NearbyBody)) (s : Store)
    (id : Nat) (hoff : isSharing s.dogs id = false) (now : Int) (b : NearbyBody) :
    ∀ r ∈ (nearby hav now (runNearby hav reqs s) b).2.results, r.dogId ≠ id := by
  intro r hr hid
  have hk := results_keeps hav now _ b r hr
  rw [runNearby_dogs, hid] at hk
  have := keeps_isSharing s.dogs id hk
  rw [hoff] at this
  cases this

theorem recsOf_length_le_one (pubs : List PublicLocation) (hmu : MirrorUnique pubs) (e : Nat) :
    (recsOf e pubs).length ≤ 1 := by
  unfold MirrorUnique at hmu
  induction pubs with
  | nil => simp [recsOf]
  | cons a rest ih =>
    simp only [List.map_cons, List.nodup_cons, List.mem_map, not_exists, not_and] at hmu
    by_cases ha : a.dogId = e
    · have hnil : recsOf e rest = [] := by
        unfold recsOf
        rw [List.filter_eq_nil_iff]
        intro p hp
        simp only [decide_eq_true_eq]
        intro hpe
        exact hmu.1 p hp (hpe.trans ha.symm)
      unfold recsOf at hnil ⊢
      simp [List.filter_cons, ha, hnil]
    · unfold recsOf at ih ⊢
      simp only [List.filter_cons, ha, decide_False, Bool.false_eq_true, if_false]
      exact ih hmu.2

theorem recsOf_deleteOne_unique (pubs : List PublicLocation) (id : Nat)
    (hmu : MirrorUnique pubs) : recsOf id (deleteOnePublic pubs id) = [] := by
  rw [recsOf_deleteOne_eq]
  have h := recsOf_length_le_one pubs hmu id
  cases hr : recsOf id pubs with
  | nil => rfl
  | cons a rest =>
    rw [hr] at h
    cases rest with
    | nil => rfl
    | cons b rest1 => simp at h

theorem hasMirror_eq_false_iff (pubs : List PublicLocation) (e : Nat) :
    hasMirror pubs e = false ↔ recsOf e pubs = [] := by
  rw [Bool.eq_false_iff, ne_eq, hasMirror_iff_recsOf, not_not]

/-- The store written by a successful `PUT /dog/:id`. -/
theorem putDog_ok (now : Int) (s : Store) (userId id : Nat) (dog : Dog) (body : PutBody)
    (hdog : findDogById s.dogs id = some dog) (hown : dog.ownerId = some userId)
    (hput : (putDog now s userId id body).2 = Reply.ok) :
    (putDog now s userId id body).1
      = { s with
          dogs := saveDog s.dogs (applyPut dog (putDeviceId dog body) body)
          publicLocations :=
            (match body.sharePublic with
             | some _ => maintainOnToggle now s.locations s.publicLocations id
                 (applyPut dog (putDeviceId dog body) body).sharePublic
             | none => s.publicLocations) } := by
  have hid := (findDogById_some s.dogs id dog hdog).2
  unfold putDog at hput ⊢
  rw [hdog] at hput ⊢
  simp only [hown, ne_eq, not_true_eq_false, if_false] at hput ⊢
  by_cases hc : (deviceChanges dog body = true
      ∧ (findDogByDevice s.dogs (body.deviceId.getD "")).isSome = true)
  · rw [if_pos hc] at hput
    cases hput
  · rw [if_neg hc]
    have hpid : (applyPut dog (putDeviceId dog body) body)._id = id := by
      simp [applyPut, hid]
    simp only [hpid]

/-- C7. When the owner of dog `id` disables sharing, through `POST /dog/:id/share`
with a falsy `sharePublic` or through a successful `PUT /dog/:id` with `sharePublic`
false (dog ids unique, at most one mirror document per dog), the mirror holds no
document of the dog afterwards, and no later `POST /nearby`, after any number of
`POST /nearby` requests and for every query point, radius, threshold and distance
function, returns the dog. -/
theorem toggle_off_removes_visibility (now : Int) (s : Store) (userId id : Nat) (dog : Dog)
    (body : PutBody)
    (hdog : findDogById s.dogs id = some dog)
    (hown : dog.ownerId = some userId)
    (hnd : (s.dogs.map (fun d => d._id)).Nodup)
    (hmu : MirrorUnique s.publicLocations)
    (hbody : body.sharePublic = some false)
    (hput : (putDog now s userId id body).2 = Reply.ok) :
    ((postShare now s userId id false).2 = Reply.ok
      ∧ hasMirror (postShare now s userId id false).1.publicLocations id = false
      ∧ ∀ hav reqs now1 b,
          ∀ r ∈ (nearby hav now1 (runNearby hav reqs (postShare now s userId id false).1) b).2.results,
            r.dogId ≠ id)
    ∧ (hasMirror (putDog now s userId id body).1.publicLocations id = false
      ∧ ∀ hav reqs now1 b,
          ∀ r ∈ (nearby hav now1 (runNearby hav reqs (putDog now s userId id body).1) b).2.results,
            r.dogId ≠ id) := by
  obtain ⟨_, hid⟩ := findDogById_some s.dogs id dog hdog
  constructor
  · have hs : postShare now s userId id false
        = ({ s with
              dogs := saveDog s.dogs { dog with sharePublic := false }
              publicLocations := deleteOnePublic s.publicLocations dog._id }, Reply.ok) := by
      simp [postShare, hdog, hown, maintainOnToggle]
    rw [hs]
    refine ⟨rfl, ?_, ?_⟩
    · rw [hasMirror_eq_false_iff, ← hid]
      exact recsOf_deleteOne_unique s.publicLocations dog._id hmu
    · intro hav reqs now1 b
      apply not_sharing_not_returned
      have := isSharing_saveDog_off s.dogs { dog with sharePublic := false } hnd rfl
      rw [← hid]
      exact this
  · rw [putDog_ok now s userId id dog body hdog hown hput]
    have hsp : (applyPut dog (putDeviceId dog body) body).sharePublic = false := by
      simp [applyPut, hbody]
    have hpid : (applyPut dog (putDeviceId dog body) body)._id = id := by
      simp [applyPut, hid]
    simp only [hbody, hsp, maintainOnToggle, Bool.false_eq_true, if_false]
    refine ⟨?_, ?_⟩
    · rw [hasMirror_eq_false_iff]
      exact recsOf_deleteOne_unique s.publicLocations id hmu
    · intro hav reqs now1 b
      apply not_sharing_not_returned
      have := isSharing_saveDog_off s.dogs (applyPut dog (putDeviceId dog body) body) hnd hsp
      rw [hpid] at this
      exact this

/-- C7 at a concrete store: the dog that reported from (11, 20) and is mirrored stops
sharing. -/
theorem toggle_off_removes_visibility_witness :
    ((postShare 3000 exAway 1 7 false).2 = Reply.ok
      ∧ hasMirror (postShare 3000 exAway 1 7 false).1.publicLocations 7 = false
      ∧ ∀ hav reqs now1 b,
          ∀ r ∈ (nearby hav now1 (runNearby hav reqs (postShare 3000 exAway 1 7 false).1) b).2.results,
            r.dogId ≠ 7)
    ∧ (hasMirror (putDog 3000 exAway 1 7 exPutOff).1.publicLocations 7 = false
      ∧ ∀ hav reqs now1 b,
          ∀ r ∈ (nearby hav now1 (runNearby hav reqs (putDog 3000 exAway 1 7 exPutOff).1) b).2.results,
            r.dogId ≠ 7) :=
  toggle_off_removes_visibility 3000 exAway 1 7 exDog exPutOff
    (by decide!) rfl (by decide!) (by decide!) rfl (by decide!)

/-! ## C8: enabling sharing -/

/-- C8 (the code at the failing input). The dog's latest canonical record is at its
owner's home point, where the test of `POST /location` says inside, and the mirror is
empty; enabling sharing, through either endpoint, writes a mirror document with the home
coordinates. -/
theorem share_on_mirrors_dog_at_home :
    hasMirror exPrivateAtHome.publicLocations 7 = false
      ∧ findLatest exPrivateAtHome.locations 7
          = some { dogId := 7, lat := 10, lon := 20, timestamp := some 1000 }
      ∧ gridMeters 10 20 10 20 ≤ HOME_THRESHOLD_METERS none
      ∧ insideOwnerHomeReport gridMeters (HOME_THRESHOLD_METERS none)
          (ownerOf exPrivateAtHome.users exDogPrivate) 10 20 = true
      ∧ (postShare 3000 exPrivateAtHome 1 7 true).1.publicLocations
          = [{ dogId := 7, lat := 10, lon := 20, timestamp := some 1000 }]
      ∧ (putDog 3000 exPrivateAtHome 1 7 exPutOn).1.publicLocations
          = [{ dogId := 7, lat := 10, lon := 20, timestamp := some 1000 }] := by
  refine ⟨by decide!, by decide!, by decide!, by decide!, by decide!, by decide!⟩

/-- What the toggles do instead. Enabling sharing for dog `id`, through `POST /dog/:id/share` or a
successful `PUT /dog/:id`, upserts the mirror from the latest canonical record of the dog
whenever one exists, wherever that record lies; with no canonical record the mirror is
left as it was. -/
theorem toggle_on_copies_latest (now : Int) (s : Store) (userId id : Nat) (dog : Dog)
    (body : PutBody)
    (hdog : findDogById s.dogs id = some dog)
    (hown : dog.ownerId = some userId)
    (hbody : body.sharePublic = some true)
    (hput : (putDog now s userId id body).2 = Reply.ok) :
    (postShare now s userId id true).1.publicLocations
        = (match findLatest s.locations id with
           | some latest => upsertPublic s.publicLocations (mirrorOf now id latest)
           | none => s.publicLocations)
      ∧ (putDog now s userId id body).1.publicLocations
        = (match findLatest s.locations id with
           | some latest => upsertPublic s.publicLocations (mirrorOf now id latest)
           | none => s.publicLocations) := by
  have hid := (findDogById_some s.dogs id dog hdog).2
  constructor
  · simp only [postShare, hdog, hown, ne_eq, not_true_eq_false, if_false, maintainOnToggle,
      if_true, hid, mirrorOf]
  · rw [putDog_ok now s userId id dog body hdog hown hput]
    have hsp : (applyPut dog (putDeviceId dog body) body).sharePublic = true := by
      simp [applyPut, hbody]
    simp only [hbody, hsp, maintainOnToggle, if_true, mirrorOf]

/-- The rule of the toggles at the concrete store: the copy of the record at home is
written. -/
theorem toggle_on_copies_latest_witness :
    (postShare 3000 exPrivateAtHome 1 7 true).1.publicLocations
        = (match findLatest exPrivateAtHome.locations 7 with
           | some latest => upsertPublic exPrivateAtHome.publicLocations (mirrorOf 3000 7 latest)
           | none => exPrivateAtHome.publicLocations)
      ∧ (putDog 3000 exPrivateAtHome 1 7 exPutOn).1.publicLocations
        = (match findLatest exPrivateAtHome.locations 7 with
           | some latest => upsertPublic exPrivateAtHome.publicLocations (mirrorOf 3000 7 latest)
           | none => exPrivateAtHome.publicLocations) :=
  toggle_on_copies_latest 3000 exPrivateAtHome 1 7 exDogPrivate exPutOn
    (by decide!) rfl rfl (by decide!)

/-! ## C9: deleting a dog -/

theorem findDogById_deleteOne_ne (dogs : List Dog) (id e : Nat) (h : e ≠ id) :
    findDogById (deleteOneDog dogs id) e = findDogById dogs e := by
  unfold findDogById
  induction dogs with
  | nil => rfl
  | cons a rest ih =>
    simp only [deleteOneDog]
    split_ifs with ha
    · have hae : a._id ≠ e := fun hh => h (hh.symm.trans ha)
      simp [List.find?_cons, hae]
    · simp only [List.find?_cons, ih]

theorem findDogById_deleteOne_eq (dogs : List Dog) (id : Nat)
    (hnd : (dogs.map (fun d => d._id)).Nodup) :
    findDogById (deleteOneDog dogs id) id = none := by
  unfold findDogById
  induction dogs with
  | nil => rfl
  | cons a rest ih =>
    simp only [List.map_cons, List.nodup_cons, List.mem_map, not_exists, not_and] at hnd
    simp only [deleteOneDog]
    split_ifs with ha
    · rw [List.find?_eq_none]
      intro x hx
      simp only [decide_eq_true_eq]
      intro hxe
      exact hnd.1 x hx (hxe.trans ha.symm)
    · simp only [List.find?_cons, ha, decide_False]
      exact ih hnd.2

/-- C9 (the code at the failing input). The dog that reported from (11, 20) has one
canonical record and one mirror document; its owner's `DELETE /dog/:id` succeeds, removes
the dog and the canonical record, and leaves the mirror document in the store. -/
theorem delete_leaves_mirror :
    (deleteDog exAway 1 7).2 = Reply.ok
      ∧ (deleteDog exAway 1 7).1.dogs = []
      ∧ (deleteDog exAway 1 7).1.locations = []
      ∧ (deleteDog exAway 1 7).1.publicLocations
          = [{ dogId := 7, lat := 11, lon := 20, timestamp := some 1005 }]
      ∧ hasMirror (deleteDog exAway 1 7).1.publicLocations 7 = true := by
  refine ⟨by decide!, by decide!, by decide!, by decide!, by decide!⟩

/-- What `DELETE /dog/:id` does when it succeeds (dog ids unique): the dog is gone and no
canonical record of it remains; the canonical records and the dog documents of every
other dog and the users are unchanged; the mirror store is not touched. -/
theorem delete_cascade (s : Store) (userId id : Nat) (dog : Dog)
    (hdog : findDogById s.dogs id = some dog)
    (hown : dog.ownerId = some userId)
    (hnd : (s.dogs.map (fun d => d._id)).Nodup) :
    (deleteDog s userId id).2 = Reply.ok
      ∧ findDogById (deleteDog s userId id).1.dogs id = none
      ∧ (∀ l ∈ (deleteDog s userId id).1.locations, l.dogId ≠ id)
      ∧ (∀ e, e ≠ id →
          (deleteDog s userId id).1.locations.filter (fun l => decide (l.dogId = e))
              = s.locations.filter (fun l => decide (l.dogId = e))
            ∧ findDogById (deleteDog s userId id).1.dogs e = findDogById s.dogs e)
      ∧ (deleteDog s userId id).1.publicLocations = s.publicLocations
      ∧ (deleteDog s userId id).1.users = s.users := by
  have hid := (findDogById_some s.dogs id dog hdog).2
  have hs : deleteDog s userId id
      = ({ s with
            dogs := deleteOneDog s.dogs id
            locations := s.locations.filter (fun l => decide (l.dogId ≠ id)) }, Reply.ok) := by
    simp [deleteDog, hdog, hown, hid]
  rw [hs]
  refine ⟨rfl, findDogById_deleteOne_eq s.dogs id hnd, ?_, ?_, rfl, rfl⟩
  · intro l hl
    simpa using (List.mem_filter.mp hl).2
  · intro e he
    refine ⟨?_, findDogById_deleteOne_ne s.dogs id e he⟩
    simp only [List.filter_filter]
    apply List.filter_congr
    intro l _
    by_cases hle : l.dogId = e
    · simp [hle, he]
    · simp [hle]

/-- The effect of `DELETE /dog/:id` at the concrete store. -/
theorem delete_cascade_example :
    (deleteDog exAway 1 7).2 = Reply.ok
      ∧ findDogById (deleteDog exAway 1 7).1.dogs 7 = none
      ∧ (∀ l ∈ (deleteDog exAway 1 7).1.locations, l.dogId ≠ 7)
      ∧ (∀ e, e ≠ 7 →
          (deleteDog exAway 1 7).1.locations.filter (fun l => decide (l.dogId = e))
              = exAway.locations.filter (fun l => decide (l.dogId = e))
            ∧ findDogById (deleteDog exAway 1 7).1.dogs e = findDogById exAway.dogs e)
      ∧ (deleteDog exAway 1 7).1.publicLocations = exAway.publicLocations
      ∧ (deleteDog exAway 1 7).1.users = exAway.users :=
  delete_cascade exAway 1 7 exDog (by decide!) rfl (by decide!)

/-! ## C10: the mirror after a location report -/

theorem recsOf_upsert_unique (pubs : List PublicLocation) (r : PublicLocation)
    (hmu : MirrorUnique pubs) : recsOf r.dogId (upsertPublic pubs r) = [r] := by
  rw [recsOf_upsert_eq]
  have h := recsOf_length_le_one pubs hmu r.dogId
  cases hr : recsOf r.dogId pubs with
  | nil => rfl
  | cons a rest =>
    rw [hr] at h
    cases rest with
    | nil => rfl
    | cons b rest1 => simp at h

theorem recsOf_maintainOnReport_ne (hav : Haversine) (env : Option ℚ) (tPub : Int)
    (users : List User) (pubs : List PublicLocation) (dog : Dog) (lat lon : ℚ) (e : Nat)
    (he : e ≠ dog._id) :
    recsOf e (maintainOnReport hav env tPub users pubs dog lat lon) = recsOf e pubs := by
  unfold maintainOnReport
  simp only
  split_ifs
  · exact recsOf_deleteOne_ne pubs dog._id e (Ne.symm he)
  · exact recsOf_upsert_ne pubs _ e (Ne.symm he)
  · exact recsOf_deleteOne_ne pubs dog._id e (Ne.symm he)

/-- C10. After `POST /location` for a registered device (at most one mirror document per
dog beforehand): a dog that does not share has no mirror document; a sharing dog whose
owner has a home point (`lat` and `lon` present) within the process-wide threshold of the
report, bound included, has no mirror document; in every other case (sharing and outside,
or no owner, or no home point) the dog has exactly one mirror document, at the reported
position and stamped with the time of the upsert. The mirror documents of every other dog
are unchanged. -/
theorem report_mirror_effect (hav : Haversine) (env : Option ℚ) (tLoc tPub : Int) (s : Store)
    (deviceId : String) (lat lon : ℚ) (dog : Dog)
    (hdog : findDogByDevice s.dogs deviceId = some dog)
    (hmu : MirrorUnique s.publicLocations) :
    (postLocation hav env tLoc tPub s deviceId lat lon).2 = Reply.ok
      ∧ (dog.sharePublic = false →
          recsOf dog._id (postLocation hav env tLoc tPub s deviceId lat lon).1.publicLocations = [])
      ∧ (dog.sharePublic = true →
          ∀ hla hlo, homePoint (ownerOf s.users dog) = some (hla, hlo) →
            hav hla hlo lat lon ≤ HOME_THRESHOLD_METERS env →
            recsOf dog._id (postLocation hav env tLoc tPub s deviceId lat lon).1.publicLocations
              = [])
      ∧ (dog.sharePublic = true →
          (homePoint (ownerOf s.users dog) = none
            ∨ ∃ hla hlo, homePoint (ownerOf s.users dog) = some (hla, hlo)
                ∧ HOME_THRESHOLD_METERS env < hav hla hlo lat lon) →
          recsOf dog._id (postLocation hav env tLoc tPub s deviceId lat lon).1.publicLocations
            = [{ dogId := dog._id, lat := lat, lon := lon, timestamp := some tPub }])
      ∧ (∀ e, e ≠ dog._id →
          recsOf e (postLocation hav env tLoc tPub s deviceId lat lon).1.publicLocations
            = recsOf e s.publicLocations) := by
  have hs : postLocation hav env tLoc tPub s deviceId lat lon
      = ({ s with
            locations := s.locations ++
              [{ dogId := dog._id, lat := lat, lon := lon, timestamp := some tLoc }]
            publicLocations :=
              maintainOnReport hav env tPub s.users s.publicLocations dog lat lon },
         Reply.ok) := by
    simp [postLocation, hdog]
  rw [hs]
  refine ⟨rfl, ?_, ?_, ?_, ?_⟩
  · intro hoff
    simp only [maintainOnReport, hoff, Bool.false_eq_true, if_false]
    exact recsOf_deleteOne_unique s.publicLocations dog._id hmu
  · intro hon hla hlo hhome hin
    have hi : insideOwnerHomeReport hav (HOME_THRESHOLD_METERS env) (ownerOf s.users dog) lat lon
        = true := by
      simp [insideOwnerHomeReport, hhome, hin]
    simp only [maintainOnReport, hon, if_true, hi]
    exact recsOf_deleteOne_unique s.publicLocations dog._id hmu
  · intro hon hcase
    have hi : insideOwnerHomeReport hav (HOME_THRESHOLD_METERS env) (ownerOf s.users dog) lat lon
        = false := by
      rcases hcase with hnone | ⟨hla, hlo, hhome, hout⟩
      · simp [insideOwnerHomeReport, hnone]
      · simp [insideOwnerHomeReport, hhome, not_le.mpr hout]
    simp only [maintainOnReport, hon, if_true, hi, Bool.false_eq_true, if_false]
    exact recsOf_upsert_unique s.publicLocations
      { dogId := dog._id, lat := lat, lon := lon, timestamp := some tPub } hmu
  · intro e he
    exact recsOf_maintainOnReport_ne hav env tPub s.users s.publicLocations dog lat lon e he

/-- C10 at a concrete store: the sharing dog reports from (11, 20), one degree from home. -/
theorem report_mirror_effect_witness :
    (postLocation gridMeters none 1000 1005 exStore "dev7" 11 20).2 = Reply.ok
      ∧ (exDog.sharePublic = false →
          recsOf exDog._id (postLocation gridMeters none 1000 1005 exStore "dev7" 11 20).1.publicLocations
            = [])
      ∧ (exDog.sharePublic = true →
          ∀ hla hlo, homePoint (ownerOf exStore.users exDog) = some (hla, hlo) →
            gridMeters hla hlo 11 20 ≤ HOME_THRESHOLD_METERS none →
            recsOf exDog._id
                (postLocation gridMeters none 1000 1005 exStore "dev7" 11 20).1.publicLocations
              = [])
      ∧ (exDog.sharePublic = true →
          (homePoint (ownerOf exStore.users exDog) = none
            ∨ ∃ hla hlo, homePoint (ownerOf exStore.users exDog) = some (hla, hlo)
                ∧ HOME_THRESHOLD_METERS none < gridMeters hla hlo 11 20) →
          recsOf exDog._id
              (postLocation gridMeters none 1000 1005 exStore "dev7" 11 20).1.publicLocations
            = [{ dogId := exDog._id, lat := 11, lon := 20, timestamp := some 1005 }])
      ∧ (∀ e, e ≠ exDog._id →
          recsOf e (postLocation gridMeters none 1000 1005 exStore "dev7" 11 20).1.publicLocations
            = recsOf e exStore.publicLocations) :=
  report_mirror_effect gridMeters none 1000 1005 exStore "dev7" 11 20 exDog
    (by decide!) (by decide!)

/-- The three cases of a report evaluated: away from home the dog is mirrored at the
reported position, at home it is not, and a dog that does not share is not. -/
theorem report_scenarios :
    exAway.publicLocations = [{ dogId := 7, lat := 11, lon := 20, timestamp := some 1005 }]
      ∧ exAtHome.publicLocations = []
      ∧ exPrivateAtHome.publicLocations = [] := by
  refine ⟨by decide!, by decide!, by decide!⟩

/-! ## C11: ingestion of the canonical record -/

theorem postLocationF_no_faults (hav : Haversine) (env : Option ℚ) (tLoc tPub : Int) (s : Store)
    (deviceId : String) (lat lon : ℚ) :
    postLocationF { ownerLookup := false, mirrorWrite := false } hav env tLoc tPub s deviceId
        lat lon
      = postLocation hav env tLoc tPub s deviceId lat lon := by
  unfold postLocationF postLocation maintainOnReportF maintainOnReport
  cases findDogByDevice s.dogs deviceId with
  | none => rfl
  | some dog =>
    simp only [Bool.false_eq_true, if_false]

/-- C11. For every report whose `deviceId` is registered, `POST /location` answers success
and appends exactly one canonical record, carrying the dog, `lat` and `lon` of the report,
after the unchanged earlier records, whatever the sharing flag and the geofence outcome
and whether or not the owner lookup or the mirror write of the maintenance block fail;
dogs and users are not touched. -/
theorem canonical_ingestion_unconditional (faults : ReportFaults) (hav : Haversine)
    (env : Option ℚ) (tLoc tPub : Int) (s : Store) (deviceId : String) (lat lon : ℚ) (dog : Dog)
    (hdog : findDogByDevice s.dogs deviceId = some dog) :
    (postLocationF faults hav env tLoc tPub s deviceId lat lon).2 = Reply.ok
      ∧ (postLocationF faults hav env tLoc tPub s deviceId lat lon).1.locations
          = s.locations ++ [{ dogId := dog._id, lat := lat, lon := lon, timestamp := some tLoc }]
      ∧ (postLocationF faults hav env tLoc tPub s deviceId lat lon).1.dogs = s.dogs
      ∧ (postLocationF faults hav env tLoc tPub s deviceId lat lon).1.users = s.users := by
  unfold postLocationF
  rw [hdog]
  exact ⟨rfl, rfl, rfl, rfl⟩

/-- C11 at a concrete store: the report from home of a sharing dog, with the mirror write
failing. -/
theorem canonical_ingestion_unconditional_witness :
    (postLocationF { ownerLookup := false, mirrorWrite := true } gridMeters none 1000 1005
        exStore "dev7" 10 20).2 = Reply.ok
      ∧ (postLocationF { ownerLookup := false, mirrorWrite := true } gridMeters none 1000 1005
          exStore "dev7" 10 20).1.locations
          = exStore.locations
              ++ [{ dogId := exDog._id, lat := 10, lon := 20, timestamp := some 1000 }]
      ∧ (postLocationF { ownerLookup := false, mirrorWrite := true } gridMeters none 1000 1005
          exStore "dev7" 10 20).1.dogs = exStore.dogs
      ∧ (postLocationF { ownerLookup := false, mirrorWrite := true } gridMeters none 1000 1005
          exStore "dev7" 10 20).1.users = exStore.users :=
  canonical_ingestion_unconditional { ownerLookup := false, mirrorWrite := true } gridMeters none
    1000 1005 exStore "dev7" 10 20 exDog (by decide!)

/-! ## C16: reports of unknown devices -/

/-- C16. A report whose `deviceId` matches no registered dog is answered with status 400
and leaves the whole store (canonical log, mirror, dogs, users) unchanged, with or
without faults in the maintenance block. -/
theorem unknown_device_rejected (faults : ReportFaults) (hav : Haversine) (env : Option ℚ)
    (tLoc tPub : Int) (s : Store) (deviceId : String) (lat lon : ℚ)
    (hnone : findDogByDevice s.dogs deviceId = none) :
    postLocation hav env tLoc tPub s deviceId lat lon = (s, Reply.error 400)
      ∧ postLocationF faults hav env tLoc tPub s deviceId lat lon = (s, Reply.error 400) := by
  unfold postLocation postLocationF
  rw [hnone]
  exact ⟨rfl, rfl⟩

/-- C16 at a concrete store: a report of the unregistered device "dev9". -/
theorem unknown_device_rejected_witness :
    postLocation gridMeters none 1000 1005 exAway "dev9" 11 20 = (exAway, Reply.error 400)
      ∧ postLocationF { ownerLookup := false, mirrorWrite := false } gridMeters none 1000 1005
          exAway "dev9" 11 20 = (exAway, Reply.error 400) :=
  unknown_device_rejected { ownerLookup := false, mirrorWrite := false } gridMeters none
    1000 1005 exAway "dev9" 11 20 (by decide!)

/-! ## C13: orphan and opt-out cleanup -/

theorem isSharing_iff (dogs : List Dog) (e : Nat) :
    isSharing dogs e = true ↔ ∃ d ∈ dogs, d._id = e ∧ d.sharePublic = true := by
  simp only [isSharing, List.any_eq_true, Bool.and_eq_true, decide_eq_true_eq]
  constructor
  · rintro ⟨d, hd, hs, hid⟩; exact ⟨d, hd, hid, hs⟩
  · rintro ⟨d, hd, hid, hs⟩; exact ⟨d, hd, hs, hid⟩

theorem mem_cleanupStale_iff (dogs : List Dog) (pubs : List PublicLocation)
    (p : PublicLocation) :
    p ∈ cleanupStale dogs pubs ↔ p ∈ pubs ∧ keeps dogs p.dogId = true := by
  rw [cleanupStale_eq_filter, List.mem_filter]

/-- C13. After the reconciliation sweep every mirror document belongs to a dog that
exists and has `sharePublic` true; the documents of an id with no sharing dog (the dog
was deleted, or opted out) are all removed; and, dog ids being unique, the cleanup
removes no document of an existing sharing dog. -/
theorem sweep_cleans_orphans (now : Int) (s : Store)
    (hnd : (s.dogs.map (fun d => d._id)).Nodup) :
    (∀ p ∈ (sweep now s).publicLocations,
        ∃ d ∈ s.dogs, d._id = p.dogId ∧ d.sharePublic = true)
      ∧ (∀ e, (∀ d ∈ s.dogs, d._id = e → d.sharePublic = false) →
          recsOf e (sweep now s).publicLocations = [])
      ∧ (∀ pubs p, p ∈ pubs → (∃ d ∈ s.dogs, d._id = p.dogId ∧ d.sharePublic = true) →
          p ∈ cleanupStale s.dogs pubs) := by
  refine ⟨?_, ?_, ?_⟩
  · intro p hp
    have hp1 : p ∈ cleanupStale s.dogs
        (maintainBeforeNearby now s.dogs s.locations s.publicLocations) := hp
    have hk := ((mem_cleanupStale_iff _ _ p).mp hp1).2
    exact (isSharing_iff s.dogs p.dogId).mp (keeps_isSharing s.dogs p.dogId hk)
  · intro e hoff
    show recsOf e (cleanupStale s.dogs
      (maintainBeforeNearby now s.dogs s.locations s.publicLocations)) = []
    rw [recsOf_cleanupStale]
    have hk : ¬ keeps s.dogs e = true := by
      intro hk
      obtain ⟨d, hd, hid, hs⟩ := (isSharing_iff s.dogs e).mp (keeps_isSharing s.dogs e hk)
      rw [hoff d hd hid] at hs
      cases hs
    rw [if_neg hk]
  · intro pubs p hp hex
    exact (mem_cleanupStale_iff s.dogs pubs p).mpr
      ⟨hp, (keeps_iff_of_nodup s.dogs hnd p.dogId).mpr hex⟩

/-- C13 at a concrete store: a stale mirror document of a dog that does not share. -/
theorem sweep_cleans_orphans_witness :
    (∀ p ∈ (sweep 2000 exStale).publicLocations,
        ∃ d ∈ exStale.dogs, d._id = p.dogId ∧ d.sharePublic = true)
      ∧ (∀ e, (∀ d ∈ exStale.dogs, d._id = e → d.sharePublic = false) →
          recsOf e (sweep 2000 exStale).publicLocations = [])
      ∧ (∀ pubs p, p ∈ pubs → (∃ d ∈ exStale.dogs, d._id = p.dogId ∧ d.sharePublic = true) →
          p ∈ cleanupStale exStale.dogs pubs) :=
  sweep_cleans_orphans 2000 exStale (by decide)

/-- The cleanup scenarios evaluated: the mirror document of a deleted dog and the stale
document of a dog that does not share are removed by the sweep; the document of a
sharing dog stays. -/
theorem orphan_cleanup_scenarios :
    (deleteDog exAway 1 7).1.publicLocations
        = [{ dogId := 7, lat := 11, lon := 20, timestamp := some 1005 }]
      ∧ (sweep 2000 (deleteDog exAway 1 7).1).publicLocations = []
      ∧ (sweep 2000 exStale).publicLocations = []
      ∧ (sweep 2000 exAway).publicLocations
          = [{ dogId := 7, lat := 11, lon := 20, timestamp := some 1005 }] := by
  refine ⟨by decide!, by decide!, by decide!, by decide!⟩

/-! ## C19: at most one mirror document per dog -/

theorem map_dogId_upsert (pubs : List PublicLocation) (r : PublicLocation) :
    (upsertPublic pubs r).map (fun p => p.dogId)
      = if r.dogId ∈ pubs.map (fun p => p.dogId) then pubs.map (fun p => p.dogId)
        else pubs.map (fun p => p.dogId) ++ [r.dogId] := by
  induction pubs with
  | nil => simp [upsertPublic]
  | cons a rest ih =>
    simp only [upsertPublic]
    by_cases ha : a.dogId = r.dogId
    · simp [ha]
    · have hne : ¬ r.dogId = a.dogId := fun h => ha h.symm
      simp only [ha, if_false, List.map_cons, ih, List.mem_cons, hne, false_or]
      split_ifs <;> simp

theorem mirrorUnique_upsert (pubs : List PublicLocation) (r : PublicLocation)
    (hmu : MirrorUnique pubs) : MirrorUnique (upsertPublic pubs r) := by
  unfold MirrorUnique at hmu ⊢
  rw [map_dogId_upsert]
  split_ifs with hm
  · exact hmu
  · rw [List.nodup_append]
    refine ⟨hmu, List.nodup_singleton _, ?_⟩
    intro x hx hx1
    rw [List.mem_singleton] at hx1
    subst hx1
    exact hm hx

theorem deleteOnePublic_sublist (pubs : List PublicLocation) (id : Nat) :
    (deleteOnePublic pubs id).Sublist pubs := by
  induction pubs with
  | nil => exact List.Sublist.refl _
  | cons a rest ih =>
    simp only [deleteOnePublic]
    split_ifs
    · exact List.sublist_cons_self a rest
    · exact ih.cons₂ a

theorem mirrorUnique_of_sublist (pubs qs : List PublicLocation) (hsub : qs.Sublist pubs)
    (hmu : MirrorUnique pubs) : MirrorUnique qs := by
  unfold MirrorUnique at hmu ⊢
  exact hmu.sublist (hsub.map _)

theorem mirrorUnique_deleteOne (pubs : List PublicLocation) (id : Nat)
    (hmu : MirrorUnique pubs) : MirrorUnique (deleteOnePublic pubs id) :=
  mirrorUnique_of_sublist pubs _ (deleteOnePublic_sublist pubs id) hmu

theorem mirrorUnique_maintainOnReportF (faults : ReportFaults) (hav : Haversine)
    (env : Option ℚ) (tPub : Int) (users : List User) (pubs : List PublicLocation) (dog : Dog)
    (lat lon : ℚ) (hmu : MirrorUnique pubs) :
    MirrorUnique (maintainOnReportF faults hav env tPub users pubs dog lat lon) := by
  unfold maintainOnReportF
  simp only
  split_ifs <;>
    first
    | exact hmu
    | exact mirrorUnique_deleteOne pubs _ hmu
    | exact mirrorUnique_upsert pubs _ hmu

theorem mirrorUnique_maintainOnToggle (now : Int) (locs : List Location)
    (pubs : List PublicLocation) (id : Nat) (enable : Bool) (hmu : MirrorUnique pubs) :
    MirrorUnique (maintainOnToggle now locs pubs id enable) := by
  unfold maintainOnToggle
  split_ifs
  · cases findLatest locs id with
    | none => exact hmu
    | some latest => exact mirrorUnique_upsert pubs _ hmu
  · exact mirrorUnique_deleteOne pubs _ hmu

theorem mirrorUnique_foldl_maintain (now : Int) (locs : List Location)
    (em : List (Nat × PublicLocation)) (ds : List Dog) (pubs : List PublicLocation)
    (hmu : MirrorUnique pubs) : MirrorUnique (ds.foldl (maintainStep now locs em) pubs) := by
  induction ds generalizing pubs with
  | nil => exact hmu
  | cons d rest ih =>
    simp only [List.foldl_cons]
    apply ih
    rw [maintainStep_eq]
    cases refreshFor now locs em d._id with
    | none => exact hmu
    | some r => exact mirrorUnique_upsert pubs r hmu

theorem mirrorUnique_sweep (now : Int) (s : Store) (hmu : MirrorUnique s.publicLocations) :
    MirrorUnique (sweep now s).publicLocations := by
  show MirrorUnique (cleanupStale s.dogs
    (maintainBeforeNearby now s.dogs s.locations s.publicLocations))
  rw [cleanupStale_eq_filter]
  apply mirrorUnique_of_sublist _ _ (List.filter_sublist _)
  exact mirrorUnique_foldl_maintain now s.locations _ _ s.publicLocations hmu

theorem mirrorUnique_putDog (now : Int) (s : Store) (userId id : Nat) (b : PutBody)
    (hmu : MirrorUnique s.publicLocations) :
    MirrorUnique (putDog now s userId id b).1.publicLocations := by
  unfold putDog
  cases findDogById s.dogs id with
  | none => exact hmu
  | some dog =>
    simp only
    split_ifs
    · exact hmu
    · exact hmu
    · simp only
      cases b.sharePublic with
      | none => exact hmu
      | some v => exact mirrorUnique_maintainOnToggle now s.locations s.publicLocations _ _ hmu

/-- C19. From a mirror with at most one document per dog, each operation leaves a mirror
with at most one document per dog: a location report (with or without faults in its
maintenance block), a sharing toggle through either endpoint, the reconciliation sweep,
a proximity query, and the deletion of a dog; whether the request is answered with
success or with an error. -/
theorem mirror_unique_preserved (hav : Haversine) (env : Option ℚ) (now tLoc tPub : Int)
    (s : Store) (faults : ReportFaults) (deviceId : String) (lat lon : ℚ) (userId id : Nat)
    (enable : Bool) (body : PutBody) (b : NearbyBody)
    (hmu : MirrorUnique s.publicLocations) :
    MirrorUnique (postLocation hav env tLoc tPub s deviceId lat lon).1.publicLocations
      ∧ MirrorUnique (postLocationF faults hav env tLoc tPub s deviceId lat lon).1.publicLocations
      ∧ MirrorUnique (postShare now s userId id enable).1.publicLocations
      ∧ MirrorUnique (putDog now s userId id body).1.publicLocations
      ∧ MirrorUnique (sweep now s).publicLocations
      ∧ MirrorUnique (nearby hav now s b).1.publicLocations
      ∧ MirrorUnique (deleteDog s userId id).1.publicLocations := by
  have hF : ∀ f, MirrorUnique (postLocationF f hav env tLoc tPub s deviceId lat lon).1.publicLocations := by
    intro f
    unfold postLocationF
    cases findDogByDevice s.dogs deviceId with
    | none => exact hmu
    | some dog => exact mirrorUnique_maintainOnReportF f hav env tPub s.users _ dog lat lon hmu
  refine ⟨?_, hF faults, ?_, mirrorUnique_putDog now s userId id body hmu,
    mirrorUnique_sweep now s hmu, mirrorUnique_sweep now s hmu, ?_⟩
  · rw [← postLocationF_no_faults]
    exact hF _
  · unfold postShare
    cases findDogById s.dogs id with
    | none => exact hmu
    | some dog =>
      simp only
      split_ifs
      · exact hmu
      · exact mirrorUnique_maintainOnToggle now s.locations s.publicLocations _ _ hmu
  · unfold deleteDog
    cases findDogById s.dogs id with
    | none => exact hmu
    | some dog =>
      simp only
      split_ifs
      · exact hmu
      · exact hmu

/-- C19 at a concrete store: the operations applied to the store with one mirrored dog. -/
theorem mirror_unique_preserved_witness :
    MirrorUnique (postLocation gridMeters none 2000 2005 exAway "dev7" 12 20).1.publicLocations
      ∧ MirrorUnique (postLocationF { ownerLookup := true, mirrorWrite := false } gridMeters none
          2000 2005 exAway "dev7" 12 20).1.publicLocations
      ∧ MirrorUnique (postShare 3000 exAway 1 7 true).1.publicLocations
      ∧ MirrorUnique (putDog 3000 exAway 1 7 exPutOn).1.publicLocations
      ∧ MirrorUnique (sweep 3000 exAway).publicLocations
      ∧ MirrorUnique (nearby gridMeters 3000 exAway exQuery).1.publicLocations
      ∧ MirrorUnique (deleteDog exAway 1 7).1.publicLocations :=
  mirror_unique_preserved gridMeters none 3000 2000 2005 exAway
    { ownerLookup := true, mirrorWrite := false } "dev7" 12 20 1 7 true exPutOn exQuery
    (by decide!)

/-! ## C17: requests without a query point -/

/-- C17. When the request lacks `lat` or `lon`, every mirror record that passes the
missing-dog and owner-home filters is in `results`, whatever `radiusMeters` is; it and
every other element of `results` carry `distanceMeters = null`; and `count` is the number
of elements of `results`. -/
theorem nearby_browse_all (hav : Haversine) (now : Int) (s : Store) (b : NearbyBody)
    (p : PublicLocation) (dog : Dog)
    (hq : b.lat = none ∨ b.lon = none)
    (hp : p ∈ (nearby hav now s b).1.publicLocations)
    (hdog : dogById s.dogs p.dogId = some dog)
    (hout : insideOwnerHomeNearby hav b s.users dog p = false) :
    resultOf hav b dog p ∈ (nearby hav now s b).2.results
      ∧ (resultOf hav b dog p).distanceMeters = none
      ∧ (∀ r ∈ (nearby hav now s b).2.results, r.distanceMeters = none)
      ∧ (nearby hav now s b).2.count = (nearby hav now s b).2.results.length := by
  have hqd : ∀ q : PublicLocation, queryDistance hav b q = none := by
    intro q
    unfold queryDistance
    rcases hq with h | h
    · rw [h]
    · rw [h]; cases b.lat <;> rfl
  have hw : withinRadius hav b p = true := by
    simp [withinRadius, hqd p]
  refine ⟨?_, hqd p, ?_, rfl⟩
  · exact (mem_results_iff hav b (sweep now s) _).mpr ⟨p, hp, dog, hdog, hout, hw, rfl⟩
  · intro r hr
    obtain ⟨q, _, dog1, _, _, _, hres⟩ := (mem_results_iff hav b (sweep now s) r).mp hr
    subst hres
    exact hqd q

/-- C17 at a concrete store: with no query point and a radius of 1 m, the dog one degree
from its home is returned with no distance. -/
theorem nearby_browse_all_witness :
    resultOf gridMeters { exBody with radiusMeters := some 1 } exDog
        { dogId := 7, lat := 11, lon := 20, timestamp := some 1005 }
        ∈ (nearby gridMeters 2000 exAway { exBody with radiusMeters := some 1 }).2.results
      ∧ (resultOf gridMeters { exBody with radiusMeters := some 1 } exDog
          { dogId := 7, lat := 11, lon := 20, timestamp := some 1005 }).distanceMeters = none
      ∧ (∀ r ∈ (nearby gridMeters 2000 exAway { exBody with radiusMeters := some 1 }).2.results,
          r.distanceMeters = none)
      ∧ (nearby gridMeters 2000 exAway { exBody with radiusMeters := some 1 }).2.count
          = (nearby gridMeters 2000 exAway { exBody with radiusMeters := some 1 }).2.results.length :=
  nearby_browse_all gridMeters 2000 exAway { exBody with radiusMeters := some 1 }
    { dogId := 7, lat := 11, lon := 20, timestamp := some 1005 } exDog
    (Or.inl rfl) (by decide!) (by decide!) (by decide!)

/-! ## C18: the debug flag -/

theorem nearbyVerdict_debug (hav : Haversine) (b : NearbyBody) (d1 d2 : Bool)
    (dogMap : List (Nat × Dog)) (ownerMap : List (Nat × User)) (p : PublicLocation) :
    nearbyVerdict hav { b with debug := d1 } dogMap ownerMap p
      = nearbyVerdict hav { b with debug := d2 } dogMap ownerMap p := by
  unfold nearbyVerdict
  rfl

/-- C18. Two `POST /nearby` requests that differ only in the `debug` flag leave the same
store and return the same `success`, `count` and `results`; the flag only decides whether
the payload carries `debugEntries` (present when `debug` is true, absent otherwise). -/
theorem debug_non_interference (hav : Haversine) (now : Int) (s : Store) (b : NearbyBody)
    (d1 d2 : Bool) :
    (nearby hav now s { b with debug := d1 }).1 = (nearby hav now s { b with debug := d2 }).1
      ∧ (nearby hav now s { b with debug := d1 }).2.results
          = (nearby hav now s { b with debug := d2 }).2.results
      ∧ (nearby hav now s { b with debug := d1 }).2.count
          = (nearby hav now s { b with debug := d2 }).2.count
      ∧ (nearby hav now s { b with debug := d1 }).2.success
          = (nearby hav now s { b with debug := d2 }).2.success
      ∧ (nearby hav now s { b with debug := false }).2.debugEntries = none
      ∧ (nearby hav now s { b with debug := true }).2.debugEntries.isSome = true := by
  have hv : nearbyVerdict hav { b with debug := d1 }
        (preloadDogs (sweep now s).dogs (sweep now s).publicLocations)
        (preloadOwners (sweep now s).users (sweep now s).dogs (sweep now s).publicLocations)
      = nearbyVerdict hav { b with debug := d2 }
        (preloadDogs (sweep now s).dogs (sweep now s).publicLocations)
        (preloadOwners (sweep now s).users (sweep now s).dogs (sweep now s).publicLocations) := by
    funext p
    exact nearbyVerdict_debug hav b d1 d2 _ _ p
  have hres : (nearby hav now s { b with debug := d1 }).2.results
      = (nearby hav now s { b with debug := d2 }).2.results := by
    show List.filterMap Verdict.result? (List.map _ _) = List.filterMap Verdict.result? (List.map _ _)
    rw [hv]
  refine ⟨rfl, hres, ?_, rfl, rfl, rfl⟩
  show ((nearby hav now s { b with debug := d1 }).2.results).length
    = ((nearby hav now s { b with debug := d2 }).2.results).length
  rw [hres]

/-! ## C14: visibility in the listing -/

theorem tsLt_trans (a b c : Option Int) (h1 : tsLt a b = true) (h2 : tsLt b c = true) :
    tsLt a c = true := by
  cases a <;> cases b <;> cases c <;> simp_all [tsLt]
  omega

theorem tsLt_of_not_lt (r b a : Option Int) (h1 : tsLt r b = false) (h2 : tsLt r a = true) :
    tsLt b a = true := by
  cases r <;> cases b <;> cases a <;> simp_all [tsLt]
  omega

theorem tsLt_irrefl (a : Option Int) : tsLt a a = false := by
  cases a <;> simp [tsLt]

theorem foldl_pickLatest_max (xs : List Location) (b : Location) :
    ∃ r, xs.foldl pickLatest (some b) = some r
      ∧ tsLt r.timestamp b.timestamp = false
      ∧ ∀ x ∈ xs, tsLt r.timestamp x.timestamp = false := by
  induction xs generalizing b with
  | nil => exact ⟨b, rfl, tsLt_irrefl _, fun x hx => by cases hx⟩
  | cons a rest ih =>
    simp only [List.foldl_cons, pickLatest]
    by_cases hba : tsLt b.timestamp a.timestamp = true
    · rw [if_pos hba]
      obtain ⟨r, hr, hra, hrest⟩ := ih a
      refine ⟨r, hr, ?_, ?_⟩
      · rw [Bool.eq_false_iff]
        intro hrb
        rw [tsLt_trans _ _ _ hrb hba] at hra
        cases hra
      · intro x hx
        rcases List.mem_cons.mp hx with rfl | hx1
        · exact hra
        · exact hrest x hx1
    · rw [if_neg hba]
      obtain ⟨r, hr, hrb, hrest⟩ := ih b
      refine ⟨r, hr, hrb, ?_⟩
      intro x hx
      rcases List.mem_cons.mp hx with rfl | hx1
      · rw [Bool.eq_false_iff]
        intro hrx
        exact hba (tsLt_of_not_lt _ _ _ hrb hrx)
      · exact hrest x hx1

/-- The record found by `findLatest` has a maximal timestamp among the records of the dog. -/
theorem findLatest_max (locs : List Location) (e : Nat) (l : Location)
    (h : findLatest locs e = some l) :
    ∀ x ∈ locs, x.dogId = e → tsLt l.timestamp x.timestamp = false := by
  intro x hx hxe
  unfold findLatest at h
  have hxf : x ∈ locs.filter (fun l => decide (l.dogId = e)) := by simp [hx, hxe]
  cases hf : locs.filter (fun l => decide (l.dogId = e)) with
  | nil => rw [hf] at hxf; cases hxf
  | cons a rest =>
    rw [hf] at h hxf
    simp only [List.foldl_cons, pickLatest] at h
    obtain ⟨r, hr, hra, hrest⟩ := foldl_pickLatest_max rest a
    rw [hr] at h
    have hrl : r = l := Option.some.inj h
    subst hrl
    rcases List.mem_cons.mp hxf with rfl | hx1
    · exact hra
    · exact hrest x hx1

theorem preloadAllOwners_get (users : List User) (dogs : List Dog) (dog : Dog) (oid : Nat)
    (hd : dog ∈ dogs) (ho : dog.ownerId = some oid) :
    mapGet (preloadAllOwners users dogs) oid = ownerById users oid := by
  unfold preloadAllOwners ownerById
  have hmem : oid ∈ dogs.filterMap (fun d => d.ownerId) :=
    List.mem_filterMap.mpr ⟨dog, hd, ho⟩
  have hne : (dogs.filterMap (fun d => d.ownerId)).isEmpty = false := by
    cases hl : dogs.filterMap (fun d => d.ownerId) with
    | nil => rw [hl] at hmem; cases hmem
    | cons a rest => rfl
  simp only [hne, Bool.false_eq_true, if_false]
  apply mapGet_filter_map (fun u : User => u._id) (fun u => u)
  intro u _ hu
  simp only [List.contains_eq_any_beq, List.any_eq_true, beq_iff_eq]
  exact ⟨oid, hmem, hu⟩

theorem hiddenAtHome_iff (hav : Haversine) (t : ℚ) (owner : Option User) (loc : Option Location) :
    hiddenAtHome hav t owner loc = true
      ↔ ∃ hla hlo latest, listingHome owner = some (hla, hlo) ∧ loc = some latest
          ∧ hav hla hlo latest.lat latest.lon ≤ t := by
  unfold hiddenAtHome
  cases hh : listingHome owner with
  | none => simp
  | some hp =>
    obtain ⟨a, b⟩ := hp
    cases loc with
    | none => simp
    | some l =>
      simp only [decide_eq_true_eq, Option.some.injEq, Prod.mk.injEq]
      constructor
      · intro h; exact ⟨a, b, l, ⟨rfl, rfl⟩, rfl, h⟩
      · rintro ⟨hla, hlo, latest, ⟨rfl, rfl⟩, rfl, h⟩; exact h

/-- Without a stored `null` the listing reads the home point as the other handlers do. -/
theorem listingHome_eq_homePoint (owner : Option User) (hnn : noNullHome owner) :
    listingHome owner = homePoint owner := by
  unfold listingHome homePoint
  cases owner with
  | none => rfl
  | some o =>
    obtain ⟨oid, hl⟩ := o
    cases hl with
    | none => rfl
    | some h =>
      obtain ⟨h1, h2⟩ := hnn ⟨oid, some h⟩ h rfl rfl
      obtain ⟨la, lo⟩ := h
      cases la <;> cases lo <;> simp_all [Coord.inArith]

/-- What the loop of `GET /locations` does with one dog. -/
theorem locationsEntry_eq (hav : Haversine) (env : Option ℚ) (s : Store)
    (requesterId : Option Nat) (dog : Dog) (hd : dog ∈ s.dogs) :
    locationsEntry hav env (preloadAllOwners s.users s.dogs) s.locations requesterId dog
      = if isOwner requesterId dog = true
          ∨ (dog.sharePublic = true
              ∧ hiddenAtHome hav (HOME_THRESHOLD_METERS env) (nearbyOwner s.users dog)
                  (findLatest s.locations dog._id) = false)
        then some (datumOf dog (findLatest s.locations dog._id)) else none := by
  have hown : (match dog.ownerId with
      | some oid => mapGet (preloadAllOwners s.users s.dogs) oid
      | none => none) = nearbyOwner s.users dog := by
    unfold nearbyOwner
    cases ho : dog.ownerId with
    | none => rfl
    | some oid => exact preloadAllOwners_get s.users s.dogs dog oid hd ho
  unfold locationsEntry
  simp only [hown]
  by_cases hio : isOwner requesterId dog = true
  · simp [hio]
  · by_cases hsh : dog.sharePublic = true
    · by_cases hh : hiddenAtHome hav (HOME_THRESHOLD_METERS env) (nearbyOwner s.users dog)
          (findLatest s.locations dog._id) = true
      · simp [hio, hsh, hh]
      · simp [hio, hsh, hh]
    · simp [hio, hsh]

theorem datumOf_inj (d1 d2 : Dog) (l1 l2 : Option Location) (h : datumOf d1 l1 = datumOf d2 l2) :
    d1 = d2 := by
  cases d1
  cases d2
  simp only [datumOf, DogDatum.mk.injEq] at h
  obtain ⟨h1, h2, _, _, h5, h6, h7⟩ := h
  simp [h1, h2, h5, h6, h7]

/-- What `GET /locations` lists, for every store and requester (anonymous when there is
no valid token): the element of a dog is present iff the requester owns the dog, or the
dog shares and it is not the case that its latest canonical record exists and lies within
the process-wide threshold (50 m by default, bound included) of the home point as the
handler reads it (`listingHome`). An owner always sees their own dogs. Every element of
the reply carries the position of the dog's latest canonical record, whose timestamp no
other record of the dog exceeds. -/
theorem listing_visibility (hav : Haversine) (env : Option ℚ) (s : Store)
    (requesterId : Option Nat) (dog : Dog) (hd : dog ∈ s.dogs) :
    (datumOf dog (findLatest s.locations dog._id) ∈ getLocations hav env s requesterId
        ↔ listedTo hav env s requesterId dog)
      ∧ (isOwner requesterId dog = true →
          datumOf dog (findLatest s.locations dog._id) ∈ getLocations hav env s requesterId)
      ∧ (∀ x ∈ getLocations hav env s requesterId,
          ∃ d ∈ s.dogs, listedTo hav env s requesterId d
            ∧ x = datumOf d (findLatest s.locations d._id))
      ∧ (∀ latest, findLatest s.locations dog._id = some latest →
          (datumOf dog (findLatest s.locations dog._id)).lat = some latest.lat
            ∧ (datumOf dog (findLatest s.locations dog._id)).lon = some latest.lon
            ∧ latest.dogId = dog._id
            ∧ ∀ l ∈ s.locations, l.dogId = dog._id →
                tsLt latest.timestamp l.timestamp = false) := by
  have hvis : ∀ d : Dog,
      (isOwner requesterId d = true
        ∨ (d.sharePublic = true
            ∧ hiddenAtHome hav (HOME_THRESHOLD_METERS env) (nearbyOwner s.users d)
                (findLatest s.locations d._id) = false))
      ↔ listedTo hav env s requesterId d := by
    intro d
    unfold listedTo
    rw [← Bool.not_eq_true, hiddenAtHome_iff]
  have hmem : ∀ x, x ∈ getLocations hav env s requesterId
      ↔ ∃ d ∈ s.dogs, listedTo hav env s requesterId d
          ∧ x = datumOf d (findLatest s.locations d._id) := by
    intro x
    unfold getLocations
    simp only [List.mem_filterMap]
    constructor
    · rintro ⟨d, hd1, he⟩
      rw [locationsEntry_eq hav env s requesterId d hd1] at he
      split_ifs at he with hc
      exact ⟨d, hd1, (hvis d).mp hc, (Option.some.inj he).symm⟩
    · rintro ⟨d, hd1, hv, hx⟩
      refine ⟨d, hd1, ?_⟩
      rw [locationsEntry_eq hav env s requesterId d hd1, if_pos ((hvis d).mpr hv), hx]
  have hiff : datumOf dog (findLatest s.locations dog._id) ∈ getLocations hav env s requesterId
      ↔ listedTo hav env s requesterId dog := by
    rw [hmem]
    constructor
    · rintro ⟨d, _, hv, hx⟩
      have := datumOf_inj _ _ _ _ hx
      subst this
      exact hv
    · intro hv
      exact ⟨dog, hd, hv, rfl⟩
  refine ⟨hiff, fun h => hiff.mpr (Or.inl h), fun x hx => (hmem x).mp hx, ?_⟩
  intro latest hl
  rw [hl]
  exact ⟨rfl, rfl, (findLatest_some_mem s.locations dog._id latest hl).2,
    findLatest_max s.locations dog._id latest hl⟩

/-- The listing rule at a concrete store: the dog at home, seen by its owner. -/
theorem listing_visibility_example :
    (datumOf exDog (findLatest exAtHome.locations exDog._id)
          ∈ getLocations gridMeters none exAtHome (some 1)
        ↔ listedTo gridMeters none exAtHome (some 1) exDog)
      ∧ (isOwner (some 1) exDog = true →
          datumOf exDog (findLatest exAtHome.locations exDog._id)
            ∈ getLocations gridMeters none exAtHome (some 1))
      ∧ (∀ x ∈ getLocations gridMeters none exAtHome (some 1),
          ∃ d ∈ exAtHome.dogs, listedTo gridMeters none exAtHome (some 1) d
            ∧ x = datumOf d (findLatest exAtHome.locations d._id))
      ∧ (∀ latest, findLatest exAtHome.locations exDog._id = some latest →
          (datumOf exDog (findLatest exAtHome.locations exDog._id)).lat = some latest.lat
            ∧ (datumOf exDog (findLatest exAtHome.locations exDog._id)).lon = some latest.lon
            ∧ latest.dogId = exDog._id
            ∧ ∀ l ∈ exAtHome.locations, l.dogId = exDog._id →
                tsLt latest.timestamp l.timestamp = false) :=
  listing_visibility gridMeters none exAtHome (some 1) exDog (by decide!)

/-- The listing evaluated: the dog at home is listed for its owner, with its position, and
for nobody else; the dog one degree away is listed for everybody; a dog that does not share
is listed for its owner only. -/
theorem listing_scenarios :
    getLocations gridMeters none exAtHome (some 1)
        = [{ dogId := 7, deviceId := "dev7", lat := some 10, lon := some 20,
             profile := exProfile, sharePublic := true, ownerId := some 1 }]
      ∧ getLocations gridMeters none exAtHome (some 2) = []
      ∧ getLocations gridMeters none exAtHome none = []
      ∧ getLocations gridMeters none exAway none
        = [{ dogId := 7, deviceId := "dev7", lat := some 11, lon := some 20,
             profile := exProfile, sharePublic := true, ownerId := some 1 }]
      ∧ getLocations gridMeters none exPrivateAtHome none = []
      ∧ (getLocations gridMeters none exPrivateAtHome (some 1)).length = 1 := by
  refine ⟨by decide!, by decide!, by decide!, by decide!, by decide!, by decide!⟩

/-- When no stored home coordinate of the dog's owner is `null`, the rule `GET /locations`
applies is the rule of the specification. -/
theorem listedTo_iff_visibleTo (hav : Haversine) (env : Option ℚ) (s : Store)
    (requesterId : Option Nat) (dog : Dog) (hnn : noNullHome (nearbyOwner s.users dog)) :
    listedTo hav env s requesterId dog ↔ visibleTo hav env s requesterId dog := by
  unfold listedTo visibleTo
  rw [listingHome_eq_homePoint _ hnn]

/-- C14 (the code at the failing input). The owner's stored home is `{ lat: null, lon: 20 }`,
which is no home point (`lat != null` fails in `POST /location` and in `POST /nearby`), and
the sharing dog's latest canonical record is at (0, 20). By the rule of the specification
the dog is visible to an anonymous requester, and `POST /nearby` returns it; `GET /locations`
passes the `null` to `haversineMeters`, where it counts as `0`, finds the distance `0` and
leaves the dog out. -/
theorem listing_hides_dog_for_null_home :
    exOwnerNullHome.homeLocation = some { lat := Coord.null, lon := Coord.num 20 }
      ∧ homePoint (nearbyOwner exNullHome.users exDog) = none
      ∧ exNullHome.dogs = [exDog]
      ∧ exDog.sharePublic = true
      ∧ findLatest exNullHome.locations exDog._id
          = some { dogId := 7, lat := 0, lon := 20, timestamp := some 1000 }
      ∧ visibleTo gridMeters none exNullHome none exDog
      ∧ getLocations gridMeters none exNullHome none = []
      ∧ (nearby gridMeters 2000 exNullHome exBody).2.results
          = [{ dogId := 7, lat := 0, lon := 20, timestamp := some 1005,
               profile := exProfile, sharePublic := true, distanceMeters := none }] := by
  have hn : homePoint (nearbyOwner exNullHome.users exDog) = none := by decide!
  refine ⟨rfl, hn, by decide!, rfl, by decide!, ?_, by decide!, by decide!⟩
  refine Or.inr ⟨rfl, ?_⟩
  rintro ⟨hla, hlo, latest, hh, _⟩
  rw [hn] at hh
  cases hh

/-! ## C15: reports with a missing coordinate -/

/-- C15 (counterexample). A report of the registered device "dev7" without `lat` is
answered with success and a canonical record without `lat` is saved. -/
theorem report_without_lat_is_stored :
    postLocationRaw 1000 exStore "dev7" none (some 20)
      = (Reply.ok, some { dogId := 7, lat := none, lon := some 20, timestamp := some 1000 }) := by
  decide!

/-- C15 (amended). `POST /location` does not validate `lat` and `lon`: every report of a
registered device, with or without coordinates, is answered with success and saved as one
canonical record carrying whatever coordinates the body had; with both coordinates
present this is the record appended by the handler on well-formed input. -/
theorem report_not_validated (tLoc : Int) (s : Store) (deviceId : String) (lat lon : Option ℚ)
    (dog : Dog) (hdog : findDogByDevice s.dogs deviceId = some dog) :
    postLocationRaw tLoc s deviceId lat lon
        = (Reply.ok, some { dogId := dog._id, lat := lat, lon := lon, timestamp := some tLoc })
      ∧ ∀ hav env tPub a b, lat = some a → lon = some b →
          (postLocation hav env tLoc tPub s deviceId a b).2 = Reply.ok
            ∧ (postLocation hav env tLoc tPub s deviceId a b).1.locations
                = s.locations ++ [{ dogId := dog._id, lat := a, lon := b, timestamp := some tLoc }] := by
  constructor
  · unfold postLocationRaw
    rw [hdog]
  · intro hav env tPub a b _ _
    unfold postLocation
    rw [hdog]
    exact ⟨rfl, rfl⟩

/-- C15 (amended) at a concrete store: the report without `lat`. -/
theorem report_not_validated_witness :
    postLocationRaw 1000 exStore "dev7" none (some 20)
        = (Reply.ok, some { dogId := exDog._id, lat := none, lon := some 20,
                            timestamp := some 1000 })
      ∧ ∀ hav env tPub a b, (none : Option ℚ) = some a → some (20 : ℚ) = some b →
          (postLocation hav env 1000 tPub exStore "dev7" a b).2 = Reply.ok
            ∧ (postLocation hav env 1000 tPub exStore "dev7" a b).1.locations
                = exStore.locations
                    ++ [{ dogId := exDog._id, lat := a, lon := b, timestamp := some 1000 }] :=
  report_not_validated 1000 exStore "dev7" none (some 20) exDog (by decide!)

/-- The only rejected report is that of an unregistered device, whatever its coordinates. -/
theorem postLocationRaw_rejects_iff (tLoc : Int) (s : Store) (deviceId : String)
    (lat lon : Option ℚ) :
    (postLocationRaw tLoc s deviceId lat lon).1 = Reply.error 400
      ↔ findDogByDevice s.dogs deviceId = none := by
  unfold postLocationRaw
  cases findDogByDevice s.dogs deviceId <;> simp

/-! ## C12: owners without a home point -/

theorem findDogByDevice_mem (dogs : List Dog) (deviceId : String) (dog : Dog)
    (h : findDogByDevice dogs deviceId = some dog) : dog ∈ dogs :=
  List.mem_of_find?_eq_some h

theorem homePoint_ownerOf_none (users : List User) (dog : Dog)
    (hno : ∀ u ∈ users, dog.ownerId = some u._id → homePoint (some u) = none) :
    homePoint (ownerOf users dog) = none := by
  unfold ownerOf
  cases ho : dog.ownerId with
  | none => rfl
  | some oid =>
    simp only
    cases hu : findUserById users oid with
    | none => rfl
    | some u =>
      unfold findUserById at hu
      have h1 := List.find?_some hu
      have h2 := List.mem_of_find?_eq_some hu
      simp only [decide_eq_true_eq] at h1
      exact hno u h2 (by rw [ho, h1])

theorem homePoint_nearbyOwner_none (users : List User) (dog : Dog)
    (hno : ∀ u ∈ users, dog.ownerId = some u._id → homePoint (some u) = none) :
    homePoint (nearbyOwner users dog) = none := by
  unfold nearbyOwner
  cases ho : dog.ownerId with
  | none => rfl
  | some oid =>
    simp only
    cases hu : ownerById users oid with
    | none => rfl
    | some u =>
      unfold ownerById at hu
      obtain ⟨x, hx, hk, hv⟩ := mapGet_map_some (fun u : User => u._id) (fun u => u) users oid u hu
      subst hv
      exact hno x hx (by rw [ho, hk])

/-- A sharing dog (ids unique) with a mirror document has its first mirror document, or the
copy of its latest canonical record, in the mirror after the sweep. -/
theorem recsOf_sweep_sharing (now : Int) (s : Store) (dog : Dog) (hd : dog ∈ s.dogs)
    (hsh : dog.sharePublic = true) (hnd : (s.dogs.map (fun d => d._id)).Nodup) :
    recsOf dog._id (sweep now s).publicLocations
      = match sweepWrite now s.locations s.publicLocations dog._id with
        | some r => r :: (recsOf dog._id s.publicLocations).tail
        | none => recsOf dog._id s.publicLocations := by
  have hk : keeps s.dogs dog._id = true :=
    (keeps_iff_of_nodup s.dogs hnd dog._id).mpr ⟨dog, hd, rfl, hsh⟩
  show recsOf dog._id (cleanupStale s.dogs
    (maintainBeforeNearby now s.dogs s.locations s.publicLocations)) = _
  rw [recsOf_cleanupStale, recsOf_maintain, if_pos hk, if_pos (keeps_isSharing s.dogs _ hk)]

theorem mem_of_mem_recsOf (e : Nat) (pubs : List PublicLocation) (p : PublicLocation)
    (h : p ∈ recsOf e pubs) : p ∈ pubs ∧ p.dogId = e := by
  unfold recsOf at h
  simpa using h

theorem sweepWrite_dogId (now : Int) (locs : List Location) (pubs : List PublicLocation)
    (e : Nat) (r : PublicLocation) (h : sweepWrite now locs pubs e = some r) : r.dogId = e := by
  unfold sweepWrite at h
  cases hl : findLatest locs e with
  | none => rw [hl] at h; cases h
  | some latest =>
    rw [hl] at h
    simp only at h
    split_ifs at h
    cases h
    rfl

/-- After a report, with the clock not running backwards, the sweep writes nothing for the
dog whose only mirror document is the one written by the report. -/
theorem sweepWrite_after_report (now tLoc tPub : Int) (locs : List Location)
    (pubs : List PublicLocation) (e : Nat) (lat lon : ℚ) (r0 : PublicLocation)
    (hrec : recsOf e pubs = [r0]) (hr0 : r0.timestamp = some tPub)
    (h1 : tLoc ≤ tPub)
    (h2 : ∀ l ∈ locs, l.dogId = e → ∀ t, l.timestamp = some t → t ≤ tPub) :
    sweepWrite now (locs ++ [{ dogId := e, lat := lat, lon := lon, timestamp := some tLoc }])
      pubs e = none := by
  unfold sweepWrite
  cases hl : findLatest (locs ++ [{ dogId := e, lat := lat, lon := lon, timestamp := some tLoc }]) e with
  | none => rfl
  | some latest =>
    have hmem := findLatest_some_mem _ e latest hl
    have hmax := findLatest_max _ e latest hl
      { dogId := e, lat := lat, lon := lon, timestamp := some tLoc } (by simp) rfl
    simp only [hrec, List.getLast?_singleton, needsRefresh, hr0, Option.getD_some]
    cases ht : latest.timestamp with
    | none => rw [ht] at hmax; simp [tsLt] at hmax
    | some t =>
      have hle : t ≤ tPub := by
        rcases List.mem_append.mp hmem.1 with hin | hin
        · exact h2 latest hin hmem.2 t ht
        · simp only [List.mem_singleton] at hin
          rw [hin] at ht
          simp only [Option.some.injEq] at ht
          omega
      simp only [Option.getD_some, gt_iff_lt, ite_eq_right_iff, reduceCtorEq, imp_false,
        decide_eq_true_eq, not_lt]
      exact hle

/-- C12. A sharing dog whose owner has no home point (no owner, no `homeLocation`, or a
missing `lat` or `lon`; dog ids unique, at most one mirror document per dog) reports a
position: the geofence tests of the report and of the query never say "inside", for any
threshold; the mirror then holds exactly one document of the dog, at the reported
position; a following `POST /nearby` without a query point returns the dog, for every
`homeThresholdMeters`; and, the clock not running backwards, a following `POST /nearby`
whose query point has the reported position within its radius returns the dog at the
reported position. -/
theorem no_home_point_scenario (hav : Haversine) (env : Option ℚ) (tLoc tPub : Int) (s : Store)
    (deviceId : String) (lat lon : ℚ) (dog : Dog)
    (hdog : findDogByDevice s.dogs deviceId = some dog)
    (hsh : dog.sharePublic = true)
    (hno : ∀ u ∈ s.users, dog.ownerId = some u._id → homePoint (some u) = none)
    (hnd : (s.dogs.map (fun d => d._id)).Nodup)
    (hmu : MirrorUnique s.publicLocations) :
    (∀ t, insideOwnerHomeReport hav t (ownerOf s.users dog) lat lon = false)
      ∧ (∀ b p, insideOwnerHomeNearby hav b s.users dog p = false)
      ∧ recsOf dog._id (postLocation hav env tLoc tPub s deviceId lat lon).1.publicLocations
          = [{ dogId := dog._id, lat := lat, lon := lon, timestamp := some tPub }]
      ∧ (∀ now b, (b.lat = none ∨ b.lon = none) →
          ∃ r ∈ (nearby hav now (postLocation hav env tLoc tPub s deviceId lat lon).1 b).2.results,
            r.dogId = dog._id)
      ∧ (∀ now b qlat qlon, b.lat = some qlat → b.lon = some qlon →
          hav qlat qlon lat lon ≤ b.radiusMeters.getD 2000 →
          tLoc ≤ tPub →
          (∀ l ∈ s.locations, l.dogId = dog._id → ∀ t, l.timestamp = some t → t ≤ tPub) →
          ∃ r ∈ (nearby hav now (postLocation hav env tLoc tPub s deviceId lat lon).1 b).2.results,
            r.dogId = dog._id ∧ r.lat = lat ∧ r.lon = lon
              ∧ r.distanceMeters = some (hav qlat qlon lat lon)) := by
  have hd := findDogByDevice_mem s.dogs deviceId dog hdog
  have hh1 := homePoint_ownerOf_none s.users dog hno
  have hh2 := homePoint_nearbyOwner_none s.users dog hno
  have hin1 : ∀ t, insideOwnerHomeReport hav t (ownerOf s.users dog) lat lon = false := by
    intro t; simp [insideOwnerHomeReport, hh1]
  have hin2 : ∀ b p, insideOwnerHomeNearby hav b s.users dog p = false := by
    intro b p; simp [insideOwnerHomeNearby, hh2]
  have hs : (postLocation hav env tLoc tPub s deviceId lat lon).1
      = { s with
          locations := s.locations ++
            [{ dogId := dog._id, lat := lat, lon := lon, timestamp := some tLoc }]
          publicLocations := upsertPublic s.publicLocations
            { dogId := dog._id, lat := lat, lon := lon, timestamp := some tPub } } := by
    simp [postLocation, hdog, maintainOnReport, hsh, hin1]
  have hrec : recsOf dog._id (upsertPublic s.publicLocations
      { dogId := dog._id, lat := lat, lon := lon, timestamp := some tPub })
      = [{ dogId := dog._id, lat := lat, lon := lon, timestamp := some tPub }] :=
    recsOf_upsert_unique s.publicLocations
      { dogId := dog._id, lat := lat, lon := lon, timestamp := some tPub } hmu
  have hdb : dogById s.dogs dog._id = some dog :=
    mapGet_map_of_nodup (fun d : Dog => d._id) (fun d => d) s.dogs hnd dog hd
  rw [hs]
  refine ⟨hin1, hin2, hrec, ?_, ?_⟩
  · intro now b hq
    have hsw := recsOf_sweep_sharing now
      { s with
        locations := s.locations ++
          [{ dogId := dog._id, lat := lat, lon := lon, timestamp := some tLoc }]
        publicLocations := upsertPublic s.publicLocations
          { dogId := dog._id, lat := lat, lon := lon, timestamp := some tPub } }
      dog hd hsh hnd
    simp only [hrec] at hsw
    have hex : ∃ p, p ∈ recsOf dog._id (sweep now
        { s with
          locations := s.locations ++
            [{ dogId := dog._id, lat := lat, lon := lon, timestamp := some tLoc }]
          publicLocations := upsertPublic s.publicLocations
            { dogId := dog._id, lat := lat, lon := lon, timestamp := some tPub } }).publicLocations := by
      rw [hsw]
      split
      · exact ⟨_, List.mem_cons_self _ _⟩
      · exact ⟨_, List.mem_cons_self _ _⟩
    obtain ⟨p, hp⟩ := hex
    obtain ⟨hpm, hpe⟩ := mem_of_mem_recsOf _ _ p hp
    have hw : withinRadius hav b p = true := by
      have hqd : queryDistance hav b p = none := by
        unfold queryDistance
        rcases hq with h | h
        · rw [h]
        · rw [h]; cases b.lat <;> rfl
      simp [withinRadius, hqd]
    refine ⟨resultOf hav b dog p, ?_, hpe⟩
    exact (mem_results_iff hav b _ _).mpr ⟨p, hpm, dog, by rw [hpe]; exact hdb, hin2 b p, hw, rfl⟩
  · intro now b qlat qlon hla hlo hrad hc1 hc2
    have hsw := recsOf_sweep_sharing now
      { s with
        locations := s.locations ++
          [{ dogId := dog._id, lat := lat, lon := lon, timestamp := some tLoc }]
        publicLocations := upsertPublic s.publicLocations
          { dogId := dog._id, lat := lat, lon := lon, timestamp := some tPub } }
      dog hd hsh hnd
    have hnone := sweepWrite_after_report now tLoc tPub s.locations
      (upsertPublic s.publicLocations
        { dogId := dog._id, lat := lat, lon := lon, timestamp := some tPub })
      dog._id lat lon { dogId := dog._id, lat := lat, lon := lon, timestamp := some tPub }
      hrec rfl hc1 hc2
    simp only [hnone, hrec] at hsw
    have hp : ({ dogId := dog._id, lat := lat, lon := lon, timestamp := some tPub } : PublicLocation)
        ∈ recsOf dog._id (sweep now
        { s with
          locations := s.locations ++
            [{ dogId := dog._id, lat := lat, lon := lon, timestamp := some tLoc }]
          publicLocations := upsertPublic s.publicLocations
            { dogId := dog._id, lat := lat, lon := lon, timestamp := some tPub } }).publicLocations := by
      rw [hsw]
      exact List.mem_singleton.mpr rfl
    obtain ⟨hpm, _⟩ := mem_of_mem_recsOf _ _ _ hp
    have hqd : queryDistance hav b
        { dogId := dog._id, lat := lat, lon := lon, timestamp := some tPub }
        = some (hav qlat qlon lat lon) := by
      simp [queryDistance, hla, hlo]
    have hw : withinRadius hav b
        { dogId := dog._id, lat := lat, lon := lon, timestamp := some tPub } = true := by
      simp [withinRadius, hqd, hrad]
    refine ⟨resultOf hav b dog
      { dogId := dog._id, lat := lat, lon := lon, timestamp := some tPub }, ?_, rfl, rfl, rfl, hqd⟩
    exact (mem_results_iff hav b _ _).mpr ⟨_, hpm, dog, hdb, hin2 b _, hw, rfl⟩

/-- C12 at a concrete store: the owner's `homeLocation` lacks `lon`; the dog reports from
(10, 20). -/
theorem no_home_point_scenario_witness :
    (∀ t, insideOwnerHomeReport gridMeters t (ownerOf exNoHome.users exDog) 10 20 = false)
      ∧ (∀ b p, insideOwnerHomeNearby gridMeters b exNoHome.users exDog p = false)
      ∧ recsOf exDog._id
            (postLocation gridMeters none 1000 1005 exNoHome "dev7" 10 20).1.publicLocations
          = [{ dogId := exDog._id, lat := 10, lon := 20, timestamp := some 1005 }]
      ∧ (∀ now b, (b.lat = none ∨ b.lon = none) →
          ∃ r ∈ (nearby gridMeters now
              (postLocation gridMeters none 1000 1005 exNoHome "dev7" 10 20).1 b).2.results,
            r.dogId = exDog._id)
      ∧ (∀ now b qlat qlon, b.lat = some qlat → b.lon = some qlon →
          gridMeters qlat qlon 10 20 ≤ b.radiusMeters.getD 2000 →
          (1000 : Int) ≤ 1005 →
          (∀ l ∈ exNoHome.locations, l.dogId = exDog._id →
            ∀ t, l.timestamp = some t → t ≤ 1005) →
          ∃ r ∈ (nearby gridMeters now
              (postLocation gridMeters none 1000 1005 exNoHome "dev7" 10 20).1 b).2.results,
            r.dogId = exDog._id ∧ r.lat = 10 ∧ r.lon = 20
              ∧ r.distanceMeters = some (gridMeters qlat qlon 10 20)) :=
  no_home_point_scenario gridMeters none 1000 1005 exNoHome "dev7" 10 20 exDog
    (by decide!) rfl (by decide!) (by decide!) (by decide!)

/-- The scenario evaluated: the dog of an owner without a home point is mirrored at the
reported position and returned, even with a home threshold of 1000 km. -/
theorem no_home_point_evaluated :
    (postLocation gridMeters none 1000 1005 exNoHome "dev7" 10 20).1.publicLocations
        = [{ dogId := 7, lat := 10, lon := 20, timestamp := some 1005 }]
      ∧ (nearby gridMeters 2000 (postLocation gridMeters none 1000 1005 exNoHome "dev7" 10 20).1
          { exBody with homeThresholdMeters := some 1000000 }).2.results
        = [{ dogId := 7, lat := 10, lon := 20, timestamp := some 1005, profile := exProfile,
             sharePublic := true, distanceMeters := none }] := by
  refine ⟨by decide!, by decide!⟩

/-! ## C20: the great-circle distance over real arithmetic -/

theorem atan2_sqrt_bounds (a : ℝ) :
    0 ≤ atan2 (Real.sqrt a) (Real.sqrt (1 - a))
      ∧ atan2 (Real.sqrt a) (Real.sqrt (1 - a)) ≤ Real.pi / 2 := by
  unfold atan2
  constructor
  · rw [Complex.arg_nonneg_iff]
    exact Real.sqrt_nonneg a
  · rw [Complex.arg_le_pi_div_two_iff]
    exact Or.inl (Real.sqrt_nonneg (1 - a))

theorem atan2_sin_cos (x : ℝ) (h0 : 0 ≤ x) (h1 : x ≤ Real.pi / 2) :
    atan2 (Real.sin x) (Real.cos x) = x := by
  unfold atan2
  have hpi := Real.pi_pos
  have h := Complex.arg_cos_add_sin_mul_I (θ := x) ⟨by linarith, by linarith⟩
  have hz : (⟨Real.cos x, Real.sin x⟩ : ℂ) = Complex.cos x + Complex.sin x * Complex.I := by
    apply Complex.ext
    · simp [← Complex.ofReal_cos, ← Complex.ofReal_sin]
    · simp [← Complex.ofReal_cos, ← Complex.ofReal_sin]
  rw [hz]
  exact h

theorem haversineA_same_point (lat lon : ℝ) : haversineA lat lon lat lon = 0 := by
  simp [haversineA, toRad]

theorem haversineA_meridian (lat1 lat2 lon : ℝ) :
    haversineA lat1 lon lat2 lon = Real.sin (toRad (lat2 - lat1) / 2) ^ 2 := by
  simp [haversineA, toRad, sq]

theorem haversineA_bounds (lat1 lon1 lat2 lon2 : ℝ)
    (h1 : -90 ≤ lat1) (h2 : lat1 ≤ 90) (h3 : -90 ≤ lat2) (h4 : lat2 ≤ 90) :
    0 ≤ haversineA lat1 lon1 lat2 lon2 ∧ haversineA lat1 lon1 lat2 lon2 ≤ 1 := by
  have hpi := Real.pi_pos
  have hc1 : 0 ≤ Real.cos (toRad lat1) := by
    apply Real.cos_nonneg_of_neg_pi_div_two_le_of_le <;> unfold toRad <;> nlinarith
  have hc2 : 0 ≤ Real.cos (toRad lat2) := by
    apply Real.cos_nonneg_of_neg_pi_div_two_le_of_le <;> unfold toRad <;> nlinarith
  have hcc : 0 ≤ Real.cos (toRad lat1) * Real.cos (toRad lat2) := mul_nonneg hc1 hc2
  set t := Real.sin (toRad (lon2 - lon1) / 2) with ht
  set u := Real.sin (toRad (lat2 - lat1) / 2) with hu
  have ht1 : t ^ 2 ≤ 1 := Real.sin_sq_le_one _
  have ht0 : 0 ≤ t ^ 2 := sq_nonneg t
  have ha : haversineA lat1 lon1 lat2 lon2
      = u ^ 2 + Real.cos (toRad lat1) * Real.cos (toRad lat2) * t ^ 2 := by
    simp only [haversineA, ← ht, ← hu]
    ring
  have hu2 : u ^ 2 = 1 / 2 - Real.cos (toRad lat2 - toRad lat1) / 2 := by
    rw [hu, Real.sin_sq_eq_half_sub]
    congr 2
    unfold toRad
    ring_nf
  have hsum : Real.cos (toRad lat1 + toRad lat2) ≤ 1 := Real.cos_le_one _
  rw [Real.cos_add] at hsum
  rw [Real.cos_sub] at hu2
  rw [ha]
  constructor
  · have := sq_nonneg u
    nlinarith [mul_nonneg hcc ht0]
  · nlinarith [mul_le_mul_of_nonneg_left ht1 hcc]

/-- C20. Over real arithmetic, `haversineMeters` gives `6371000 * |lat2 - lat1| * π / 180`
for two points on the same meridian with latitudes in [-90, 90]; it gives `0` for two
identical points; and for latitudes in [-90, 90] its constant `a` lies in [0, 1] and the
result lies in [0, π * 6371000]. -/
theorem haversineMeters_real (lat1 lon1 lat2 lon2 : ℝ)
    (h1 : -90 ≤ lat1) (h2 : lat1 ≤ 90) (h3 : -90 ≤ lat2) (h4 : lat2 ≤ 90) :
    (lon1 = lon2 →
        haversineMeters lat1 lon1 lat2 lon2 = 6371000 * |lat2 - lat1| * Real.pi / 180)
      ∧ (∀ lat lon, haversineMeters lat lon lat lon = 0)
      ∧ (0 ≤ haversineA lat1 lon1 lat2 lon2 ∧ haversineA lat1 lon1 lat2 lon2 ≤ 1)
      ∧ 0 ≤ haversineMeters lat1 lon1 lat2 lon2
      ∧ haversineMeters lat1 lon1 lat2 lon2 ≤ Real.pi * 6371000 := by
  have hpi := Real.pi_pos
  refine ⟨?_, ?_, haversineA_bounds lat1 lon1 lat2 lon2 h1 h2 h3 h4, ?_, ?_⟩
  · intro hlon
    subst hlon
    unfold haversineMeters
    simp only [haversineA_meridian]
    set x := toRad (lat2 - lat1) / 2 with hx
    have hxabs : |x| = |lat2 - lat1| * Real.pi / 360 := by
      rw [hx]
      unfold toRad
      rw [show (lat2 - lat1) * Real.pi / 180 / 2 = (lat2 - lat1) * (Real.pi / 360) by ring,
        abs_mul, abs_of_pos (by positivity : (0 : ℝ) < Real.pi / 360)]
      ring
    have hd : |lat2 - lat1| ≤ 180 := by
      rw [abs_le]; constructor <;> linarith
    have hx0 : 0 ≤ |x| := abs_nonneg x
    have hx1 : |x| ≤ Real.pi / 2 := by
      rw [hxabs]; nlinarith
    have hsin : Real.sqrt (Real.sin x ^ 2) = Real.sin |x| := by
      rw [Real.sqrt_sq_eq_abs]
      rcases abs_cases x with ⟨he, _⟩ | ⟨he, _⟩
      · rw [he]
        exact abs_of_nonneg (Real.sin_nonneg_of_nonneg_of_le_pi (he ▸ hx0) (by linarith))
      · rw [he, Real.sin_neg]
        have : 0 ≤ Real.sin (-x) :=
          Real.sin_nonneg_of_nonneg_of_le_pi (he ▸ hx0) (by linarith)
        rw [Real.sin_neg] at this
        rw [abs_of_nonpos (by linarith)]
    have hcos : Real.sqrt (1 - Real.sin x ^ 2) = Real.cos |x| := by
      rw [← Real.cos_sq', Real.sqrt_sq_eq_abs, Real.cos_abs]
      apply abs_of_nonneg
      rw [← Real.cos_abs]
      exact Real.cos_nonneg_of_neg_pi_div_two_le_of_le (by linarith) hx1
    rw [hsin, hcos, atan2_sin_cos |x| hx0 hx1, hxabs]
    ring
  · intro lat lon
    unfold haversineMeters
    simp only [haversineA_same_point]
    have h := atan2_sin_cos 0 le_rfl (by linarith)
    simp only [Real.sin_zero, Real.cos_zero] at h
    simp [h]
  · unfold haversineMeters
    have hb := atan2_sqrt_bounds (haversineA lat1 lon1 lat2 lon2)
    simp only
    nlinarith [hb.1]
  · unfold haversineMeters
    have hb := atan2_sqrt_bounds (haversineA lat1 lon1 lat2 lon2)
    simp only
    nlinarith [hb.2]

/-- C20 at concrete points: from the equator to the pole along the meridian of Greenwich. -/
theorem haversineMeters_real_witness :
    ((0 : ℝ) = 0 →
        haversineMeters 0 0 90 0 = 6371000 * |(90 : ℝ) - 0| * Real.pi / 180)
      ∧ (∀ lat lon, haversineMeters lat lon lat lon = 0)
      ∧ (0 ≤ haversineA 0 0 90 0 ∧ haversineA 0 0 90 0 ≤ 1)
      ∧ 0 ≤ haversineMeters 0 0 90 0
      ∧ haversineMeters 0 0 90 0 ≤ Real.pi * 6371000 :=
  haversineMeters_real 0 0 90 0 (by norm_num) (by norm_num) (by norm_num) (by norm_num)

/-! ## C21: the geofence decision of the three paths -/

theorem haversineA_symm (lat1 lon1 lat2 lon2 : ℝ) :
    haversineA lat1 lon1 lat2 lon2 = haversineA lat2 lon2 lat1 lon1 := by
  have h1 : toRad (lat1 - lat2) / 2 = -(toRad (lat2 - lat1) / 2) := by
    unfold toRad; ring
  have h2 : toRad (lon1 - lon2) / 2 = -(toRad (lon2 - lon1) / 2) := by
    unfold toRad; ring
  simp only [haversineA, h1, h2, Real.sin_neg]
  ring

theorem haversineMeters_symm (lat1 lon1 lat2 lon2 : ℝ) :
    haversineMeters lat1 lon1 lat2 lon2 = haversineMeters lat2 lon2 lat1 lon1 := by
  unfold haversineMeters
  rw [haversineA_symm]

theorem gridMeters_symm (a b c d : ℚ) : gridMeters a b c d = gridMeters c d a b := by
  unfold gridMeters
  rw [abs_sub_comm c a, abs_sub_comm d b]

theorem findUserById_eq_ownerById (users : List User)
    (hnd : (users.map (fun u => u._id)).Nodup) (oid : Nat) :
    findUserById users oid = ownerById users oid := by
  unfold ownerById
  cases hu : findUserById users oid with
  | none =>
    unfold findUserById at hu
    rw [List.find?_eq_none] at hu
    symm
    rw [mapGet_map_none (fun u : User => u._id) (fun u => u) users oid]
    intro x hx
    simpa using hu x hx
  | some u =>
    unfold findUserById at hu
    have h1 := List.find?_some hu
    have h2 := List.mem_of_find?_eq_some hu
    simp only [decide_eq_true_eq] at h1
    have := mapGet_map_of_nodup (fun u : User => u._id) (fun u => u) users hnd u h2
    simp only [h1] at this
    exact this.symm

theorem ownerOf_eq_nearbyOwner (users : List User)
    (hnd : (users.map (fun u => u._id)).Nodup) (dog : Dog) :
    ownerOf users dog = nearbyOwner users dog := by
  unfold ownerOf nearbyOwner
  cases dog.ownerId with
  | none => rfl
  | some oid => exact findUserById_eq_ownerById users hnd oid

/-- When no stored home coordinate is `null`, the test of `GET /locations` on an existing
latest record is the test of the report on the position of that record. -/
theorem hiddenAtHome_eq_report (hav : Haversine) (t : ℚ) (owner : Option User) (l : Location)
    (hnn : noNullHome owner) :
    hiddenAtHome hav t owner (some l) = insideOwnerHomeReport hav t owner l.lat l.lon := by
  unfold hiddenAtHome insideOwnerHomeReport
  rw [listingHome_eq_homePoint owner hnn]
  cases homePoint owner with
  | none => rfl
  | some hp =>
    obtain ⟨hla, hlo⟩ := hp
    rfl

/-- For a symmetric distance function the test of `POST /nearby` is the test of the report
with the threshold of the request. -/
theorem insideOwnerHomeNearby_eq_report (hav : Haversine)
    (hsym : ∀ a b c d, hav a b c d = hav c d a b) (b : NearbyBody) (users : List User)
    (dog : Dog) (p : PublicLocation) :
    insideOwnerHomeNearby hav b users dog p
      = insideOwnerHomeReport hav (b.homeThresholdMeters.getD 50) (nearbyOwner users dog)
          p.lat p.lon := by
  unfold insideOwnerHomeNearby insideOwnerHomeReport
  cases homePoint (nearbyOwner users dog) with
  | none => rfl
  | some hp =>
    obtain ⟨hla, hlo⟩ := hp
    simp only [hsym p.lat p.lon hla hlo]

/-- Where the three geofence tests agree. Over real arithmetic
`haversineMeters(lat1, lon1, lat2, lon2)` equals `haversineMeters(lat2, lon2, lat1, lon1)`
for all arguments; and for every symmetric distance function, every owner collection (user
ids unique), dog whose owner has no stored `null` home coordinate, point and threshold
`t`, the inside-home test of `POST /location` (distance from home to point), the test of
`POST /nearby` with `homeThresholdMeters = t` (distance from point to home) and the test
of `GET /locations` on a latest record at that point give the same answer, which is
"inside" exactly when the owner has a home point within `t` of the point. -/
theorem geofence_decisions_agree (hav : Haversine)
    (hsym : ∀ a b c d, hav a b c d = hav c d a b)
    (users : List User) (hnd : (users.map (fun u => u._id)).Nodup)
    (dog : Dog) (hnn : noNullHome (nearbyOwner users dog))
    (b : NearbyBody) (t : ℚ) (hb : b.homeThresholdMeters.getD 50 = t)
    (e : Nat) (lat lon : ℚ) (ts1 ts2 : Option Int) :
    (∀ la1 lo1 la2 lo2 : ℝ,
        haversineMeters la1 lo1 la2 lo2 = haversineMeters la2 lo2 la1 lo1)
      ∧ insideOwnerHomeNearby hav b users dog
            { dogId := e, lat := lat, lon := lon, timestamp := ts1 }
          = insideOwnerHomeReport hav t (ownerOf users dog) lat lon
      ∧ hiddenAtHome hav t (nearbyOwner users dog)
            (some { dogId := e, lat := lat, lon := lon, timestamp := ts2 })
          = insideOwnerHomeReport hav t (ownerOf users dog) lat lon
      ∧ (insideOwnerHomeReport hav t (ownerOf users dog) lat lon = true
          ↔ ∃ hla hlo, homePoint (ownerOf users dog) = some (hla, hlo)
              ∧ hav hla hlo lat lon ≤ t) := by
  refine ⟨haversineMeters_symm, ?_, ?_, ?_⟩
  · rw [insideOwnerHomeNearby_eq_report hav hsym, hb, ownerOf_eq_nearbyOwner users hnd]
  · rw [hiddenAtHome_eq_report _ _ _ _ hnn, ownerOf_eq_nearbyOwner users hnd]
  · unfold insideOwnerHomeReport
    cases homePoint (ownerOf users dog) with
    | none => simp
    | some hp =>
      obtain ⟨hla, hlo⟩ := hp
      simp only [decide_eq_true_eq, Option.some.injEq, Prod.mk.injEq]
      constructor
      · intro h; exact ⟨hla, hlo, ⟨rfl, rfl⟩, h⟩
      · rintro ⟨a, c, ⟨rfl, rfl⟩, h⟩; exact h

/-- The agreement at a concrete store: the dog of `exOwner` at its home point, threshold 50. -/
theorem geofence_decisions_agree_example :
    (∀ la1 lo1 la2 lo2 : ℝ,
        haversineMeters la1 lo1 la2 lo2 = haversineMeters la2 lo2 la1 lo1)
      ∧ insideOwnerHomeNearby gridMeters exBody exStore.users exDog
            { dogId := 7, lat := 10, lon := 20, timestamp := some 1005 }
          = insideOwnerHomeReport gridMeters 50 (ownerOf exStore.users exDog) 10 20
      ∧ hiddenAtHome gridMeters 50 (nearbyOwner exStore.users exDog)
            (some { dogId := 7, lat := 10, lon := 20, timestamp := some 1000 })
          = insideOwnerHomeReport gridMeters 50 (ownerOf exStore.users exDog) 10 20
      ∧ (insideOwnerHomeReport gridMeters 50 (ownerOf exStore.users exDog) 10 20 = true
          ↔ ∃ hla hlo, homePoint (ownerOf exStore.users exDog) = some (hla, hlo)
              ∧ gridMeters hla hlo 10 20 ≤ 50) :=
  geofence_decisions_agree gridMeters gridMeters_symm exStore.users (by decide) exDog
    (by
      intro o h ho hh
      have h1 : nearbyOwner exStore.users exDog = some exOwner := by decide!
      rw [h1] at ho
      have h2 := Option.some.inj ho
      subst h2
      have h3 : exOwner.homeLocation = some { lat := Coord.num 10, lon := Coord.num 20 } := rfl
      rw [h3] at hh
      have h4 := Option.some.inj hh
      subst h4
      exact ⟨by decide, by decide⟩)
    exBody 50 rfl 7 10 20 (some 1005) (some 1000)

/-- The three tests evaluated at the home point and one degree away from it. -/
theorem geofence_decisions_evaluated :
    insideOwnerHomeReport gridMeters 50 (ownerOf exStore.users exDog) 10 20 = true
      ∧ insideOwnerHomeNearby gridMeters exBody exStore.users exDog
          { dogId := 7, lat := 10, lon := 20, timestamp := some 1005 } = true
      ∧ hiddenAtHome gridMeters 50 (nearbyOwner exStore.users exDog)
          (some { dogId := 7, lat := 10, lon := 20, timestamp := some 1000 }) = true
      ∧ insideOwnerHomeReport gridMeters 50 (ownerOf exStore.users exDog) 11 20 = false
      ∧ insideOwnerHomeNearby gridMeters exBody exStore.users exDog
          { dogId := 7, lat := 11, lon := 20, timestamp := some 1005 } = false
      ∧ hiddenAtHome gridMeters 50 (nearbyOwner exStore.users exDog)
          (some { dogId := 7, lat := 11, lon := 20, timestamp := some 1000 }) = false := by
  refine ⟨by decide!, by decide!, by decide!, by decide!, by decide!, by decide!⟩

/-- C21 (the code at the failing input). The owner's stored home is `{ lat: null, lon: 20 }`
and the point is (0, 20), threshold 50. The tests of `POST /location` and of `POST /nearby`
require `lat != null` and `lon != null` of the home and say "not inside"; the test of
`GET /locations` requires only `owner.homeLocation`, computes the distance with the `null`
as `0`, and says "inside". -/
theorem geofence_decisions_differ_for_null_home :
    exOwnerNullHome.homeLocation = some { lat := Coord.null, lon := Coord.num 20 }
      ∧ insideOwnerHomeReport gridMeters 50 (ownerOf exNullHome.users exDog) 0 20 = false
      ∧ insideOwnerHomeNearby gridMeters exBody exNullHome.users exDog
          { dogId := 7, lat := 0, lon := 20, timestamp := some 1005 } = false
      ∧ hiddenAtHome gridMeters 50 (nearbyOwner exNullHome.users exDog)
          (some { dogId := 7, lat := 0, lon := 20, timestamp := some 1000 }) = true := by
  refine ⟨rfl, by decide!, by decide!, by decide!⟩

/-! ## C22: freshness of the mirror after the maintenance pass -/

/-- The mirror documents of a sharing dog with a latest canonical record, after the
maintenance pass. -/
theorem recsOf_maintain_sharing (now : Int) (dogs : List Dog) (locs : List Location)
    (pubs : List PublicLocation) (e : Nat) (latest : Location)
    (hs : isSharing dogs e = true) (hl : findLatest locs e = some latest) :
    recsOf e (maintainBeforeNearby now dogs locs pubs)
      = if needsRefresh now (recsOf e pubs).getLast? latest = true
        then mirrorOf now e latest :: (recsOf e pubs).tail
        else recsOf e pubs := by
  rw [recsOf_maintain, if_pos hs]
  unfold sweepWrite
  rw [hl]
  simp only
  split_ifs <;> rfl

theorem needsRefresh_iff (now : Int) (pub : Option PublicLocation) (latest : Location) :
    needsRefresh now pub latest = true
      ↔ pub = none ∨ ∃ p, pub = some p ∧ p.timestamp.getD 0 < latest.timestamp.getD now := by
  unfold needsRefresh
  cases pub with
  | none => simp
  | some p => simp

/-- C22. After the maintenance pass of `POST /nearby`, for every store: a dog with
`sharePublic` true and a canonical record has a mirror document whose timestamp is not
older than that of its latest canonical record (as the pass reads them: a missing
canonical timestamp is the current time, a missing mirror timestamp is the epoch); the
mirror documents of a dog are changed by the pass only when the dog shares, has a
canonical record, and its mirror document is absent or strictly older than the latest
canonical record, and then the dog's first mirror document becomes the copy of that
record (its `lat`, `lon` and timestamp); and the pass writes nothing for a dog without a
canonical record or without `sharePublic`. -/
theorem sweep_freshness (now : Int) (dogs : List Dog) (locs : List Location)
    (pubs : List PublicLocation) (e : Nat) :
    (isSharing dogs e = true → ∀ latest, findLatest locs e = some latest →
        ∃ p ∈ maintainBeforeNearby now dogs locs pubs,
          p.dogId = e ∧ latest.timestamp.getD now ≤ p.timestamp.getD 0)
      ∧ (recsOf e (maintainBeforeNearby now dogs locs pubs) ≠ recsOf e pubs →
          isSharing dogs e = true
            ∧ ∃ latest, findLatest locs e = some latest
                ∧ (recsOf e pubs = []
                    ∨ ∃ pub, (recsOf e pubs).getLast? = some pub
                        ∧ pub.timestamp.getD 0 < latest.timestamp.getD now)
                ∧ recsOf e (maintainBeforeNearby now dogs locs pubs)
                    = { dogId := e, lat := latest.lat, lon := latest.lon,
                        timestamp := some (latest.timestamp.getD now) }
                      :: (recsOf e pubs).tail)
      ∧ (findLatest locs e = none →
          recsOf e (maintainBeforeNearby now dogs locs pubs) = recsOf e pubs)
      ∧ (isSharing dogs e = false →
          recsOf e (maintainBeforeNearby now dogs locs pubs) = recsOf e pubs) := by
  refine ⟨?_, ?_, ?_, ?_⟩
  · intro hs latest hl
    have hr := recsOf_maintain_sharing now dogs locs pubs e latest hs hl
    by_cases hn : needsRefresh now (recsOf e pubs).getLast? latest = true
    · rw [if_pos hn] at hr
      have hm : mirrorOf now e latest ∈ recsOf e (maintainBeforeNearby now dogs locs pubs) := by
        rw [hr]; exact List.mem_cons_self _ _
      obtain ⟨hm1, hm2⟩ := mem_of_mem_recsOf _ _ _ hm
      exact ⟨mirrorOf now e latest, hm1, hm2, le_refl _⟩
    · rw [if_neg hn] at hr
      rw [needsRefresh_iff] at hn
      cases hg : (recsOf e pubs).getLast? with
      | none => exact absurd (Or.inl hg) hn
      | some pub =>
        have hle : latest.timestamp.getD now ≤ pub.timestamp.getD 0 := by
          by_contra hlt
          exact hn (Or.inr ⟨pub, hg, not_le.mp hlt⟩)
        have hm : pub ∈ recsOf e (maintainBeforeNearby now dogs locs pubs) := by
          rw [hr]; exact List.mem_of_getLast?_eq_some hg
        obtain ⟨hm1, hm2⟩ := mem_of_mem_recsOf _ _ _ hm
        exact ⟨pub, hm1, hm2, hle⟩
  · intro hne
    by_cases hs : isSharing dogs e = true
    · refine ⟨hs, ?_⟩
      cases hl : findLatest locs e with
      | none =>
        exfalso
        apply hne
        rw [recsOf_maintain, if_pos hs]
        unfold sweepWrite
        rw [hl]
      | some latest =>
        have hr := recsOf_maintain_sharing now dogs locs pubs e latest hs hl
        by_cases hn : needsRefresh now (recsOf e pubs).getLast? latest = true
        · rw [if_pos hn] at hr
          refine ⟨latest, rfl, ?_, hr⟩
          rcases (needsRefresh_iff _ _ _).mp hn with h | ⟨pub, hp, hlt⟩
          · exact Or.inl (List.getLast?_eq_none_iff.mp h)
          · exact Or.inr ⟨pub, hp, hlt⟩
        · rw [if_neg hn] at hr
          exact absurd hr hne
    · exfalso
      apply hne
      rw [recsOf_maintain, if_neg hs]
  · intro hl
    rw [recsOf_maintain]
    split_ifs
    · unfold sweepWrite
      rw [hl]
    · rfl
  · intro hs
    rw [recsOf_maintain, hs]
    rfl

/-- The maintenance pass evaluated: the mirror of the dog at home, emptied by its report,
gets the copy of the latest canonical record; the mirror document written at 1005 for the
record of 1000 is left alone; a sharing dog without canonical record gets none. -/
theorem sweep_freshness_evaluated :
    maintainBeforeNearby 2000 exAtHome.dogs exAtHome.locations exAtHome.publicLocations
        = [{ dogId := 7, lat := 10, lon := 20, timestamp := some 1000 }]
      ∧ maintainBeforeNearby 2000 exAway.dogs exAway.locations exAway.publicLocations
        = [{ dogId := 7, lat := 11, lon := 20, timestamp := some 1005 }]
      ∧ maintainBeforeNearby 2000 exStore.dogs exStore.locations exStore.publicLocations = [] := by
  refine ⟨by decide!, by decide!, by decide!⟩

/-! ## C6: the radius filter when the distance is `NaN` -/

theorem filterMap_result_toJs (l : List Verdict) :
    (l.map Verdict.toJs).filterMap VerdictJs.result?
      = (l.filterMap Verdict.result?).map NearbyResult.toJs := by
  induction l with
  | nil => rfl
  | cons v vs ih =>
    cases v with
    | skip e => simpa [Verdict.toJs, VerdictJs.result?, Verdict.result?] using ih
    | emit r => simpa [Verdict.toJs, VerdictJs.result?, Verdict.result?] using ih

theorem filterMap_debug_toJs (l : List Verdict) :
    (l.map Verdict.toJs).filterMap VerdictJs.debug?
      = (l.filterMap Verdict.debug?).map DebugEntry.toJs := by
  induction l with
  | nil => rfl
  | cons v vs ih =>
    cases v with
    | skip e => simpa [Verdict.toJs, VerdictJs.debug?, Verdict.debug?] using ih
    | emit r => simpa [Verdict.toJs, VerdictJs.debug?, Verdict.debug?] using ih

/-- On a distance function that never returns `NaN` the loop body over floating-point
results is `nearbyVerdict`. -/
theorem nearbyVerdictJs_numberValued (hav : Haversine) (b : NearbyBody)
    (dById : List (Nat × Dog)) (oById : List (Nat × User)) (p : PublicLocation) :
    nearbyVerdictJs (numberValued hav) b dById oById p
      = (nearbyVerdict hav b dById oById p).toJs := by
  unfold nearbyVerdictJs nearbyVerdict
  cases mapGet dById p.dogId with
  | none => rfl
  | some dog =>
    simp only [numberValued, JsNum.le, JsNum.gt]
    cases homePoint (match dog.ownerId with
      | some oid => mapGet oById oid
      | none => none) with
    | none =>
      simp only
      cases b.lat with
      | none => rfl
      | some qlat =>
        cases b.lon with
        | none => rfl
        | some qlon =>
          simp only [decide_eq_true_eq]
          split_ifs <;> rfl
    | some hp =>
      obtain ⟨hla, hlo⟩ := hp
      simp only [decide_eq_true_eq]
      by_cases hin : hav p.lat p.lon hla hlo ≤ b.homeThresholdMeters.getD 50
      · simp only [hin, if_true]
        rfl
      · simp only [hin, if_false]
        cases b.lat with
        | none => rfl
        | some qlat =>
          cases b.lon with
          | none => rfl
          | some qlon =>
            simp only
            split_ifs <;> rfl

/-- On a distance function that never returns `NaN` the handler over floating-point
results is `nearby`. -/
theorem nearbyJs_numberValued (hav : Haversine) (now : Int) (s : Store) (b : NearbyBody) :
    nearbyJs (numberValued hav) now s b
      = ((nearby hav now s b).1, (nearby hav now s b).2.toJs) := by
  have hv : nearbyVerdictJs (numberValued hav) b
        (preloadDogs (sweep now s).dogs (sweep now s).publicLocations)
        (preloadOwners (sweep now s).users (sweep now s).dogs (sweep now s).publicLocations)
      = fun p => (nearbyVerdict hav b
        (preloadDogs (sweep now s).dogs (sweep now s).publicLocations)
        (preloadOwners (sweep now s).users (sweep now s).dogs (sweep now s).publicLocations)
        p).toJs := by
    funext p
    exact nearbyVerdictJs_numberValued hav b _ _ p
  have hm : ∀ l : List PublicLocation,
      l.map (fun p => (nearbyVerdict hav b
        (preloadDogs (sweep now s).dogs (sweep now s).publicLocations)
        (preloadOwners (sweep now s).users (sweep now s).dogs (sweep now s).publicLocations)
        p).toJs)
      = (l.map (nearbyVerdict hav b
        (preloadDogs (sweep now s).dogs (sweep now s).publicLocations)
        (preloadOwners (sweep now s).users (sweep now s).dogs
          (sweep now s).publicLocations))).map Verdict.toJs := by
    intro l
    rw [List.map_map]
    rfl
  unfold nearbyJs nearby nearbyReadJs nearbyRead NearbyPayload.toJs
  simp only [hv, hm, filterMap_result_toJs, filterMap_debug_toJs, List.length_map]
  cases b.debug <;> rfl

/-- A record whose distance from the query point is `NaN` passes the radius test, whatever
`radiusMeters`: for a record of an existing dog whose owner has no home point, the loop
pushes the element with `distanceMeters` `NaN`. -/
theorem nearbyVerdictJs_nan (hav : HaversineJs) (b : NearbyBody) (dById : List (Nat × Dog))
    (oById : List (Nat × User)) (p : PublicLocation) (dog : Dog) (qlat qlon : ℚ)
    (hdog : mapGet dById p.dogId = some dog)
    (hhome : homePoint (match dog.ownerId with
      | some oid => mapGet oById oid
      | none => none) = none)
    (hlat : b.lat = some qlat) (hlon : b.lon = some qlon)
    (hnan : hav qlat qlon p.lat p.lon = JsNum.nan) :
    nearbyVerdictJs hav b dById oById p
      = VerdictJs.emit
          { dogId := p.dogId, lat := p.lat, lon := p.lon, timestamp := p.timestamp,
            profile := dog.profile, sharePublic := dog.sharePublic,
            distanceMeters := some JsNum.nan } := by
  unfold nearbyVerdictJs
  simp only [hdog, hhome, hlat, hlon, hnan, JsNum.gt, Bool.false_eq_true, if_false]

theorem nearbyVerdictJs_nan_example :
    nearbyVerdictJs (haversineMetersJs exRuntime) exAntipodalQuery [(7, exDog)]
        [(1, exOwnerNoHome)] { dogId := 7, lat := 8, lon := 0, timestamp := some 1005 }
      = VerdictJs.emit
          { dogId := 7, lat := 8, lon := 0, timestamp := some 1005,
            profile := exProfile, sharePublic := true, distanceMeters := some JsNum.nan } :=
  nearbyVerdictJs_nan (haversineMetersJs exRuntime) exAntipodalQuery [(7, exDog)]
    [(1, exOwnerNoHome)] { dogId := 7, lat := 8, lon := 0, timestamp := some 1005 } exDog
    (-8) (-180) (by decide!) (by decide!) rfl rfl (by decide!)

/-- C6 (the code at the failing input). The sharing dog reported from (8, 0); the request
is `{ lat: -8, lon: -180, radiusMeters: 10 }`, the antipode. In every floating-point
runtime in which the `a` of `haversineMeters(-8, -180, 8, 0)` comes out above `1` (it is
`1.0000000000000002`), `Math.sqrt(1 - a)` and with it `distanceMeters` are `NaN`,
`distanceMeters > Number(radiusMeters)` is false, and the record is returned within a
radius of 10 m, with `distanceMeters` `NaN`. -/
theorem nearby_returns_record_at_nan_distance (rt : FloatRuntime)
    (ha : 1 < rt.a (-8) (-180) 8 0) :
    haversineMetersJs rt (-8) (-180) 8 0 = JsNum.nan
      ∧ (nearbyJs (haversineMetersJs rt) 2000 exAntipodal exAntipodalQuery).1.publicLocations
          = [{ dogId := 7, lat := 8, lon := 0, timestamp := some 1005 }]
      ∧ (nearbyJs (haversineMetersJs rt) 2000 exAntipodal exAntipodalQuery).2.results
          = [{ dogId := 7, lat := 8, lon := 0, timestamp := some 1005,
               profile := exProfile, sharePublic := true,
               distanceMeters := some JsNum.nan }] := by
  have hnan : haversineMetersJs rt (-8) (-180) 8 0 = JsNum.nan := by
    unfold haversineMetersJs
    simp only
    rw [if_pos]
    right
    linarith
  have hs : sweep 2000 exAntipodal
      = { users := [exOwnerNoHome], dogs := [exDog],
          locations := [{ dogId := 7, lat := 8, lon := 0, timestamp := some 1000 }],
          publicLocations := [{ dogId := 7, lat := 8, lon := 0, timestamp := some 1005 }] } := by
    decide!
  have hd : preloadDogs [exDog] [{ dogId := 7, lat := 8, lon := 0, timestamp := some 1005 }]
      = [(7, exDog)] := by decide!
  have ho : preloadOwners [exOwnerNoHome] [exDog]
      [{ dogId := 7, lat := 8, lon := 0, timestamp := some 1005 }] = [(1, exOwnerNoHome)] := by
    decide!
  have hv := nearbyVerdictJs_nan (haversineMetersJs rt) exAntipodalQuery [(7, exDog)]
    [(1, exOwnerNoHome)] { dogId := 7, lat := 8, lon := 0, timestamp := some 1005 } exDog
    (-8) (-180) (by decide!) (by decide!) rfl rfl hnan
  refine ⟨hnan, ?_, ?_⟩
  · unfold nearbyJs
    simp only [hs]
  · unfold nearbyJs nearbyReadJs
    simp only [hs, hd, ho, List.map_cons, List.map_nil, hv]
    rfl

/-- C6 at the example runtime, where `a` is `1 + 2^-52` at the antipodal pair. -/
theorem nearby_returns_record_at_nan_distance_witness :
    1 < exRuntime.a (-8) (-180) 8 0
      ∧ haversineMetersJs exRuntime (-8) (-180) 8 0 = JsNum.nan
      ∧ (nearbyJs (haversineMetersJs exRuntime) 2000 exAntipodal
            exAntipodalQuery).1.publicLocations
          = [{ dogId := 7, lat := 8, lon := 0, timestamp := some 1005 }]
      ∧ (nearbyJs (haversineMetersJs exRuntime) 2000 exAntipodal exAntipodalQuery).2.results
          = [{ dogId := 7, lat := 8, lon := 0, timestamp := some 1005,
               profile := exProfile, sharePublic := true,
               distanceMeters := some JsNum.nan }] :=
  ⟨by decide!, nearby_returns_record_at_nan_distance exRuntime (by decide!)⟩

/-- Away from the antipodal pair the example runtime behaves like `gridMeters`: the report
at (8, 0) is returned to a query at (8, 0) with distance `0`, and is out of a radius of 10 m
for a query one degree to the north. -/
theorem nearbyJs_radius_evaluated :
    (nearbyJs (haversineMetersJs exRuntime) 2000 exAntipodal
        { exAntipodalQuery with lat := some 8, lon := some 0 }).2.results
        = [{ dogId := 7, lat := 8, lon := 0, timestamp := some 1005,
             profile := exProfile, sharePublic := true,
             distanceMeters := some (JsNum.num 0) }]
      ∧ (nearbyJs (haversineMetersJs exRuntime) 2000 exAntipodal
          { exAntipodalQuery with lat := some 9, lon := some 0 }).2.results = []
      ∧ haversineMetersJs exRuntime 9 0 8 0 = JsNum.num 111195 := by
  refine ⟨by decide!, by decide!, by decide!⟩

/-- Over real arithmetic the `a` of `haversineMeters(-8, -180, 8, 0)` is exactly `1` and
the distance is `R * π` (about 20015 km): the point (8, 0) is far outside a radius of
10 m around its antipode. -/
theorem haversineMeters_antipode :
    haversineA (-8) (-180) 8 0 = 1
      ∧ haversineMeters (-8) (-180) 8 0 = 6371000 * Real.pi
      ∧ (10 : ℝ) < haversineMeters (-8) (-180) 8 0 := by
  have ha : haversineA (-8) (-180) 8 0 = 1 := by
    unfold haversineA toRad
    have h1 : ((8 : ℝ) - -8) * Real.pi / 180 / 2 = 8 * Real.pi / 180 := by ring
    have h2 : ((0 : ℝ) - -180) * Real.pi / 180 / 2 = Real.pi / 2 := by ring
    have h3 : (-8 : ℝ) * Real.pi / 180 = -(8 * Real.pi / 180) := by ring
    simp only [h1, h2, h3, Real.sin_pi_div_two, Real.cos_neg, mul_one]
    have := Real.sin_sq_add_cos_sq (8 * Real.pi / 180)
    nlinarith [this]
  have hm : haversineMeters (-8) (-180) 8 0 = 6371000 * Real.pi := by
    unfold haversineMeters
    simp only [ha, sub_self, Real.sqrt_one, Real.sqrt_zero]
    have hI : atan2 1 0 = Real.pi / 2 := by
      unfold atan2
      have : (⟨0, 1⟩ : ℂ) = Complex.I := by
        apply Complex.ext <;> simp
      rw [this, Complex.arg_I]
    rw [hI]
    ring
  refine ⟨ha, hm, ?_⟩
  rw [hm]
  have := Real.pi_gt_three
  nlinarith [this]

end DogNet
